import Mathlib

/-!
# Stage-to-pod compiler of cyclone: `pkg/workflow/workflowrun/pod.go`

A shallow embedding of the `PodBuilder` passes.  Go structs become Lean
structures with the Go field names, Go maps become association lists read by
first match, `error` results become `Except Err`, and the mutable builder
becomes explicit state passing: every pass is a function
`PodBuilder → Except Err PodBuilder`.

Values have value semantics: two containers never share one Go map object.
A `for … range` over a Go map visits the keys in an unspecified order; the
embedding visits them in insertion order, which is one of the permitted orders.
-/

namespace Cyclone

/-! ## Go maps with string keys and string values -/

/-- A `map[string]string`; also used for `corev1.ResourceList`, whose
quantities are kept as their textual form. -/
abbrev StrMap := List (String × String)

/-- The read `v, ok := m[k]`. -/
def mapGet : StrMap → String → Option String
  | [], _ => none
  | (k', v') :: m, k => if k' = k then some v' else mapGet m k

/-- The assignment `m[k] = v`. -/
def mapSet : StrMap → String → String → StrMap
  | [], k, v => [(k, v)]
  | (k', v') :: m, k, v => if k' = k then (k, v) :: m else (k', v') :: mapSet m k v

/-- The test `_, ok := m[k]`. -/
def mapHas (m : StrMap) (k : String) : Bool := (mapGet m k).isSome

/-! ## Errors -/

/-- The ways a pass can stop. `errorf` is an error built by `fmt.Errorf` in
`pod.go`; `upstream` is an error returned by a collaborator (cluster client,
`encoding/json`, `mustache`, reference lookup) and handed on unchanged;
`crash` is a Go run-time fault (nil dereference, index out of range), which is
not an `error` value. -/
inductive Err where
  | errorf (msg : String)
  | upstream (msg : String)
  | crash (what : String)
deriving DecidableEq, Repr

/-- Lift a collaborator result, keeping its error unchanged. -/
def liftUp {α : Type} : Except String α → Except Err α
  | .ok a => .ok a
  | .error e => .error (.upstream e)

/-- The message `s` contains `t` as a contiguous piece. -/
def Contains (s t : String) : Prop := ∃ pre post : String, s = pre ++ t ++ post

/-! ## Kubernetes core types (the fields the builder touches) -/

structure EnvVar where
  Name : String
  Value : String
deriving DecidableEq, Repr

structure VolumeMount where
  Name : String
  MountPath : String
  SubPath : String
deriving DecidableEq, Repr

/-- The source of a volume. A `corev1.VolumeSource` has one optional field per
kind; a valid volume sets one of them. `Other` stands for the kinds the builder
never creates. -/
inductive VolumeSource where
  | EmptyDir
  | PersistentVolumeClaim (ClaimName : String)
  | HostPath (Path : String) (HostPathType : String)
  | Secret (SecretName : String) (Items : List (String × String))
  | Other (raw : String)
deriving DecidableEq, Repr

structure Volume where
  Name : String
  VolumeSource : VolumeSource
deriving DecidableEq, Repr

/-- A `corev1.ResourceRequirements`; `none` is a nil map. -/
structure ResourceRequirements where
  Limits : Option StrMap
  Requests : Option StrMap
deriving DecidableEq, Repr

/-- A `corev1.Container`. `Rest` stands for every field the builder neither
reads nor writes (command, ports, probes, …). -/
structure Container where
  Name : String
  Image : String
  Args : List String
  Env : List EnvVar
  VolumeMounts : List VolumeMount
  ImagePullPolicy : String
  Resources : ResourceRequirements
  Rest : String
deriving DecidableEq, Repr

structure PodSpec where
  Volumes : List Volume
  InitContainers : List Container
  Containers : List Container
  RestartPolicy : String
  ServiceAccountName : String
  Rest : String
deriving DecidableEq, Repr

structure ObjectMeta where
  Name : String
  Namespace : String
  Labels : StrMap
  Annotations : StrMap
deriving DecidableEq, Repr

structure Pod where
  ObjectMeta : ObjectMeta
  Spec : PodSpec
deriving DecidableEq, Repr

/-- The zero value `corev1.ResourceRequirements{}`. -/
def ResourceRequirements.zero : ResourceRequirements := { Limits := none, Requests := none }

/-- The zero value `corev1.PodSpec{}`. -/
def PodSpec.zero : PodSpec :=
  { Volumes := [], InitContainers := [], Containers := [], RestartPolicy := "",
    ServiceAccountName := "", Rest := "" }

/-- The zero value `corev1.Pod{}`. -/
def Pod.zero : Pod :=
  { ObjectMeta := { Name := "", Namespace := "", Labels := [], Annotations := [] },
    Spec := PodSpec.zero }

/-! ## Cyclone custom resources (`v1alpha1`) -/

/-- A name with a value: `ArgumentValue` and `ParameterItem`. -/
structure ParameterItem where
  Name : String
  Value : String
deriving DecidableEq, Repr

/-- A name with a path: stage resources and artifacts. -/
structure PathItem where
  Name : String
  Path : String
deriving DecidableEq, Repr

structure Inputs where
  Arguments : List ParameterItem
  Resources : List PathItem
  Artifacts : List PathItem
deriving DecidableEq, Repr

structure Outputs where
  Resources : List PathItem
  Artifacts : List PathItem
deriving DecidableEq, Repr

/-- The `v1alpha1.PodSpec` of a stage: typed inputs and outputs around a pod template. -/
structure StagePod where
  Inputs : Inputs
  Outputs : Outputs
  Spec : PodSpec
deriving DecidableEq, Repr

/-- A stage; `Pod = none` is the nil pointer `stage.Spec.Pod`. -/
structure Stage where
  Name : String
  Pod : Option StagePod
deriving DecidableEq, Repr

structure Persistent where
  PVC : String
  Path : String
deriving DecidableEq, Repr

/-- A resource: `Name` and the fields of `resource.Spec`. -/
structure Resource where
  Name : String
  ResourceType : String
  Resolver : String
  Parameters : List ParameterItem
  Persistent : Option Persistent
deriving DecidableEq, Repr

structure ParameterConfig where
  Name : String
  Parameters : List ParameterItem
deriving DecidableEq, Repr

/-- A workflow run: name, namespace and the fields of `wfr.Spec`. -/
structure WorkflowRun where
  Name : String
  Namespace : String
  Stages : List ParameterConfig
  Resources : List ParameterConfig
deriving DecidableEq, Repr

structure ArtifactBinding where
  Name : String
  Source : String
deriving DecidableEq, Repr

structure StageItem where
  Name : String
  Artifacts : List ArtifactBinding
deriving DecidableEq, Repr

/-- A workflow: name and the fields of `wf.Spec`; `Resources = none` is the nil pointer. -/
structure Workflow where
  Name : String
  Stages : List StageItem
  Resources : Option ResourceRequirements
deriving DecidableEq, Repr

structure ExecutionContext where
  Namespace : String
  PVC : String
deriving DecidableEq, Repr

/-! ## What `pod.go` uses and the sources do not contain

Constants and helpers of package `common`, the operator configuration of
package `controller`, helpers of package `workflowrun` defined in other files,
the cluster client and the library calls (`encoding/json`, `mustache`,
`path/filepath`) are parameters: every theorem holds for all of them. -/

structure Deps where
  -- package common: constants
  WorkloadSidecarPrefix : String
  WorkflowLabelName : String
  WorkflowRunAnnotationName : String
  StageAnnotationName : String
  MetaNamespaceAnnotationName : String
  CoordinatorSidecarVolumeName : String
  DefaultPvVolumeName : String
  DockerSockVolume : String
  DockerSockPath : String
  DockerConfigJSONVolume : String
  DockerConfigJSONFile : String
  DockerConfigPath : String
  EnvWorkflowrunName : String
  EnvStageName : String
  EnvStagePodName : String
  EnvNamespace : String
  EnvWorkloadContainerName : String
  EnvCycloneServerAddr : String
  EnvStageInfo : String
  EnvWorkflowRunInfo : String
  EnvOutputResourcesInfo : String
  ResourcePullCommand : String
  ResourcePushCommand : String
  ResolverDefaultWorkspacePath : String
  ResolverDefaultDataPath : String
  ResolverNotifyDirPath : String
  ResolverNotifyDir : String
  StageMountPath : String
  CoordinatorSidecarName : String
  CoordinatorResolverPath : String
  CoordinatorWorkspacePath : String
  -- package common: helpers
  InputResourceVolumeName : String → String
  OutputResourceVolumeName : String → String
  OnlyWorkload : String → Bool
  OnlyCustomContainer : String → Bool
  -- package v1alpha1
  ImageResourceType : String
  -- package controller
  ResolverImageKeys : StrMap
  CoordinatorImage : String
  ConfigImages : StrMap
  ConfigSecret : String
  ConfigCycloneServerAddr : String
  ConfigResourceRequirements : ResourceRequirements
  ConfigServiceAccount : String
  ImagePullPolicy : String
  -- package workflowrun, other files
  PodName : String → String → String
  GetExecutionContext : WorkflowRun → ExecutionContext
  InputContainerName : Nat → String
  OutputContainerName : Nat → String
  GetResourceVolumeName : String → String
  ResolveRefStringValue : String → Except String String
  -- cluster client: `Stages(namespace).Get(name)` and `Resources(namespace).Get(name)`
  getStage : String → String → Except String Stage
  getResource : String → String → Except String Resource
  -- libraries
  jsonMarshalPodSpec : PodSpec → Except String String
  mustacheRender : String → StrMap → Except String String
  jsonUnmarshalPodSpec : String → PodSpec × Option String
  jsonMarshalStage : Stage → Except String String
  jsonMarshalWorkflowRun : WorkflowRun → Except String String
  jsonMarshalResources : List Resource → Except String String
  filepathJoin : String → String → String
  filepathBase : String → String

/-- Modelled from the spec: `common.ResourcePath` is not among the sources; the
spec gives the sub-path `resources/<runName>/<resourceName>`. -/
def ResourcePath (wfr resource : String) : String :=
  "resources/" ++ wfr ++ "/" ++ resource

/-- Modelled from the spec: `common.StagePath` is not among the sources; the
spec gives the sub-path `stages/<runName>/<stageName>`. -/
def StagePath (wfr stage : String) : String :=
  "stages/" ++ wfr ++ "/" ++ stage

/-- Modelled from the spec: `common.ArtifactsPath` is not among the sources; the
spec gives the sub-path `artifacts/<runName>/<stageName>`. -/
def ArtifactsPath (wfr stage : String) : String :=
  "artifacts/" ++ wfr ++ "/" ++ stage

/-- Modelled from the spec: `common.ArtifactPath` is not among the sources; the
spec gives the sub-path `artifacts/<runName>/<sourceStage>/<sourceArtifact>`. -/
def ArtifactPath (wfr stage artifact : String) : String :=
  "artifacts/" ++ wfr ++ "/" ++ stage ++ "/" ++ artifact

/-- Modelled from the spec: `common.AllContainers` is not among the sources; the
spec says operator defaults apply to all containers, init and otherwise. -/
def AllContainers (_name : String) : Bool := true

/-! ## Go string helpers -/

/-- `strings.HasPrefix`. -/
def HasPrefix (s p : String) : Bool := p.toList.isPrefixOf s.toList

/-- `strings.Split(s, "/")`. -/
def splitSlash (s : String) : List String := (s.toList.splitOn '/').map String.mk

/-- `strings.TrimSuffix(s, "/")`. -/
def trimSlashSuffix (s : String) : String :=
  match s.toList.reverse with
  | '/' :: rest => String.mk rest.reverse
  | _ => s

/-! ## The builder -/

/-- The builder; `stg = none` is the nil pointer before `Prepare`. The client
is part of `Deps`. -/
structure PodBuilder where
  wf : Workflow
  wfr : WorkflowRun
  stg : Option Stage
  stage : String
  pod : Pod
  pvcVolumes : StrMap
  executionContext : ExecutionContext
  outputResources : List Resource
deriving DecidableEq, Repr

/-- `NewPodBuilder`. -/
def NewPodBuilder (d : Deps) (wf : Workflow) (wfr : WorkflowRun) (stage : String) : PodBuilder :=
  { wf := wf, wfr := wfr, stg := none, stage := stage, pod := Pod.zero, pvcVolumes := [],
    executionContext := d.GetExecutionContext wfr, outputResources := [] }

/-- The dereference `m.stg.Spec.Pod`: a crash when `m.stg` or the pod is nil. -/
def stagePod (m : PodBuilder) : Except Err (Stage × StagePod) :=
  match m.stg with
  | none => .error (.crash "nil stage")
  | some stg =>
    match stg.Pod with
    | none => .error (.crash "nil stage pod")
    | some sp => .ok (stg, sp)

/-- Replace the pod spec of the builder. -/
def PodBuilder.withSpec (m : PodBuilder) (spec : PodSpec) : PodBuilder :=
  { m with pod := { m.pod with Spec := spec } }

/-- `PodBuilder.Prepare`. -/
def Prepare (d : Deps) (m : PodBuilder) : Except Err PodBuilder :=
  match d.getStage m.wfr.Namespace m.stage with
  | .error e => .error (.upstream e)
  | .ok stage =>
    match stage.Pod with
    | none => .error (.errorf ("pod must be defined in stage spec, stage: " ++ m.stage))
    | some sp =>
      let workloadContainers :=
        (sp.Spec.Containers.filter (fun c => !HasPrefix c.Name d.WorkloadSidecarPrefix)).length
      if workloadContainers ≠ 1 then
        .error (.errorf
          ("only one workload containers supported, others should be sidecars, stage: " ++ m.stage))
      else
        .ok { m with
          stg := some stage
          pod := { m.pod with
            ObjectMeta :=
              { Name := d.PodName m.wf.Name m.stage
                Namespace := m.executionContext.Namespace
                Labels := [(d.WorkflowLabelName, "true")]
                Annotations :=
                  mapSet (mapSet (mapSet [] d.WorkflowRunAnnotationName m.wfr.Name)
                    d.StageAnnotationName m.stage) d.MetaNamespaceAnnotationName m.wfr.Namespace } } }

/-- Lines 91-97 of `ResolveArguments`: the run overrides of this stage. -/
def runParameters (m : PodBuilder) : StrMap :=
  m.wfr.Stages.foldl
    (fun parameters s =>
      if s.Name = m.stage then
        s.Parameters.foldl (fun parameters p => mapSet parameters p.Name p.Value) parameters
      else parameters)
    []

/-- The message of the missing-argument error of `ResolveArguments`. -/
def missingArgumentMessage (arg stg : String) : String :=
  "argument '" ++ arg ++ "' not set in stage '" ++ stg ++ "' and without default value"

/-- Lines 98-108 of `ResolveArguments`: the stage defaults, for the arguments not yet set. -/
def applyDefaults (stgName : String) : List ParameterItem → StrMap → Except Err StrMap
  | [], parameters => .ok parameters
  | a :: rest, parameters =>
    if mapHas parameters a.Name then applyDefaults stgName rest parameters
    else if a.Value = "" then .error (.errorf (missingArgumentMessage a.Name stgName))
    else applyDefaults stgName rest (mapSet parameters a.Name a.Value)

/-- Lines 90-108 of `ResolveArguments`: the parameter map handed to `mustache.Render`. -/
def collectParameters (m : PodBuilder) (stg : Stage) (sp : StagePod) : Except Err StrMap :=
  applyDefaults stg.Name sp.Inputs.Arguments (runParameters m)

/-- `PodBuilder.ResolveArguments`. The error of `json.Unmarshal` is dropped, as in the source. -/
def ResolveArguments (d : Deps) (m : PodBuilder) : Except Err PodBuilder := do
  let (stg, sp) ← stagePod m
  let parameters ← collectParameters m stg sp
  let raw ← liftUp (d.jsonMarshalPodSpec sp.Spec)
  let rendered ← liftUp (d.mustacheRender raw parameters)
  let renderedSpec := (d.jsonUnmarshalPodSpec rendered).1
  pure (m.withSpec { renderedSpec with RestartPolicy := "Never" })

/-- Append a volume to the pod: `m.pod.Spec.Volumes = append(m.pod.Spec.Volumes, v)`. -/
def PodBuilder.appendVolume (m : PodBuilder) (v : Volume) : PodBuilder :=
  m.withSpec { m.pod.Spec with Volumes := m.pod.Spec.Volumes ++ [v] }

/-- `PodBuilder.CreatePVCVolume`: the returned volume name and the builder afterwards. -/
def CreatePVCVolume (m : PodBuilder) (volumeName pvc : String) : String × PodBuilder :=
  match mapGet m.pvcVolumes pvc with
  | some volume => (volume, m)
  | none =>
    (volumeName,
      { m.appendVolume { Name := volumeName, VolumeSource := .PersistentVolumeClaim pvc } with
        pvcVolumes := mapSet m.pvcVolumes pvc volumeName })

/-- `PodBuilder.CreateEmptyDirVolume`. -/
def CreateEmptyDirVolume (m : PodBuilder) (volumeName : String) : PodBuilder :=
  m.appendVolume { Name := volumeName, VolumeSource := .EmptyDir }

/-- `PodBuilder.CreateVolumes`. -/
def CreateVolumes (d : Deps) (m : PodBuilder) : Except Err PodBuilder := do
  let m := m.appendVolume { Name := d.CoordinatorSidecarVolumeName, VolumeSource := .EmptyDir }
  let m ←
    if m.executionContext.PVC ≠ "" then
      let (n, m1) := CreatePVCVolume m d.DefaultPvVolumeName m.executionContext.PVC
      if n ≠ d.DefaultPvVolumeName then
        .error (.errorf (m.executionContext.PVC ++ " already in another volume " ++ n))
      else pure m1
    else pure m
  let m := m.appendVolume
    { Name := d.DockerSockVolume, VolumeSource := .HostPath d.DockerSockPath "Socket" }
  let m :=
    if d.ConfigSecret ≠ "" then
      m.appendVolume
        { Name := d.DockerConfigJSONVolume
          VolumeSource := .Secret d.ConfigSecret [(d.DockerConfigJSONFile, d.DockerConfigJSONFile)] }
    else m
  pure m

/-- The resolver image of a resource: the configured image of a built-in
type, the resource's own resolver otherwise. A key absent from the image map reads as "". -/
def resolverImage (d : Deps) (resource : Resource) : String :=
  match mapGet d.ResolverImageKeys resource.ResourceType with
  | some key => (mapGet d.ConfigImages key).getD ""
  | none => resource.Resolver

/-- The parameters of a resource followed by the run's overrides for the
resource named `name`, written into `envsMap` (later writers win). -/
def resourceEnvsMap (m : PodBuilder) (name : String) (resource : Resource) (envsMap : StrMap) :
    StrMap :=
  let envsMap := resource.Parameters.foldl (fun e p => mapSet e p.Name p.Value) envsMap
  m.wfr.Resources.foldl
    (fun e p =>
      if p.Name = name then p.Parameters.foldl (fun e c => mapSet e c.Name c.Value) e else e)
    envsMap

/-- The loop `for key, value := range envsMap` of both resource passes: every
value goes through `ResolveRefStringValue`; the first failure stops the pass. -/
def resolveEnvs (d : Deps) : StrMap → Except Err (List EnvVar)
  | [] => .ok []
  | (key, value) :: rest =>
    match d.ResolveRefStringValue value with
    | .error e => .error (.errorf ("resolve ref value '" ++ value ++ "' error: " ++ e))
    | .ok resolved =>
      match resolveEnvs d rest with
      | .error e => .error e
      | .ok envs => .ok ({ Name := key, Value := resolved } :: envs)

/-- Lines 300-305: `tmpSubPath`, the sub-path of an input resource in a workload
container; `os.PathSeparator` is the slash. -/
def workloadSubPath (subPath : String) : String :=
  if subPath = "" then "data" else subPath ++ "/" ++ "data"

/-- Lines 299-316: the mount of one input resource into the container `c`. -/
def mountInputResource (d : Deps) (volumeName subPath : String) (r : PathItem) (c : Container) :
    Container :=
  let tmpSubPath := workloadSubPath subPath
  if d.OnlyWorkload c.Name then
    { c with
      VolumeMounts :=
        c.VolumeMounts ++ [{ Name := volumeName, MountPath := r.Path, SubPath := tmpSubPath }] }
  else c

/-- Lines 225-242: the volume name and sub-path of an input resource, and the
builder after the volume was created. -/
def inputResourceVolume (d : Deps) (m : PodBuilder) (r : PathItem) (resource : Resource) :
    String × String × PodBuilder :=
  match resource.Persistent with
  | some persistent =>
    let (volumeName, m1) := CreatePVCVolume m (d.InputResourceVolumeName r.Name) persistent.PVC
    (volumeName, persistent.Path, m1)
  | none =>
    if m.executionContext.PVC = "" then
      let volumeName := d.GetResourceVolumeName resource.Name
      (volumeName, "", CreateEmptyDirVolume m volumeName)
    else (d.DefaultPvVolumeName, ResourcePath m.wfr.Name r.Name, m)

/-- The init container of lines 281-294. -/
def inputContainer (d : Deps) (index : Nat) (image : String) (envs : List EnvVar)
    (volumeName subPath : String) : Container :=
  { Name := d.InputContainerName (index + 1)
    Image := image
    Args := [d.ResourcePullCommand]
    Env := envs
    VolumeMounts :=
      [{ Name := volumeName, MountPath := d.ResolverDefaultWorkspacePath, SubPath := subPath }]
    ImagePullPolicy := d.ImagePullPolicy
    Resources := ResourceRequirements.zero
    Rest := "" }

/-- One iteration of the loop of `ResolveInputResources`, for the resource `r` at `index`. -/
def resolveInputResource (d : Deps) (m : PodBuilder) (index : Nat) (r : PathItem) :
    Except Err PodBuilder :=
  match d.getResource m.wfr.Namespace r.Name with
  | .error e => .error (.upstream e)
  | .ok resource =>
    match inputResourceVolume d m r resource with
    | (volumeName, subPath, m1) =>
      match resolveEnvs d (resourceEnvsMap m r.Name resource [(d.EnvWorkflowrunName, m.wfr.Name)]) with
      | .error e => .error e
      | .ok envs =>
        .ok (m1.withSpec
          { m1.pod.Spec with
            InitContainers :=
              m1.pod.Spec.InitContainers ++
                [inputContainer d index (resolverImage d resource) envs volumeName subPath]
            Containers := m1.pod.Spec.Containers.map (mountInputResource d volumeName subPath r) })

/-- The loop of `ResolveInputResources` from position `index` on. -/
def resolveInputResourcesFrom (d : Deps) : Nat → List PathItem → PodBuilder → Except Err PodBuilder
  | _, [], m => .ok m
  | index, r :: rest, m =>
    match resolveInputResource d m index r with
    | .error e => .error e
    | .ok m1 => resolveInputResourcesFrom d (index + 1) rest m1

/-- `PodBuilder.ResolveInputResources`. -/
def ResolveInputResources (d : Deps) (m : PodBuilder) : Except Err PodBuilder :=
  match stagePod m with
  | .error e => .error e
  | .ok (_, sp) => resolveInputResourcesFrom d 0 sp.Inputs.Resources m

/-- The data mount and the extra mounts of an output container (lines 385-412),
with the builder after a persistent volume was created. -/
def outputMounts (d : Deps) (m : PodBuilder) (r : PathItem) (resource : Resource) :
    List VolumeMount × PodBuilder :=
  let (dataMount, m1) :=
    match resource.Persistent with
    | some persistent =>
      let (volumeName, m1) :=
        CreatePVCVolume m (d.OutputResourceVolumeName r.Name) persistent.PVC
      (({ Name := volumeName
          MountPath := d.filepathJoin d.ResolverDefaultDataPath (d.filepathBase persistent.Path)
          SubPath := persistent.Path } : VolumeMount), m1)
    | none =>
      (({ Name := d.CoordinatorSidecarVolumeName
          MountPath := d.ResolverDefaultDataPath
          SubPath := "resources/" ++ resource.Name } : VolumeMount), m)
  let imageMounts : List VolumeMount :=
    if resource.ResourceType = d.ImageResourceType then
      [{ Name := d.DockerSockVolume, MountPath := d.DockerSockPath, SubPath := "" }] ++
        (if d.ConfigSecret ≠ "" then
          [{ Name := d.DockerConfigJSONVolume, MountPath := d.DockerConfigPath, SubPath := "" }]
        else [])
    else []
  ([({ Name := d.CoordinatorSidecarVolumeName
       MountPath := d.ResolverNotifyDirPath
       SubPath := d.ResolverNotifyDir } : VolumeMount)] ++ [dataMount] ++ imageMounts, m1)

/-- One iteration of the loop of `ResolveOutputResources`. -/
def resolveOutputResource (d : Deps) (m : PodBuilder) (index : Nat) (r : PathItem) :
    Except Err PodBuilder :=
  match d.getResource m.wfr.Namespace r.Name with
  | .error e => .error (.upstream e)
  | .ok resource =>
    let m0 := { m with outputResources := m.outputResources ++ [resource] }
    match resolveEnvs d (resourceEnvsMap m r.Name resource []) with
    | .error e => .error e
    | .ok envs =>
      match outputMounts d m0 r resource with
      | (mounts, m1) =>
        .ok (m1.withSpec
          { m1.pod.Spec with
            Containers :=
              m1.pod.Spec.Containers ++
                [{ Name := d.OutputContainerName (index + 1)
                   Image := resolverImage d resource
                   Args := [d.ResourcePushCommand]
                   Env := envs
                   VolumeMounts := mounts
                   ImagePullPolicy := d.ImagePullPolicy
                   Resources := ResourceRequirements.zero
                   Rest := "" }] })

/-- The loop of `ResolveOutputResources` from position `index` on. -/
def resolveOutputResourcesFrom (d : Deps) :
    Nat → List PathItem → PodBuilder → Except Err PodBuilder
  | _, [], m => .ok m
  | index, r :: rest, m =>
    match resolveOutputResource d m index r with
    | .error e => .error e
    | .ok m1 => resolveOutputResourcesFrom d (index + 1) rest m1

/-- `PodBuilder.ResolveOutputResources`. -/
def ResolveOutputResources (d : Deps) (m : PodBuilder) : Except Err PodBuilder :=
  match stagePod m with
  | .error e => .error e
  | .ok (_, sp) => resolveOutputResourcesFrom d 0 sp.Outputs.Resources m

/-- `PodBuilder.ArtifactFileName`: the last path element of the output
artifact `artifactName` of the stage `stageName`. -/
def ArtifactFileName (d : Deps) (m : PodBuilder) (stageName artifactName : String) :
    Except Err String :=
  match d.getStage m.wfr.Namespace stageName with
  | .error e => .error (.upstream e)
  | .ok stage =>
    match stage.Pod with
    | none => .error (.crash "nil stage pod")
    | some sp =>
      match sp.Outputs.Artifacts.find? (fun artifact => artifact.Name = artifactName) with
      | some artifact => .ok ((splitSlash (trimSlashSuffix artifact.Path)).getLast?.getD "")
      | none =>
        .error (.errorf
          ("output artifact '" ++ artifactName ++ "' not found in stage '" ++ stageName ++ "'"))

/-- Lines 445-449: the source bound to the artifact `name`; the last binding
of that name wins, "" when there is none. -/
def artifactSource (bindings : List ArtifactBinding) (name : String) : String :=
  bindings.foldl (fun source art => if art.Name = name then art.Source else source) ""

/-- Lines 464-479: the loop over the containers for one artifact. `parts[0]`
and `parts[1]` are read in every iteration, before `ArtifactFileName` is called. -/
def mountArtifact (d : Deps) (m : PodBuilder) (artifact : PathItem) (parts : List String) :
    List Container → Except Err (List Container)
  | [] => .ok []
  | c :: rest =>
    match parts with
    | p0 :: p1 :: _ =>
      match ArtifactFileName d m p0 p1 with
      | .error e => .error e
      | .ok fileName =>
        let c1 :=
          if d.OnlyWorkload c.Name then
            { c with
              VolumeMounts :=
                c.VolumeMounts ++
                  [{ Name := d.DefaultPvVolumeName
                     MountPath := artifact.Path
                     SubPath := ArtifactPath m.wfr.Name p0 p1 ++ "/" ++ fileName }] }
          else c
        match mountArtifact d m artifact parts rest with
        | .error e => .error e
        | .ok cs => .ok (c1 :: cs)
    | _ => .error (.crash "index out of range")

/-- Lines 441-481: the loop over the input artifacts. -/
def resolveInputArtifactsLoop (d : Deps) (stg : Stage) (wfStage : StageItem) :
    List PathItem → PodBuilder → Except Err PodBuilder
  | [], m => .ok m
  | artifact :: rest, m =>
    let source := artifactSource wfStage.Artifacts artifact.Name
    if source = "" then
      .error (.errorf ("input artifact " ++ stg.Name ++ " not binded in workflow " ++ m.wf.Name))
    else
      match mountArtifact d m artifact (splitSlash source) m.pod.Spec.Containers with
      | .error e => .error e
      | .ok containers =>
        resolveInputArtifactsLoop d stg wfStage rest
          (m.withSpec { m.pod.Spec with Containers := containers })

/-- `PodBuilder.ResolveInputArtifacts`. -/
def ResolveInputArtifacts (d : Deps) (m : PodBuilder) : Except Err PodBuilder :=
  match m.stg with
  | none => .error (.crash "nil stage")
  | some stg =>
    if m.executionContext.PVC = "" ∧ stg.Pod = none then .error (.crash "nil stage pod")
    else if m.executionContext.PVC = "" ∧
        0 < ((stg.Pod.map (fun sp => sp.Inputs.Artifacts)).getD []).length then
      .error (.errorf
        ("artifacts not supported when no PVC provided, but " ++
          toString ((stg.Pod.map (fun sp => sp.Inputs.Artifacts)).getD []).length ++
          " input artifacts found"))
    else
      match m.wf.Stages.find? (fun s => s.Name = stg.Name) with
      | none => .error (.errorf ("stage " ++ stg.Name ++ " not found in workflow " ++ m.wf.Name))
      | some wfStage =>
        match stg.Pod with
        | none => .error (.crash "nil stage pod")
        | some sp => resolveInputArtifactsLoop d stg wfStage sp.Inputs.Artifacts m

/-- The mount added by `AddVolumeMounts` to the container `c`. -/
def addStageMount (d : Deps) (wfrName stgName : String) (c : Container) : Container :=
  { c with
    VolumeMounts :=
      c.VolumeMounts ++
        [{ Name := d.DefaultPvVolumeName
           MountPath := d.StageMountPath
           SubPath := StagePath wfrName stgName }] }

/-- `PodBuilder.AddVolumeMounts`. `m.stg` is read inside the loop only. -/
def AddVolumeMounts (d : Deps) (m : PodBuilder) : Except Err PodBuilder :=
  if m.executionContext.PVC ≠ "" then
    match m.pod.Spec.Containers, m.stg with
    | [], _ => .ok (m.withSpec { m.pod.Spec with Containers := [] })
    | _ :: _, none => .error (.crash "nil stage")
    | cs, some stg =>
      .ok (m.withSpec { m.pod.Spec with Containers := cs.map (addStageMount d m.wfr.Name stg.Name) })
  else .ok m

/-- Lines 508-512 of `AddCoordinator`: the name of the first container of the
stage's pod template, "" when it has none. -/
def workloadContainerName (sp : StagePod) : String :=
  match sp.Spec.Containers with
  | [] => ""
  | c :: _ => c.Name

/-- The coordinator container of lines 532-583. -/
def coordinatorContainer (d : Deps) (m : PodBuilder) (workloadContainer stgInfo wfrInfo rscInfo :
    String) : Container :=
  { Name := d.CoordinatorSidecarName
    Image := (mapGet d.ConfigImages d.CoordinatorImage).getD ""
    Args := []
    Env :=
      [{ Name := d.EnvStagePodName, Value := m.pod.ObjectMeta.Name },
       { Name := d.EnvNamespace, Value := m.executionContext.Namespace },
       { Name := d.EnvWorkloadContainerName, Value := workloadContainer },
       { Name := d.EnvCycloneServerAddr, Value := d.ConfigCycloneServerAddr },
       { Name := d.EnvStageInfo, Value := stgInfo },
       { Name := d.EnvWorkflowRunInfo, Value := wfrInfo },
       { Name := d.EnvOutputResourcesInfo, Value := rscInfo }]
    VolumeMounts :=
      [{ Name := d.DockerSockVolume, MountPath := d.DockerSockPath, SubPath := "" },
       { Name := d.CoordinatorSidecarVolumeName, MountPath := d.CoordinatorResolverPath,
         SubPath := "" }] ++
      (if m.executionContext.PVC ≠ "" then
        [{ Name := d.DefaultPvVolumeName
           MountPath := d.CoordinatorWorkspacePath ++ "artifacts"
           SubPath := ArtifactsPath m.wfr.Name m.stage }]
      else [])
    ImagePullPolicy := d.ImagePullPolicy
    Resources := ResourceRequirements.zero
    Rest := "" }

/-- `PodBuilder.AddCoordinator`. -/
def AddCoordinator (d : Deps) (m : PodBuilder) : Except Err PodBuilder := do
  let (stg, sp) ← stagePod m
  let workloadContainer := workloadContainerName sp
  let stgInfo ← liftUp (d.jsonMarshalStage stg)
  let wfrInfo ← liftUp (d.jsonMarshalWorkflowRun m.wfr)
  let rscInfo ← liftUp (d.jsonMarshalResources m.outputResources)
  pure (m.withSpec
    { m.pod.Spec with
      Containers :=
        m.pod.Spec.Containers ++
          [coordinatorContainer d m workloadContainer stgInfo wfrInfo rscInfo] })

/-- The two variables injected by `InjectEnvs`. -/
def injectedEnvs (d : Deps) (m : PodBuilder) : List EnvVar :=
  [{ Name := d.EnvWorkflowrunName, Value := m.wfr.Name },
   { Name := d.EnvStageName, Value := m.stage }]

/-- `PodBuilder.InjectEnvs`. -/
def InjectEnvs (d : Deps) (m : PodBuilder) : Except Err PodBuilder :=
  .ok (m.withSpec
    { m.pod.Spec with
      Containers := m.pod.Spec.Containers.map (fun c => { c with Env := c.Env ++ injectedEnvs d m }) })

/-- The body of the two inner loops of `applyResourceRequirements` (lines 624-630
and 635-641): a nil map is replaced by a fresh one, then the entry is written
unless its key is already set. -/
def fillStep (t : Option StrMap) (kv : String × String) : Option StrMap :=
  if mapHas (t.getD []) kv.1 then some (t.getD []) else some (mapSet (t.getD []) kv.1 kv.2)

/-- One of the two inner loops of `applyResourceRequirements` (lines 623-631 and
634-642) over the entries of `source`; a nil `source` has no entries. -/
def fillUnset (target source : Option StrMap) : Option StrMap :=
  (source.getD []).foldl fillStep target

/-- The body of the loop of `applyResourceRequirements` for one container. -/
def applyToContainer (requirements : ResourceRequirements) (selector : String → Bool)
    (c : Container) : Container :=
  if !selector c.Name then c
  else
    { c with
      Resources :=
        { Requests := fillUnset c.Resources.Requests requirements.Requests
          Limits := fillUnset c.Resources.Limits requirements.Limits } }

/-- The function `applyResourceRequirements`. -/
def applyResourceRequirements (containers : List Container) (requirements : ResourceRequirements)
    (selector : String → Bool) : List Container :=
  containers.map (applyToContainer requirements selector)

/-- `PodBuilder.ApplyResourceRequirements`. -/
def ApplyResourceRequirements (d : Deps) (m : PodBuilder) : Except Err PodBuilder :=
  let containers :=
    match m.wf.Resources with
    | some r => applyResourceRequirements m.pod.Spec.Containers r d.OnlyCustomContainer
    | none => m.pod.Spec.Containers
  .ok (m.withSpec
    { m.pod.Spec with
      InitContainers :=
        applyResourceRequirements m.pod.Spec.InitContainers d.ConfigResourceRequirements
          AllContainers
      Containers := applyResourceRequirements containers d.ConfigResourceRequirements AllContainers })

/-- `PodBuilder.ApplyServiceAccount`. -/
def ApplyServiceAccount (d : Deps) (m : PodBuilder) : Except Err PodBuilder :=
  .ok (m.withSpec { m.pod.Spec with ServiceAccountName := d.ConfigServiceAccount })

/-- `PodBuilder.Build`: the pod, or the error of the first pass that failed. -/
def Build (d : Deps) (m : PodBuilder) : Except Err Pod := do
  let m ← Prepare d m
  let m ← ResolveArguments d m
  let m ← CreateVolumes d m
  let m ← ResolveInputResources d m
  let m ← ResolveOutputResources d m
  let m ← ResolveInputArtifacts d m
  let m ← AddVolumeMounts d m
  let m ← AddCoordinator d m
  let m ← InjectEnvs d m
  let m ← ApplyResourceRequirements d m
  let m ← ApplyServiceAccount d m
  pure m.pod

/-! ## A concrete instance for the worked examples -/

/-- A concrete choice of the parameters for the worked examples. The names the
spec gives are used (`commonPV`, `coordinatorShared`, `input-N`, `output-N`,
`coordinator`, sidecar prefix `sc-`, commands `pull` and `push`); the cluster
holds the stages `stages` and the resources `resources`; templating leaves the
pod spec as it is, so unmarshalling yields `rendered`; reference lookup is the
function `lookup`; the execution context of every run has the common PVC `pvc`. -/
def exampleDeps (stages : List Stage) (resources : List Resource) (rendered : PodSpec)
    (lookup : String → Except String String) (pvc : String) : Deps :=
  { WorkloadSidecarPrefix := "sc-"
    WorkflowLabelName := "workflow"
    WorkflowRunAnnotationName := "workflowrun"
    StageAnnotationName := "stage"
    MetaNamespaceAnnotationName := "meta-namespace"
    CoordinatorSidecarVolumeName := "coordinatorShared"
    DefaultPvVolumeName := "commonPV"
    DockerSockVolume := "docker-sock"
    DockerSockPath := "/var/run/docker.sock"
    DockerConfigJSONVolume := "docker-config"
    DockerConfigJSONFile := "config.json"
    DockerConfigPath := "/root/.docker"
    EnvWorkflowrunName := "workflowRunName"
    EnvStageName := "stageName"
    EnvStagePodName := "podName"
    EnvNamespace := "namespace"
    EnvWorkloadContainerName := "workloadContainerName"
    EnvCycloneServerAddr := "cycloneServerAddress"
    EnvStageInfo := "stageInfo"
    EnvWorkflowRunInfo := "workflowRunInfo"
    EnvOutputResourcesInfo := "outputResourcesInfo"
    ResourcePullCommand := "pull"
    ResourcePushCommand := "push"
    ResolverDefaultWorkspacePath := "/workspace"
    ResolverDefaultDataPath := "/workspace/data"
    ResolverNotifyDirPath := "/workspace/notify"
    ResolverNotifyDir := "notify"
    StageMountPath := "/stage"
    CoordinatorSidecarName := "coordinator"
    CoordinatorResolverPath := "/workspace/resolvers"
    CoordinatorWorkspacePath := "/workspace/"
    InputResourceVolumeName := fun name => "input-" ++ name
    OutputResourceVolumeName := fun name => "output-" ++ name
    OnlyWorkload := fun name => !HasPrefix name "sc-"
    OnlyCustomContainer := fun name =>
      !(HasPrefix name "sc-" || HasPrefix name "output-" || name == "coordinator")
    ImageResourceType := "Image"
    ResolverImageKeys := [("Git", "git-resolver"), ("Image", "image-resolver"), ("KV", "kv-resolver")]
    CoordinatorImage := "coordinator"
    ConfigImages :=
      [("git-resolver", "GitResolver"), ("image-resolver", "ImageResolver"),
       ("kv-resolver", "KvResolver"), ("coordinator", "Coordinator")]
    ConfigSecret := ""
    ConfigCycloneServerAddr := "cyclone-server"
    ConfigResourceRequirements := ResourceRequirements.zero
    ConfigServiceAccount := "cyclone"
    ImagePullPolicy := "IfNotPresent"
    PodName := fun wf stage => wf ++ "-" ++ stage
    GetExecutionContext := fun wfr => { Namespace := wfr.Namespace, PVC := pvc }
    InputContainerName := fun index => "input-" ++ toString index
    OutputContainerName := fun index => "output-" ++ toString index
    GetResourceVolumeName := fun name => "rsc-" ++ name
    ResolveRefStringValue := lookup
    getStage := fun _ name =>
      match stages.find? (fun s => s.Name = name) with
      | some s => .ok s
      | none => .error ("stage " ++ name ++ " not found")
    getResource := fun _ name =>
      match resources.find? (fun r => r.Name = name) with
      | some r => .ok r
      | none => .error ("resource " ++ name ++ " not found")
    jsonMarshalPodSpec := fun _ => .ok "spec"
    mustacheRender := fun raw _ => .ok raw
    jsonUnmarshalPodSpec := fun _ => (rendered, none)
    jsonMarshalStage := fun s => .ok s.Name
    jsonMarshalWorkflowRun := fun w => .ok w.Name
    jsonMarshalResources := fun rs => .ok (String.intercalate "," (rs.map (fun r => r.Name)))
    filepathJoin := fun a b => a ++ "/" ++ b
    filepathBase := fun p => (splitSlash (trimSlashSuffix p)).getLast?.getD "" }

/-- A container as a stage author writes it: a name and an image. -/
def plainContainer (name : String) : Container :=
  { Name := name, Image := "busybox", Args := [], Env := [], VolumeMounts := [],
    ImagePullPolicy := "", Resources := ResourceRequirements.zero, Rest := "" }

/-- A pod template with the containers `names` and nothing else. -/
def plainSpec (names : List String) : PodSpec :=
  { PodSpec.zero with Containers := names.map plainContainer }

/-- A stage `name` with the containers `names`, the arguments `arguments` and
the input resources `resources`. -/
def plainStage (name : String) (names : List String) (arguments : List ParameterItem)
    (resources : List PathItem) : Stage :=
  { Name := name
    Pod := some
      { Inputs := { Arguments := arguments, Resources := resources, Artifacts := [] }
        Outputs := { Resources := [], Artifacts := [] }
        Spec := plainSpec names } }

/-- A builder after `Prepare` for the stage `stg`, with the common PVC `pvc`
and the run overrides `overrides` for this stage. -/
def plainBuilder (stg : Stage) (pvc : String) (overrides : List ParameterItem) : PodBuilder :=
  { wf := { Name := "wf", Stages := [{ Name := stg.Name, Artifacts := [] }], Resources := none }
    wfr :=
      { Name := "run", Namespace := "ns", Stages := [{ Name := stg.Name, Parameters := overrides }],
        Resources := [] }
    stg := some stg
    stage := stg.Name
    pod := Pod.zero
    pvcVolumes := []
    executionContext := { Namespace := "ns", PVC := pvc }
    outputResources := [] }

/-! ## Words of the claims and worked examples -/

/-- The parameters the run gives for the stage of the builder, in the order
of the run: the `Parameters` of every entry of `wfr.Spec.Stages` named `m.stage`. -/
def stageOverrides (m : PodBuilder) : List ParameterItem :=
  ((m.wfr.Stages.filter (fun s => s.Name = m.stage)).map (fun s => s.Parameters)).flatten

/-- The run overrides the parameter `name` for the stage of the builder. -/
def Overridden (m : PodBuilder) (name : String) : Prop :=
  ∃ p ∈ stageOverrides m, p.Name = name

/-- The argument `a`, declared after the arguments `earlier`, is left without a
value: its default is empty, the run does not override it, and no earlier
declaration has its name. -/
def Unset (m : PodBuilder) (earlier : List ParameterItem) (a : ParameterItem) : Prop :=
  a.Value = "" ∧ ¬ Overridden m a.Name ∧ ∀ b ∈ earlier, b.Name ≠ a.Name

/-- Writing a list of items into a map, in order. -/
def setAll (parameters : StrMap) (items : List ParameterItem) : StrMap :=
  items.foldl (fun parameters p => mapSet parameters p.Name p.Value) parameters

/-- The stage of the worked examples of `ResolveArguments`: one container
`main` and the arguments `arguments`. -/
def argStage (arguments : List ParameterItem) : Stage := plainStage "build" ["main"] arguments []

/-- The parameters of the worked examples of `ResolveArguments`: no cluster
objects, reference lookup `lookup`. -/
def argDeps (lookup : String → Except String String) : Deps :=
  exampleDeps [] [] (plainSpec ["main"]) lookup ""

/-- A reference lookup that knows one reference and fails on every other value. -/
def secretLookup (value : String) : Except String String :=
  if value = "$.ns.secret/token" then .ok "hunter2" else .error "not a reference"

/-- The state before `AddVolumeMounts` in the worked example: the stage
`build` with the workload `main` and the sidecar `sc-db`, after an output
resolver `output-1` was added, with the common PVC `pvc-t1`. -/
def mountBuilder : PodBuilder :=
  (plainBuilder (plainStage "build" ["main", "sc-db"] [] []) "pvc-t1" []).withSpec
    (plainSpec ["main", "sc-db", "output-1"])

/-- The stage of the worked example of `AddCoordinator`: the sidecar `sc-db`
is declared before the workload `main`. -/
def sidecarFirstStage : Stage := plainStage "build" ["sc-db", "main"] [] []

/-- The read `v, ok := list[k]` on a resource list that may be nil: a nil map has no keys. -/
def resourceGet (list : Option StrMap) (k : String) : Option String :=
  match list with
  | none => none
  | some l => mapGet l k

/-- The builder `m1` works on the same workflow, run, stage name and
execution context as `m`. -/
def SameRun (m m1 : PodBuilder) : Prop :=
  m1.wf = m.wf ∧ m1.wfr = m.wfr ∧ m1.stage = m.stage ∧ m1.executionContext = m.executionContext

/-- The PVC a volume references, if it is a PVC volume. -/
def claimName (v : Volume) : Option String :=
  match v.VolumeSource with
  | .PersistentVolumeClaim claim => some claim
  | _ => none

/-- Volume coalescing: no two volumes of the pod reference the same PVC, and
every PVC a volume references is recorded in the mapping of the builder. -/
def VolumesCoalesced (m : PodBuilder) : Prop :=
  (m.pod.Spec.Volumes.filterMap claimName).Nodup ∧
  ∀ v ∈ m.pod.Spec.Volumes, ∀ p, claimName v = some p → mapHas m.pvcVolumes p = true

/-- The builder `m1` continues `m`: same run and stage, the mapping keeps what
it recorded, the volume list only grows, and volume coalescing is kept. -/
def Continues (m m1 : PodBuilder) : Prop :=
  SameRun m m1 ∧ m1.stg = m.stg ∧
  (∀ p v, mapGet m.pvcVolumes p = some v → mapGet m1.pvcVolumes p = some v) ∧
  (∃ added, m1.pod.Spec.Volumes = m.pod.Spec.Volumes ++ added) ∧
  (VolumesCoalesced m → VolumesCoalesced m1)

/-! ## Words of the claim about `ResolveInputResources` -/

/-- What `ResolveInputResources` settled for one input resource: the fetched
resource, the backing volume, the sub-path of the init container and the
environment of the init container. -/
structure InputChoice where
  resource : Resource
  volumeName : String
  subPath : String
  envs : List EnvVar

/-- The backing volume and sub-path of the choice `ch` for the stage resource
`r` follow the three cases of the pass, where `m` is the builder before the pass,
`m1` the builder after it and `added` the volumes the pass appended: with a
persistent binding, the volume recorded for the persistent PVC and the path of
the binding; without a binding and with a common PVC, the common PVC volume and
`resources/<runName>/<resourceName>`; without either, an emptyDir volume that
the pass appended and the empty sub-path. -/
def ChosenVolume (d : Deps) (m m1 : PodBuilder) (added : List Volume) (r : PathItem)
    (ch : InputChoice) : Prop :=
  match ch.resource.Persistent with
  | some persistent =>
    mapGet m1.pvcVolumes persistent.PVC = some ch.volumeName ∧ ch.subPath = persistent.Path
  | none =>
    if m.executionContext.PVC = "" then
      ch.volumeName = d.GetResourceVolumeName ch.resource.Name ∧ ch.subPath = "" ∧
        ({ Name := ch.volumeName, VolumeSource := .EmptyDir } : Volume) ∈ added
    else ch.volumeName = d.DefaultPvVolumeName ∧ ch.subPath = ResourcePath m.wfr.Name r.Name

/-- The init containers of the choices `chosen`, the first one at position `index`. -/
def inputContainers (d : Deps) (index : Nat) (chosen : List InputChoice) : List Container :=
  (chosen.enumFrom index).map
    (fun ic => inputContainer d ic.1 (resolverImage d ic.2.resource) ic.2.envs ic.2.volumeName
      ic.2.subPath)

/-- The workload mounts of the stage resources `rs` under the choices `chosen`:
the chosen volume at the stage-declared path, with the workload sub-path. -/
def inputMounts (rs : List PathItem) (chosen : List InputChoice) : List VolumeMount :=
  List.zipWith
    (fun r ch =>
      { Name := ch.volumeName, MountPath := r.Path, SubPath := workloadSubPath ch.subPath })
    rs chosen

/-- The container `c` with the mounts `mounts` appended when `OnlyWorkload` selects it. -/
def withMounts (d : Deps) (mounts : List VolumeMount) (c : Container) : Container :=
  if d.OnlyWorkload c.Name then { c with VolumeMounts := c.VolumeMounts ++ mounts } else c

/-- The resources of the worked examples of `ResolveInputResources`: a Git
repository without a persistent binding, a cache bound to the directory
`cache/dir` of the PVC `pvc-cache`, and a data set bound to the root of the
PVC `pvc-data`. -/
def inputResources : List Resource :=
  [{ Name := "git-src", ResourceType := "Git", Resolver := "", Parameters := [], Persistent := none },
   { Name := "cache", ResourceType := "KV", Resolver := "", Parameters := [],
     Persistent := some { PVC := "pvc-cache", Path := "cache/dir" } },
   { Name := "dataset", ResourceType := "KV", Resolver := "", Parameters := [],
     Persistent := some { PVC := "pvc-data", Path := "" } }]

/-- The parameters of the worked examples of `ResolveInputResources`, with the common PVC `pvc`. -/
def inputDeps (pvc : String) : Deps :=
  exampleDeps [] inputResources (plainSpec ["main", "sc-db"]) .ok pvc

/-- The builder before `ResolveInputResources` in the worked examples: the
stage `build` with the workload `main`, the sidecar `sc-db` and the input
resources `resources`, with the common PVC `pvc`. -/
def inputBuilder (pvc : String) (resources : List PathItem) : PodBuilder :=
  (plainBuilder (plainStage "build" ["main", "sc-db"] [] resources) pvc []).withSpec
    (plainSpec ["main", "sc-db"])

/-- The stage of the worked examples of `Build`: the workload `main`, the
sidecar `sc-db` and the input resource `git-src`; the pod template declares
the volumes `volumes` of its own. -/
def buildStage (volumes : List Volume) : Stage :=
  { Name := "build"
    Pod := some
      { Inputs := { Arguments := [], Resources := [⟨"git-src", "/src"⟩], Artifacts := [] }
        Outputs := { Resources := [], Artifacts := [] }
        Spec := { plainSpec ["main", "sc-db"] with Volumes := volumes } } }

/-- The parameters of the worked examples of `Build`, with the common PVC
`pvc` and the template volumes `volumes`. -/
def buildDeps (pvc : String) (volumes : List Volume) : Deps :=
  exampleDeps [buildStage volumes] inputResources
    { plainSpec ["main", "sc-db"] with Volumes := volumes } .ok pvc

/-- The fresh builder of the worked examples of `Build`. -/
def buildBuilder (pvc : String) (volumes : List Volume) : PodBuilder :=
  NewPodBuilder (buildDeps pvc volumes)
    { Name := "wf", Stages := [{ Name := "build", Artifacts := [] }], Resources := none }
    { Name := "run", Namespace := "ns", Stages := [], Resources := [] } "build"

/-! ## Words of the claims about the later passes -/

/-- The value the workflow declares for the key `k` in the resource list `pick`
(requests or limits); nothing when the workflow has no resource requirements. -/
def workflowValue (wf : Workflow) (pick : ResourceRequirements → Option StrMap) (k : String) :
    Option String :=
  match wf.Resources with
  | none => none
  | some r => resourceGet (pick r) k

/-- The effective value of a key after `ApplyResourceRequirements`, by
priority: the value `own` the container had, else the workflow-level value
`fromWorkflow` when the container is a custom container, else the operator
default `fromConfig`, else nothing. -/
def effectiveValue (own : Option String) (custom : Bool) (fromWorkflow fromConfig : Option String) :
    Option String :=
  match own with
  | some v => some v
  | none =>
    match (if custom then fromWorkflow else none) with
    | some v => some v
    | none => fromConfig

/-- The two rounds of `ApplyResourceRequirements` on one container of the pod's container list. -/
def bothRounds (d : Deps) (m : PodBuilder) (c : Container) : Container :=
  applyToContainer d.ConfigResourceRequirements AllContainers
    (match m.wf.Resources with
     | some r => applyToContainer r d.OnlyCustomContainer c
     | none => c)

/-- The number of containers of a pod template whose name does not start with
the workload-sidecar prefix, as `Prepare` counts them. -/
def workloadCount (d : Deps) (sp : StagePod) : Nat :=
  (sp.Spec.Containers.filter (fun c => !HasPrefix c.Name d.WorkloadSidecarPrefix)).length

/-- Running a list of passes in order on a builder; the first error stops the run. -/
def runPasses : List (PodBuilder → Except Err PodBuilder) → PodBuilder → Except Err PodBuilder
  | [], m => .ok m
  | p :: rest, m =>
    match p m with
    | .error e => .error e
    | .ok m1 => runPasses rest m1

/-- The eleven passes in the order the claim about `Build` gives. -/
def buildOrder (d : Deps) : List (PodBuilder → Except Err PodBuilder) :=
  [Prepare d, ResolveArguments d, CreateVolumes d, ResolveInputResources d,
   ResolveOutputResources d, ResolveInputArtifacts d, AddVolumeMounts d, AddCoordinator d,
   InjectEnvs d, ApplyResourceRequirements d, ApplyServiceAccount d]

/-- The passes that run after `ResolveArguments`. -/
def laterPasses (d : Deps) : List (PodBuilder → Except Err PodBuilder) :=
  [CreateVolumes d, ResolveInputResources d, ResolveOutputResources d, ResolveInputArtifacts d,
   AddVolumeMounts d, AddCoordinator d, InjectEnvs d, ApplyResourceRequirements d,
   ApplyServiceAccount d]

/-- The builder `m1` has the restart policy and the metadata of the pod of `m`. -/
def KeepsPolicy (m m1 : PodBuilder) : Prop :=
  m1.pod.Spec.RestartPolicy = m.pod.Spec.RestartPolicy ∧ m1.pod.ObjectMeta = m.pod.ObjectMeta

/-- The pod template of the worked example of the restart policy: one
container `main` and the restart policy `Always`. -/
def alwaysSpec : PodSpec := { plainSpec ["main"] with RestartPolicy := "Always" }

/-- The stage of the worked example of the restart policy. -/
def alwaysStage : Stage :=
  { Name := "build"
    Pod := some
      { Inputs := { Arguments := [], Resources := [], Artifacts := [] }
        Outputs := { Resources := [], Artifacts := [] }
        Spec := alwaysSpec } }

/-- The parameters of the worked example of the restart policy. -/
def alwaysDeps : Deps := exampleDeps [alwaysStage] [] alwaysSpec .ok ""

/-- The fresh builder of the worked example of the restart policy. -/
def alwaysBuilder : PodBuilder :=
  NewPodBuilder alwaysDeps
    { Name := "wf", Stages := [{ Name := "build", Artifacts := [] }], Resources := none }
    { Name := "run", Namespace := "ns", Stages := [], Resources := [] } "build"

/-- The message of the error of line 423 of `ResolveInputArtifacts` for `n` input artifacts. -/
def artifactsWithoutPVCMessage (n : Nat) : String :=
  "artifacts not supported when no PVC provided, but " ++ toString n ++ " input artifacts found"

/-- Lines 441-481 as Go runs them on the builder in place: the builder as the
loop leaves it and the error, if any, that stopped it. The containers are
replaced after each artifact, so the mounts of earlier artifacts stay when a
later artifact fails. -/
def resolveInputArtifactsLoopInPlace (d : Deps) (stg : Stage) (wfStage : StageItem) :
    List PathItem → PodBuilder → PodBuilder × Option Err
  | [], m => (m, none)
  | artifact :: rest, m =>
    let source := artifactSource wfStage.Artifacts artifact.Name
    if source = "" then
      (m, some (.errorf ("input artifact " ++ stg.Name ++ " not binded in workflow " ++ m.wf.Name)))
    else
      match mountArtifact d m artifact (splitSlash source) m.pod.Spec.Containers with
      | .error e => (m, some e)
      | .ok containers =>
        resolveInputArtifactsLoopInPlace d stg wfStage rest
          (m.withSpec { m.pod.Spec with Containers := containers })

/-- `PodBuilder.ResolveInputArtifacts` as Go runs it on the builder in place:
the builder as the pass leaves it and the error, if any, that it returns (or
the fault that stops it). -/
def ResolveInputArtifactsInPlace (d : Deps) (m : PodBuilder) : PodBuilder × Option Err :=
  match m.stg with
  | none => (m, some (.crash "nil stage"))
  | some stg =>
    if m.executionContext.PVC = "" ∧ stg.Pod = none then (m, some (.crash "nil stage pod"))
    else if m.executionContext.PVC = "" ∧
        0 < ((stg.Pod.map (fun sp => sp.Inputs.Artifacts)).getD []).length then
      (m, some (.errorf
        ("artifacts not supported when no PVC provided, but " ++
          toString ((stg.Pod.map (fun sp => sp.Inputs.Artifacts)).getD []).length ++
          " input artifacts found")))
    else
      match m.wf.Stages.find? (fun s => s.Name = stg.Name) with
      | none =>
        (m, some (.errorf ("stage " ++ stg.Name ++ " not found in workflow " ++ m.wf.Name)))
      | some wfStage =>
        match stg.Pod with
        | none => (m, some (.crash "nil stage pod"))
        | some sp => resolveInputArtifactsLoopInPlace d stg wfStage sp.Inputs.Artifacts m

/-- The result of an in-place run as the pass returns it. -/
def returned (r : PodBuilder × Option Err) : Except Err PodBuilder :=
  match r with
  | (m1, none) => .ok m1
  | (_, some e) => .error e

/-- The stage of the worked example of `ResolveInputArtifacts`: one container
`main` and the input artifact `a1`. -/
def artifactStage : Stage :=
  { Name := "test"
    Pod := some
      { Inputs := { Arguments := [], Resources := [], Artifacts := [⟨"a1", "/in/out.tar"⟩] }
        Outputs := { Resources := [], Artifacts := [] }
        Spec := plainSpec ["main"] } }

/-- The parameters of the worked example of `ResolveInputArtifacts`: no common PVC. -/
def artifactDeps : Deps := exampleDeps [artifactStage] [] (plainSpec ["main"]) .ok ""

/-- The fresh builder of the worked example of `ResolveInputArtifacts`: the
workflow binds `a1` to `build/out.tar`. -/
def artifactBuilder : PodBuilder :=
  NewPodBuilder artifactDeps
    { Name := "wf", Stages := [{ Name := "test", Artifacts := [⟨"a1", "build/out.tar"⟩] }],
      Resources := none }
    { Name := "run", Namespace := "ns", Stages := [], Resources := [] } "test"

/-- The error `e` is not the artifacts-without-PVC error of line 423, whatever the count. -/
def NotArtifactsError (e : Err) : Prop :=
  ∀ k, e ≠ .errorf (artifactsWithoutPVCMessage k)

/-- The mount of the coordinator volume at the notify directory, first mount of every output container. -/
def notifyMount (d : Deps) : VolumeMount :=
  { Name := d.CoordinatorSidecarVolumeName, MountPath := d.ResolverNotifyDirPath,
    SubPath := d.ResolverNotifyDir }

/-- The mount of the container-socket volume. -/
def socketMount (d : Deps) : VolumeMount :=
  { Name := d.DockerSockVolume, MountPath := d.DockerSockPath, SubPath := "" }

/-- The mount of the registry-config secret volume. -/
def registryMount (d : Deps) : VolumeMount :=
  { Name := d.DockerConfigJSONVolume, MountPath := d.DockerConfigPath, SubPath := "" }

/-- The mounts of an output container after its notify mount and its data
mount, in the words of the claim: the socket mount exactly for an `Image`
resource, followed by the registry mount exactly when a registry secret is
configured as well. -/
def imageMounts (d : Deps) (resource : Resource) : List VolumeMount :=
  if resource.ResourceType = d.ImageResourceType then
    socketMount d :: (if d.ConfigSecret ≠ "" then [registryMount d] else [])
  else []

/-- The resources of the worked example of `ResolveOutputResources`: an image and a Git repository. -/
def outputResources : List Resource :=
  [{ Name := "app-image", ResourceType := "Image", Resolver := "", Parameters := [],
     Persistent := none },
   { Name := "git-out", ResourceType := "Git", Resolver := "", Parameters := [],
     Persistent := none }]

/-- The parameters of the worked example of `ResolveOutputResources`: a
registry secret is configured. -/
def outputDeps : Deps :=
  { exampleDeps [] outputResources (plainSpec ["main"]) .ok "" with ConfigSecret := "registry" }

/-- The builder before `ResolveOutputResources` in the worked example: the
stage `build` with the workload `main` and the output resources `app-image` and `git-out`. -/
def outputBuilder : PodBuilder :=
  { plainBuilder
      { Name := "build"
        Pod := some
          { Inputs := { Arguments := [], Resources := [], Artifacts := [] }
            Outputs := { Resources := [⟨"app-image", ""⟩, ⟨"git-out", ""⟩], Artifacts := [] }
            Spec := plainSpec ["main"] } } "" [] with
    pod := { Pod.zero with Spec := plainSpec ["main"] } }

/-! # Integrations: `pkg/server/handler/v1alpha1/integration.go`

The handlers talk to the Kubernetes API of the control cluster (the secrets
that store the integrations) and of a worker cluster (namespaces, resource
quotas, PVCs). The API server is outside the repository; it is embedded as
the object store it is, threaded through every handler as a `World`, and any
call can be made to fail by the fault schedule of `ServerDeps`. A handler
returns its result together with the world it leaves. -/

/-- An error of the Kubernetes API, as `errors.IsNotFound`,
`errors.IsAlreadyExists` and `errors.IsConflict` tell them apart. -/
inductive ApiError where
  | NotFound
  | AlreadyExists
  | Conflict
  | Other (msg : String)
deriving DecidableEq, Repr

/-- The ways a handler can stop: `api` is an error of the Kubernetes API and
`library` an error of `encoding/json` or of the cluster client constructor,
both handed on unchanged; `crash` is a Go run-time fault. -/
inductive Failure where
  | api (e : ApiError)
  | library (msg : String)
  | crash (what : String)
deriving DecidableEq, Repr

/-- The parts of a `metav1.ObjectMeta` the handlers touch; `none` is a nil map. -/
structure Meta where
  Name : String
  Labels : Option StrMap
  Annotations : Option StrMap
  Rest : String
deriving DecidableEq, Repr

structure ClusterSource where
  Credential : String
  IsControlCluster : Bool
  IsWorkerCluster : Bool
  Namespace : String
  PVC : String
deriving DecidableEq, Repr

/-- An `api.IntegrationSpec`; `Cluster = none` is the nil pointer, `Rest`
stands for the sources of the other integration types. -/
structure IntegrationSpec where
  IntegrationType : String
  Cluster : Option ClusterSource
  Rest : String
deriving DecidableEq, Repr

structure Integration where
  ObjectMeta : Meta
  Spec : IntegrationSpec
deriving DecidableEq, Repr

/-- A `core_v1.Secret`; the byte values of `Data` are kept as strings. -/
structure Secret where
  ObjectMeta : Meta
  Data : StrMap
deriving DecidableEq, Repr

/-- The parts of a tenant that `OpenClusterForTenant` reads:
`tenant.Spec.PersistentVolumeClaim.StorageClass` and `.Size`. -/
structure Tenant where
  Name : String
  StorageClass : String
  Size : String
deriving DecidableEq, Repr

/-- A `types.Pagination`: two `int64`. -/
structure Pagination where
  Start : Int
  Limit : Int
deriving DecidableEq, Repr

/-- Modelled from the spec: `types.NewListResponse` is not among the sources;
the spec says a list returns the total count and the page. -/
structure ListResponse where
  Total : Int
  Items : List Integration
deriving DecidableEq, Repr

/-- The zero value `api.Integration{}`. -/
def Integration.zero : Integration :=
  { ObjectMeta := { Name := "", Labels := none, Annotations := none, Rest := "" }
    Spec := { IntegrationType := "", Cluster := none, Rest := "" } }

/-- The objects of the clusters: the secrets of the control cluster by
namespace, and the namespaces, the resource quotas (namespace and tenant) and
the PVCs (namespace and name) of the worker cluster; `tick` counts the API
calls made so far. -/
structure World where
  secrets : List (String × Secret)
  namespaces : List String
  quotas : List (String × String)
  pvcs : List (String × String)
  tick : Nat
deriving DecidableEq, Repr

/-- What `integration.go` uses and the sources do not contain: constants and
name helpers of package `common`, the operator configuration, helpers of the
package defined in other files, library calls, and the behaviour of the API
server that is not the object store: label selection and transient faults. -/
structure ServerDeps where
  -- package common
  TenantNamespace : String → String
  TenantPVC : String → String
  IntegrationSecret : String → String
  SecretIntegration : String → String
  LabelIntegrationType : String
  LabelClusterOn : String
  LabelTrueValue : String
  SecretKeyIntegration : String
  WorkerClustersSelector : String
  NewClusterClient : String → Bool → Option String
  -- package api
  ClusterType : String
  -- package config
  DefaultPVCSize : String
  -- this package, other files
  getTenant : String → Except Failure Tenant
  UpdateAnnotations : Option StrMap → Option StrMap → Option StrMap
  -- libraries
  jsonMarshalSpec : IntegrationSpec → Except String String
  jsonUnmarshalSpec : String → IntegrationSpec × Option String
  sliceGrow : Nat → Nat
  -- API server
  selects : String → Option StrMap → Bool
  fault : Nat → Option ApiError

/-- The world after one more API call. -/
def World.called (w : World) : World := { w with tick := w.tick + 1 }

/-- One API call: the fault scheduled for it, if any, else the outcome `run`
of the call on the object store. -/
def apiCall {α : Type} (s : ServerDeps) (w : World) (run : Except ApiError α × World) :
    Except ApiError α × World :=
  match s.fault w.tick with
  | some e => (.error e, w.called)
  | none => (run.1, run.2.called)

/-- `Secrets(ns).List` with a label selector. -/
def secretsList (s : ServerDeps) (w : World) (ns selector : String) :
    Except ApiError (List Secret) × World :=
  apiCall s w
    (.ok ((w.secrets.filter (fun p => p.1 = ns ∧ s.selects selector p.2.ObjectMeta.Labels)).map
      (fun p => p.2)), w)

/-- `Secrets(ns).Get`. -/
def secretsGet (s : ServerDeps) (w : World) (ns name : String) : Except ApiError Secret × World :=
  apiCall s w
    (match w.secrets.find? (fun p => p.1 = ns ∧ p.2.ObjectMeta.Name = name) with
     | some p => (.ok p.2, w)
     | none => (.error .NotFound, w))

/-- `Secrets(ns).Create`. -/
def secretsCreate (s : ServerDeps) (w : World) (ns : String) (secret : Secret) :
    Except ApiError Unit × World :=
  apiCall s w
    (if w.secrets.any (fun p => p.1 = ns ∧ p.2.ObjectMeta.Name = secret.ObjectMeta.Name) then
      (.error .AlreadyExists, w)
    else (.ok (), { w with secrets := w.secrets ++ [(ns, secret)] }))

/-- `Secrets(ns).Update`: the stored secret of that name is replaced. -/
def secretsUpdate (s : ServerDeps) (w : World) (ns : String) (secret : Secret) :
    Except ApiError Unit × World :=
  apiCall s w
    (if w.secrets.any (fun p => p.1 = ns ∧ p.2.ObjectMeta.Name = secret.ObjectMeta.Name) then
      (.ok (),
        { w with
          secrets := w.secrets.map (fun p =>
            if p.1 = ns ∧ p.2.ObjectMeta.Name = secret.ObjectMeta.Name then (ns, secret) else p) })
    else (.error .NotFound, w))

/-- `Secrets(ns).Delete`. -/
def secretsDelete (s : ServerDeps) (w : World) (ns name : String) : Except ApiError Unit × World :=
  apiCall s w
    (if w.secrets.any (fun p => p.1 = ns ∧ p.2.ObjectMeta.Name = name) then
      (.ok (),
        { w with secrets := w.secrets.filter (fun p => ¬ (p.1 = ns ∧ p.2.ObjectMeta.Name = name)) })
    else (.error .NotFound, w))

/-- `Namespaces().Get` on the worker cluster. -/
def namespacesGet (s : ServerDeps) (w : World) (name : String) : Except ApiError Unit × World :=
  apiCall s w (if name ∈ w.namespaces then (.ok (), w) else (.error .NotFound, w))

/-- `Namespaces().Delete` on the worker cluster: the call removes the namespace
object; the quotas and PVCs stored under the namespace are not touched by it. -/
def namespacesDelete (s : ServerDeps) (w : World) (name : String) : Except ApiError Unit × World :=
  apiCall s w
    (if name ∈ w.namespaces then
      (.ok (), { w with namespaces := w.namespaces.filter (fun n => n ≠ name) })
    else (.error .NotFound, w))

/-- `PersistentVolumeClaims(ns).Get` on the worker cluster. -/
def pvcGet (s : ServerDeps) (w : World) (ns name : String) : Except ApiError Unit × World :=
  apiCall s w (if (ns, name) ∈ w.pvcs then (.ok (), w) else (.error .NotFound, w))

/-- `PersistentVolumeClaims(ns).Delete` on the worker cluster. -/
def pvcDelete (s : ServerDeps) (w : World) (ns name : String) : Except ApiError Unit × World :=
  apiCall s w
    (if (ns, name) ∈ w.pvcs then
      (.ok (), { w with pvcs := w.pvcs.filter (fun p => p ≠ (ns, name)) })
    else (.error .NotFound, w))

/-- Modelled from the spec: `common.CreateNamespace` is not among the sources;
the spec says the namespace is created and that `AlreadyExists` is what the
creation reports when it is there. -/
def CreateNamespace (s : ServerDeps) (w : World) (name : String) : Except ApiError Unit × World :=
  apiCall s w
    (if name ∈ w.namespaces then (.error .AlreadyExists, w)
     else (.ok (), { w with namespaces := w.namespaces ++ [name] }))

/-- Modelled from the spec: `common.CreateResourceQuota` is not among the
sources; the spec says the resource quota for the tenant is created in the namespace. -/
def CreateResourceQuota (s : ServerDeps) (w : World) (tenant : Tenant) (ns : String) :
    Except ApiError Unit × World :=
  apiCall s w
    (if (ns, tenant.Name) ∈ w.quotas then (.error .AlreadyExists, w)
     else if ns ∈ w.namespaces then (.ok (), { w with quotas := w.quotas ++ [(ns, tenant.Name)] })
     else (.error .NotFound, w))

/-- Modelled from the spec: `common.CreatePVC` is not among the sources; the
spec says the PVC of the tenant is created in the namespace, its name being
the one derived from the tenant name. -/
def CreatePVC (s : ServerDeps) (w : World) (tenantName _storageClass _size ns : String) :
    Except ApiError Unit × World :=
  apiCall s w
    (if (ns, s.TenantPVC tenantName) ∈ w.pvcs then (.error .AlreadyExists, w)
     else if ns ∈ w.namespaces then
      (.ok (), { w with pvcs := w.pvcs ++ [(ns, s.TenantPVC tenantName)] })
     else (.error .NotFound, w))

/-- The conversion to `int64`: the value modulo `2^64`, in `[-2^63, 2^63)`. -/
def int64 (x : Int) : Int := (x + 2 ^ 63) % 2 ^ 64 - 2 ^ 63

/-- The capacity of a slice grown from the empty literal `[]T{}` by `n`
appends of one element: `0` when nothing was appended, else what the growth
rule of `append` gives, which is at least `n`. -/
def sliceCap (s : ServerDeps) (n : Nat) : Nat := if n = 0 then 0 else max n (s.sliceGrow n)

/-- The slice expression `xs[low:high]` on a slice of capacity `cap`: a
run-time fault unless `0 ≤ low ≤ high ≤ cap`; the elements past the length
are the zero values of the backing array. -/
def goSlice {α : Type} (cap : Nat) (xs : List α) (zero : α) (low high : Int) : Option (List α) :=
  if 0 ≤ low ∧ low ≤ high ∧ high ≤ (cap : Int) then
    some (((xs ++ List.replicate (cap - xs.length) zero).drop low.toNat).take
      (high.toNat - low.toNat))
  else none

/-- `SecretToIntegration` (integration.go 58-71): the integration, which Go
returns on failure too, and the error of `json.Unmarshal`, if any. A missing
data key reads as the nil byte slice. -/
def SecretToIntegration (s : ServerDeps) (secret : Secret) : Integration × Option String :=
  let decoded := s.jsonUnmarshalSpec ((mapGet secret.Data s.SecretKeyIntegration).getD "")
  ({ ObjectMeta := { secret.ObjectMeta with Name := s.SecretIntegration secret.ObjectMeta.Name }
     Spec := decoded.1 },
   decoded.2)

/-- The loop of `ListIntegrations` (46-52) and of `GetWokerClusters`
(345-351): the integrations of the secrets that decode, in listing order. -/
def decodeAll (s : ServerDeps) : List Secret → List Integration
  | [] => []
  | secret :: rest =>
    match SecretToIntegration s secret with
    | (_, some _) => decodeAll s rest
    | (integration, none) => integration :: decodeAll s rest

/-- `ListIntegrations` (integration.go 24-55). -/
def ListIntegrations (s : ServerDeps) (w : World) (tenant : String) (pagination : Pagination) :
    Except Failure ListResponse × World :=
  match secretsList s w (s.TenantNamespace tenant) s.LabelIntegrationType with
  | (.error e, w1) => (.error (.api e), w1)
  | (.ok items, w1) =>
    let size : Int := items.length
    if pagination.Start ≥ size then (.ok { Total := size, Items := [] }, w1)
    else
      let stop0 := int64 (pagination.Start + pagination.Limit)
      let stop := if stop0 > size then size else stop0
      let integrations := decodeAll s items
      match goSlice (sliceCap s integrations.length) integrations Integration.zero
          pagination.Start stop with
      | none => (.error (.crash "slice bounds out of range"), w1)
      | some page => (.ok { Total := size, Items := page }, w1)

/-- The label map `buildSecret` leaves (224-234). -/
def secretLabels (s : ServerDeps) (inp : Integration) : StrMap :=
  let labels := mapSet (inp.ObjectMeta.Labels.getD []) s.LabelIntegrationType inp.Spec.IntegrationType
  if inp.Spec.IntegrationType = s.ClusterType then
    match inp.Spec.Cluster with
    | none => labels
    | some cluster =>
      if cluster.IsWorkerCluster then mapSet labels s.LabelClusterOn s.LabelTrueValue else labels
  else labels

/-- `buildSecret` (integration.go 220-250). -/
def buildSecret (s : ServerDeps) (_tenant : String) (inp : Integration) : Except Failure Secret :=
  let meta : Meta :=
    { inp.ObjectMeta with
      Name := s.IntegrationSecret inp.ObjectMeta.Name
      Labels := some (secretLabels s inp) }
  match s.jsonMarshalSpec inp.Spec with
  | .error e => .error (.library e)
  | .ok integration => .ok { ObjectMeta := meta, Data := mapSet [] s.SecretKeyIntegration integration }

/-- The integration the caller holds after `buildSecret`: `meta` is a copy of
`in.ObjectMeta` that shares its label map, so the writes of 228-232 show in
`in` when that map was not nil. -/
def afterBuildSecret (s : ServerDeps) (inp : Integration) : Integration :=
  match inp.ObjectMeta.Labels with
  | none => inp
  | some _ => { inp with ObjectMeta := { inp.ObjectMeta with Labels := some (secretLabels s inp) } }

/-- `getIntegration` (integration.go 257-265). -/
def getIntegration (s : ServerDeps) (w : World) (tenant name : String) :
    Except Failure Integration × World :=
  match secretsGet s w (s.TenantNamespace tenant) (s.IntegrationSecret name) with
  | (.error e, w1) => (.error (.api e), w1)
  | (.ok secret, w1) =>
    match SecretToIntegration s secret with
    | (_, some e) => (.error (.library e), w1)
    | (integration, none) => (.ok integration, w1)

/-- The test `err != nil && !errors.IsAlreadyExists(err)` on the outcome of a creation. -/
def exceptAlreadyExists : Except ApiError Unit → Option ApiError
  | .ok _ => none
  | .error e => if e = .AlreadyExists then none else some e

/-- `OpenClusterForTenant` (integration.go 111-178). The cluster source is
changed in place in Go; here the changed source is the result. -/
def OpenClusterForTenant (s : ServerDeps) (w : World) (cluster : ClusterSource)
    (tenantName : String) : Except Failure ClusterSource × World :=
  match s.NewClusterClient cluster.Credential cluster.IsControlCluster with
  | some e => (.error (.library e), w)
  | none =>
  match s.getTenant tenantName with
  | .error e => (.error e, w)
  | .ok tenant =>
  let named : Except Failure ClusterSource × World :=
    if cluster.Namespace ≠ "" then
      match namespacesGet s w cluster.Namespace with
      | (.error e, w1) => (.error (.api e), w1)
      | (.ok _, w1) => (.ok cluster, w1)
    else
      let cluster1 := { cluster with Namespace := s.TenantNamespace tenant.Name }
      match CreateNamespace s w cluster1.Namespace with
      | (r, w1) =>
        match exceptAlreadyExists r with
        | some e => (.error (.api e), w1)
        | none => (.ok cluster1, w1)
  match named with
  | (.error e, w1) => (.error e, w1)
  | (.ok cluster1, w1) =>
  match CreateResourceQuota s w1 tenant cluster1.Namespace with
  | (r, w2) =>
  match exceptAlreadyExists r with
  | some e => (.error (.api e), w2)
  | none =>
  if cluster1.PVC ≠ "" then
    match pvcGet s w2 cluster1.Namespace cluster1.PVC with
    | (.error e, w3) => (.error (.api e), w3)
    | (.ok _, w3) => (.ok cluster1, w3)
  else
    let size := if tenant.Size = "" then s.DefaultPVCSize else tenant.Size
    match CreatePVC s w2 tenant.Name tenant.StorageClass size cluster1.Namespace with
    | (r, w3) =>
      match exceptAlreadyExists r with
      | some e => (.error (.api e), w3)
      | none => (.ok { cluster1 with PVC := s.TenantPVC tenant.Name }, w3)

/-- `CloseClusterForTenant` (integration.go 182-218). -/
def CloseClusterForTenant (s : ServerDeps) (w : World) (cluster : ClusterSource)
    (tenant : String) : Except Failure Unit × World :=
  match s.NewClusterClient cluster.Credential cluster.IsControlCluster with
  | some e => (.error (.library e), w)
  | none =>
  if cluster.Namespace = s.TenantNamespace tenant then
    match namespacesDelete s w cluster.Namespace with
    | (.error e, w1) => (.error (.api e), w1)
    | (.ok _, w1) => (.ok (), w1)
  else
    match namespacesDelete s w cluster.Namespace with
    | (.error e, w1) => (.error (.api e), w1)
    | (.ok _, w1) =>
      if cluster.PVC = s.TenantPVC tenant then
        match pvcDelete s w1 cluster.Namespace cluster.PVC with
        | (.error e, w2) => (.error (.api e), w2)
        | (.ok _, w2) => (.ok (), w2)
      else (.ok (), w1)

/-- `createIntegration` (integration.go 86-108). -/
def createIntegration (s : ServerDeps) (w : World) (tenant : String) (inp : Integration) :
    Except Failure Integration × World :=
  let opened : Except Failure Integration × World :=
    if inp.Spec.IntegrationType = s.ClusterType then
      match inp.Spec.Cluster with
      | none => (.ok inp, w)
      | some cluster =>
        if cluster.IsWorkerCluster then
          match OpenClusterForTenant s w cluster tenant with
          | (.error e, w1) => (.error e, w1)
          | (.ok cluster1, w1) => (.ok { inp with Spec := { inp.Spec with Cluster := some cluster1 } }, w1)
        else (.ok inp, w)
    else (.ok inp, w)
  match opened with
  | (.error e, w1) => (.error e, w1)
  | (.ok inp1, w1) =>
    match buildSecret s tenant inp1 with
    | .error e => (.error e, w1)
    | .ok secret =>
      match secretsCreate s w1 (s.TenantNamespace tenant) secret with
      | (.error e, w2) => (.error (.api e), w2)
      | (.ok _, w2) => (.ok (afterBuildSecret s inp1), w2)

/-- `retry.DefaultRetry.Steps` of client-go. -/
def DefaultRetrySteps : Nat := 5

/-- `retry.RetryOnConflict` of client-go: `fn` is run until it succeeds, fails
with something other than a conflict, or the steps are used up, in which case
the last conflict is the error. -/
def RetryOnConflict (fn : World → Option Failure × World) :
    Nat → Option Failure → World → Option Failure × World
  | 0, lastConflictErr, w => (lastConflictErr, w)
  | steps + 1, _, w =>
    match fn w with
    | (none, w1) => (none, w1)
    | (some (.api .Conflict), w1) => RetryOnConflict fn steps (some (.api .Conflict)) w1
    | (some e, w1) => (some e, w1)

/-- The function `UpdateIntegration` hands to `RetryOnConflict` (306-319). -/
def updateOnce (s : ServerDeps) (ns name : String) (secret : Secret) (inp : Integration)
    (w : World) : Option Failure × World :=
  match secretsGet s w ns (s.IntegrationSecret name) with
  | (.error e, w1) => (some (.api e), w1)
  | (.ok origin, w1) =>
    match origin.ObjectMeta.Labels with
    | none => (some (.crash "assignment to entry in nil map"), w1)
    | some labels =>
      let newSecret : Secret :=
        { ObjectMeta :=
            { origin.ObjectMeta with
              Annotations := s.UpdateAnnotations secret.ObjectMeta.Annotations origin.ObjectMeta.Annotations
              Labels := some (mapSet labels s.LabelIntegrationType inp.Spec.IntegrationType) }
          Data := secret.Data }
      match secretsUpdate s w1 ns newSecret with
      | (.error e, w2) => (some (.api e), w2)
      | (.ok _, w2) => (none, w2)

/-- The second half of `UpdateIntegration` (300-325): the write of the record. -/
def updateSecret (s : ServerDeps) (w : World) (tenant name : String) (inp : Integration) :
    Except Failure Integration × World :=
  let ns := s.TenantNamespace tenant
  match buildSecret s tenant inp with
  | .error e => (.error e, w)
  | .ok secret =>
    match RetryOnConflict (updateOnce s ns name secret (afterBuildSecret s inp)) DefaultRetrySteps
        none w with
    | (some e, w1) => (.error e, w1)
    | (none, w1) => (.ok (afterBuildSecret s inp), w1)

/-- The integration with its cluster source replaced. -/
def Integration.withCluster (inp : Integration) (cluster : ClusterSource) : Integration :=
  { inp with Spec := { inp.Spec with Cluster := some cluster } }

/-- `UpdateIntegration` (integration.go 269-326). -/
def UpdateIntegration (s : ServerDeps) (w : World) (tenant name : String) (inp : Integration) :
    Except Failure Integration × World :=
  if inp.Spec.IntegrationType = s.ClusterType then
    match inp.Spec.Cluster with
    | none => updateSecret s w tenant name inp
    | some cluster =>
      match getIntegration s w tenant name with
      | (.error e, w1) => (.error e, w1)
      | (.ok oldIn, w1) =>
        match oldIn.Spec.Cluster with
        | none => (.error (.crash "nil pointer dereference"), w1)
        | some oldCluster =>
          let opened : Except Failure ClusterSource × World :=
            if !oldCluster.IsWorkerCluster && cluster.IsWorkerCluster then
              OpenClusterForTenant s w1 cluster tenant
            else (.ok cluster, w1)
          match opened with
          | (.error e, w2) => (.error e, w2)
          | (.ok cluster1, w2) =>
            let closed : Except Failure Unit × World :=
              if oldCluster.IsWorkerCluster && !cluster1.IsWorkerCluster then
                CloseClusterForTenant s w2 cluster1 tenant
              else (.ok (), w2)
            match closed with
            | (.error e, w3) => (.error e, w3)
            | (.ok _, w3) => updateSecret s w3 tenant name (inp.withCluster cluster1)
  else updateSecret s w tenant name inp

/-- `DeleteIntegration` (integration.go 329-332). -/
def DeleteIntegration (s : ServerDeps) (w : World) (tenant name : String) :
    Except Failure Unit × World :=
  match secretsDelete s w (s.TenantNamespace tenant) (s.IntegrationSecret name) with
  | (.error e, w1) => (.error (.api e), w1)
  | (.ok _, w1) => (.ok (), w1)

/-- `GetWokerClusters` (integration.go 335-354). -/
def GetWokerClusters (s : ServerDeps) (w : World) (tenant : String) :
    Except Failure (List Integration) × World :=
  match secretsList s w (s.TenantNamespace tenant) s.WorkerClustersSelector with
  | (.error e, w1) => (.error (.api e), w1)
  | (.ok items, w1) => (.ok (decodeAll s items), w1)

/-- The secrets `Secrets(ns).List` selects from the store. -/
def matching (s : ServerDeps) (w : World) (ns selector : String) : List Secret :=
  (w.secrets.filter (fun p => p.1 = ns ∧ s.selects selector p.2.ObjectMeta.Labels)).map
    (fun p => p.2)

/-- A concrete server: the names and labels of package `common`, a json codec
given by the table of the texts it knows, and a fault schedule. -/
def exampleServer (codec : List (String × IntegrationSpec)) (fault : Nat → Option ApiError) :
    ServerDeps :=
  { TenantNamespace := fun t => "cyclone--" ++ t
    TenantPVC := fun t => "cyclone-pvc-" ++ t
    IntegrationSecret := fun n => "integration--" ++ n
    SecretIntegration := fun n => n.drop 13
    LabelIntegrationType := "cyclone.dev/integration-type"
    LabelClusterOn := "cyclone.dev/cluster-on"
    LabelTrueValue := "true"
    SecretKeyIntegration := "integration"
    WorkerClustersSelector := "cyclone.dev/cluster-on=true"
    NewClusterClient := fun _ _ => none
    ClusterType := "Cluster"
    DefaultPVCSize := "10Gi"
    getTenant := fun t => .ok { Name := t, StorageClass := "", Size := "" }
    UpdateAnnotations := fun fresh old => match fresh with
      | some a => some a
      | none => old
    jsonMarshalSpec := fun spec => match codec.find? (fun p => p.2 = spec) with
      | some p => .ok p.1
      | none => .error "json: unsupported value"
    jsonUnmarshalSpec := fun text => match codec.find? (fun p => p.1 = text) with
      | some p => (p.2, none)
      | none => (Integration.zero.Spec, some "invalid character")
    sliceGrow := fun n => 2 * n
    selects := fun selector labels =>
      if selector = "cyclone.dev/integration-type" then
        mapHas (labels.getD []) "cyclone.dev/integration-type"
      else if selector = "cyclone.dev/cluster-on=true" then
        mapGet (labels.getD []) "cyclone.dev/cluster-on" = some "true"
      else false
    fault := fault }

/-- A stored integration secret of the given name, labels and data text. -/
def storedSecret (name : String) (labels : StrMap) (text : String) : Secret :=
  { ObjectMeta := { Name := "integration--" ++ name, Labels := some labels, Annotations := none, Rest := "" }
    Data := [("integration", text)] }

/-- A world whose only objects are the given secrets of tenant `devs`. -/
def worldOf (secrets : List Secret) : World :=
  { secrets := secrets.map (fun x => ("cyclone--devs", x))
    namespaces := [], quotas := [], pvcs := [], tick := 0 }

/-- A secret with the integration type label whose data is not json. -/
def brokenSecret : Secret := storedSecret "sonar" [("cyclone.dev/integration-type", "SonarQube")] "oops"

/-- The stored secret of an integration of a tenant, if there is one. -/
def storedAt (s : ServerDeps) (w : World) (tenant name : String) : Option Secret :=
  (w.secrets.find? (fun p => p.1 = s.TenantNamespace tenant ∧
    p.2.ObjectMeta.Name = s.IntegrationSecret name)).map (fun p => p.2)

/-- The objects of the worker cluster are the same in both worlds. -/
def SameCluster (w w1 : World) : Prop :=
  w1.namespaces = w.namespaces ∧ w1.quotas = w.quotas ∧ w1.pvcs = w.pvcs

/-- A cluster integration spec with the given worker flag, namespace and PVC. -/
def clusterSpec (worker : Bool) (ns pvc : String) : IntegrationSpec :=
  { IntegrationType := "Cluster"
    Cluster := some
      { Credential := "kubeconfig", IsControlCluster := false, IsWorkerCluster := worker
        Namespace := ns, PVC := pvc }
    Rest := "" }

/-- A cluster integration spec without a cluster source. -/
def bareClusterSpec : IntegrationSpec := { IntegrationType := "Cluster", Cluster := none, Rest := "" }

/-- A server whose json codec knows five cluster specs. -/
def clusterServer (fault : Nat → Option ApiError) : ServerDeps :=
  exampleServer
    [("idle", clusterSpec false "" ""), ("asked", clusterSpec true "" ""),
     ("worker", clusterSpec true "cyclone--devs" "cyclone-pvc-devs"),
     ("retired", clusterSpec false "cyclone--devs" "cyclone-pvc-devs"),
     ("bare", bareClusterSpec)]
    fault

/-- The integration `c1` with the given spec, as a request carries it. -/
def clusterRequest (spec : IntegrationSpec) : Integration :=
  { ObjectMeta := { Name := "c1", Labels := none, Annotations := none, Rest := "" }, Spec := spec }

/-- Tenant `devs` with the cluster integration `c1` stored as not a worker cluster. -/
def idleWorld : World :=
  worldOf [storedSecret "c1" [("cyclone.dev/integration-type", "Cluster")] "idle"]

/-- Tenant `devs` with the cluster integration `c1` stored as a worker
cluster, opened: the namespace, the quota and the PVC of the tenant exist. -/
def workerWorld : World :=
  { secrets :=
      [("cyclone--devs",
        storedSecret "c1"
          [("cyclone.dev/integration-type", "Cluster"), ("cyclone.dev/cluster-on", "true")]
          "worker")]
    namespaces := ["cyclone--devs"]
    quotas := [("cyclone--devs", "devs")]
    pvcs := [("cyclone--devs", "cyclone-pvc-devs")]
    tick := 0 }

/-! ## The steps of `OpenClusterForTenant` -/

/-- The last step of `OpenClusterForTenant` (integration.go 153-177): the PVC
is looked up when the cluster source names one, and created otherwise. -/
def openPVC (s : ServerDeps) (w : World) (tenant : Tenant) (cluster : ClusterSource) :
    Except Failure ClusterSource × World :=
  if cluster.PVC ≠ "" then
    match pvcGet s w cluster.Namespace cluster.PVC with
    | (.error e, w1) => (.error (.api e), w1)
    | (.ok _, w1) => (.ok cluster, w1)
  else
    let size := if tenant.Size = "" then s.DefaultPVCSize else tenant.Size
    match CreatePVC s w tenant.Name tenant.StorageClass size cluster.Namespace with
    | (r, w1) =>
      match exceptAlreadyExists r with
      | some e => (.error (.api e), w1)
      | none => (.ok { cluster with PVC := s.TenantPVC tenant.Name }, w1)

/-- The steps of `OpenClusterForTenant` from the resource quota on (integration.go 144-177). -/
def openQuota (s : ServerDeps) (w : World) (tenant : Tenant) (cluster : ClusterSource) :
    Except Failure ClusterSource × World :=
  match CreateResourceQuota s w tenant cluster.Namespace with
  | (r, w1) =>
    match exceptAlreadyExists r with
    | some e => (.error (.api e), w1)
    | none => openPVC s w1 tenant cluster

/-- The steps of `OpenClusterForTenant` from the namespace on (integration.go
125-177), for the tenant `getTenant` returned. -/
def openNamespace (s : ServerDeps) (w : World) (tenant : Tenant) (cluster : ClusterSource) :
    Except Failure ClusterSource × World :=
  if cluster.Namespace ≠ "" then
    match namespacesGet s w cluster.Namespace with
    | (.error e, w1) => (.error (.api e), w1)
    | (.ok _, w1) => openQuota s w1 tenant cluster
  else
    match CreateNamespace s w (s.TenantNamespace tenant.Name) with
    | (r, w1) =>
      match exceptAlreadyExists r with
      | some e => (.error (.api e), w1)
      | none => openQuota s w1 tenant { cluster with Namespace := s.TenantNamespace tenant.Name }

/-- The fault schedule never reports `AlreadyExists`: that answer comes from
the object store only, when the object is there. -/
def FaultsAreNotAlreadyExists (s : ServerDeps) : Prop := ∀ n, s.fault n ≠ some .AlreadyExists

/-- The cluster source of a request that leaves the namespace and the PVC to Cyclone. -/
def askedSource : ClusterSource :=
  { Credential := "kubeconfig", IsControlCluster := false, IsWorkerCluster := true
    Namespace := "", PVC := "" }

/-- The cluster source `askedSource` as `OpenClusterForTenant` fills it for tenant `devs`. -/
def filledSource : ClusterSource :=
  { Credential := "kubeconfig", IsControlCluster := false, IsWorkerCluster := true
    Namespace := "cyclone--devs", PVC := "cyclone-pvc-devs" }

/-- The world `idleWorld` with the tenant namespace, quota and PVC of `devs`, after `tick` calls. -/
def openedWorld (tick : Nat) : World :=
  { idleWorld with
    namespaces := ["cyclone--devs"], quotas := [("cyclone--devs", "devs")]
    pvcs := [("cyclone--devs", "cyclone-pvc-devs")], tick := tick }

/-- An integration spec of another type: no cluster source. -/
def scmSpec : IntegrationSpec := { IntegrationType := "SCM", Cluster := none, Rest := "github" }

/-- A server whose json codec knows an SCM spec and the cluster specs of a request. -/
def mixedServer : ServerDeps :=
  exampleServer
    [("scm", scmSpec), ("asked", clusterSpec true "" ""),
     ("worker", clusterSpec true "cyclone--devs" "cyclone-pvc-devs")]
    (fun _ => none)

/-- Tenant `devs` with the integration `c1` stored as an SCM integration. -/
def scmWorld : World := worldOf [storedSecret "c1" [("cyclone.dev/integration-type", "SCM")] "scm"]

/-- The world `workerWorld` after a successful `CloseClusterForTenant`, at the
given tick: the tenant namespace is deleted. -/
def closedWorld (tick : Nat) : World :=
  { workerWorld with namespaces := [], tick := tick }

/-! ## Worked examples of the last claims on `pod.go` -/

/-- The stage of the worked example of a broken template: the container
`main` and the argument `DIR`, which has no default. -/
def escapeStage : Stage := plainStage "build" ["main"] [⟨"DIR", ""⟩] []

/-- The parameters of the worked example of a broken template: the value
given for `DIR` has a backslash that is no json escape, so the rendered text
is not json; `json.Unmarshal` reports the syntax error and leaves the pod
spec it was given, the zero value, as it is. -/
def escapeDeps : Deps :=
  { exampleDeps [escapeStage] [] (plainSpec ["main"]) .ok "" with
    jsonUnmarshalPodSpec := fun _ =>
      (PodSpec.zero, some "invalid character 'p' in string escape code") }

/-- The fresh builder of the worked example of a broken template: the run
sets `DIR` to a Windows path. -/
def escapeBuilder : PodBuilder :=
  NewPodBuilder escapeDeps
    { Name := "wf", Stages := [{ Name := "build", Artifacts := [] }], Resources := none }
    { Name := "run", Namespace := "ns",
      Stages := [{ Name := "build", Parameters := [⟨"DIR", "C:\\path"⟩] }], Resources := [] }
    "build"

/-- The parameters of the worked example of an artifact source without
separator: the stage `test` with the input artifact `a1`, and the common PVC `pvc-t1`. -/
def unsplitDeps : Deps := exampleDeps [artifactStage] [] (plainSpec ["main"]) .ok "pvc-t1"

/-- The fresh builder of the worked example of an artifact source without
separator: the workflow binds `a1` to `build`. -/
def unsplitBuilder : PodBuilder :=
  NewPodBuilder unsplitDeps
    { Name := "wf", Stages := [{ Name := "test", Artifacts := [⟨"a1", "build"⟩] }],
      Resources := none }
    { Name := "run", Namespace := "ns", Stages := [], Resources := [] } "test"

/-- The builder `unsplitBuilder` as `ResolveInputArtifacts` finds it. -/
def unsplitPrepared : PodBuilder :=
  { unsplitBuilder with
    stg := some artifactStage
    pod := { Pod.zero with Spec := plainSpec ["main"] } }

/-! ## Words of the claim about mounts and volumes -/

/-- The names of the volumes of the pod. -/
def volumeNames (m : PodBuilder) : List String := m.pod.Spec.Volumes.map (fun v => v.Name)

/-- Every volume mount of the container names one of `names`. -/
def MountsIn (names : List String) (c : Container) : Prop :=
  ∀ vm ∈ c.VolumeMounts, vm.Name ∈ names

/-- Every volume mount of every container and init container of the pod
names a volume of the pod, and so does every volume name the PVC mapping records. -/
def MountsBacked (m : PodBuilder) : Prop :=
  (∀ c ∈ m.pod.Spec.Containers, MountsIn (volumeNames m) c) ∧
  (∀ c ∈ m.pod.Spec.InitContainers, MountsIn (volumeNames m) c) ∧
  (∀ p n, mapGet m.pvcVolumes p = some n → n ∈ volumeNames m)

/-- The volumes `CreateVolumes` makes are in the pod: the coordinator volume
and the socket volume, the common PVC volume when there is a common PVC, and
the registry secret volume when a registry secret is configured. -/
def BaseVolumes (d : Deps) (m : PodBuilder) : Prop :=
  d.CoordinatorSidecarVolumeName ∈ volumeNames m ∧ d.DockerSockVolume ∈ volumeNames m ∧
  (m.executionContext.PVC ≠ "" → d.DefaultPvVolumeName ∈ volumeNames m) ∧
  (d.ConfigSecret ≠ "" → d.DockerConfigJSONVolume ∈ volumeNames m)

/-- The builder `m1` has the volumes of `m`, possibly more, and its execution context. -/
def Grows (m m1 : PodBuilder) : Prop :=
  volumeNames m ⊆ volumeNames m1 ∧ m1.executionContext = m.executionContext

/-! ## Lemmas on maps -/

theorem mapGet_mapSet_same (m : StrMap) (k v : String) : mapGet (mapSet m k v) k = some v := by
  induction m with
  | nil => simp [mapSet, mapGet]
  | cons e m ih =>
    obtain ⟨k1, v1⟩ := e
    by_cases h : k1 = k
    · simp [mapSet, mapGet, h]
    · simp [mapSet, mapGet, h, ih]

theorem mapGet_mapSet_ne (m : StrMap) (k v k1 : String) (h : k1 ≠ k) :
    mapGet (mapSet m k v) k1 = mapGet m k1 := by
  induction m with
  | nil => simp [mapSet, mapGet, Ne.symm h]
  | cons e m ih =>
    obtain ⟨k2, v2⟩ := e
    by_cases h2 : k2 = k
    · subst h2
      simp [mapSet, mapGet, Ne.symm h]
    · by_cases h3 : k2 = k1
      · subst h3
        simp [mapSet, mapGet, h2]
      · simp [mapSet, mapGet, h2, h3, ih]

theorem mapGet_mapSet (m : StrMap) (k v k1 : String) :
    mapGet (mapSet m k v) k1 = if k1 = k then some v else mapGet m k1 := by
  by_cases h : k1 = k
  · subst h
    simp [mapGet_mapSet_same]
  · simp [h, mapGet_mapSet_ne]

theorem setAll_append (ps : StrMap) (xs ys : List ParameterItem) :
    setAll ps (xs ++ ys) = setAll (setAll ps xs) ys := by
  simp [setAll, List.foldl_append]

/-- After writing `items`, a name reads as the last item of that name, or as before. -/
theorem mapGet_setAll (ps : StrMap) (items : List ParameterItem) (name : String) :
    mapGet (setAll ps items) name =
      match (items.filter (fun p => p.Name = name)).getLast? with
      | some p => some p.Value
      | none => mapGet ps name := by
  induction items using List.reverseRecOn with
  | nil => simp [setAll]
  | append_singleton xs x ih =>
    rw [setAll_append]
    by_cases h : x.Name = name
    · simp [setAll, List.filter_append, h, mapGet_mapSet]
    · have h1 : name ≠ x.Name := fun e => h e.symm
      simp only [setAll, List.foldl_cons, List.foldl_nil] at ih ⊢
      rw [mapGet_mapSet_ne _ _ _ _ h1, ih]
      simp [List.filter_append, h]

theorem runParameters_fold (stage : String) (stages : List ParameterConfig) (ps : StrMap) :
    stages.foldl
        (fun parameters s =>
          if s.Name = stage then
            s.Parameters.foldl (fun parameters p => mapSet parameters p.Name p.Value) parameters
          else parameters)
        ps =
      setAll ps (((stages.filter (fun s => s.Name = stage)).map (fun s => s.Parameters)).flatten) := by
  induction stages generalizing ps with
  | nil => simp [setAll]
  | cons s rest ih =>
    by_cases h : s.Name = stage
    · simp only [List.foldl_cons, h, if_true, ih]
      simp [List.filter_cons, h, setAll_append, setAll]
    · simp only [List.foldl_cons, h, if_false, ih]
      simp [List.filter_cons, h]

theorem runParameters_eq (m : PodBuilder) : runParameters m = setAll [] (stageOverrides m) := by
  unfold runParameters stageOverrides
  exact runParameters_fold m.stage m.wfr.Stages []

/-- The run overrides read from the collected map: the last override of the name. -/
theorem mapGet_runParameters (m : PodBuilder) (name : String) :
    mapGet (runParameters m) name =
      ((stageOverrides m).filter (fun p => p.Name = name)).getLast?.map (fun p => p.Value) := by
  rw [runParameters_eq, mapGet_setAll]
  cases ((stageOverrides m).filter (fun p => p.Name = name)).getLast? <;> simp [mapGet]

theorem mapHas_runParameters (m : PodBuilder) (name : String) :
    mapHas (runParameters m) name = true ↔ Overridden m name := by
  unfold mapHas Overridden
  rw [mapGet_runParameters]
  constructor
  · intro h
    cases hl : ((stageOverrides m).filter (fun p => p.Name = name)).getLast? with
    | none => simp [hl] at h
    | some p =>
      have hm := List.mem_of_getLast?_eq_some hl
      simp only [List.mem_filter, decide_eq_true_eq] at hm
      exact ⟨p, hm.1, hm.2⟩
  · rintro ⟨p, hp, hn⟩
    have hne : (stageOverrides m).filter (fun p => p.Name = name) ≠ [] := by
      intro he
      have : p ∈ (stageOverrides m).filter (fun p => p.Name = name) := by
        simp [List.mem_filter, hp, hn]
      rw [he] at this
      exact absurd this (List.not_mem_nil _)
    cases hl : ((stageOverrides m).filter (fun p => p.Name = name)).getLast? with
    | none => exact absurd (List.getLast?_eq_none_iff.mp hl) hne
    | some q => simp

/-! ## The defaults loop of `ResolveArguments` -/

theorem mapHas_mapSet (ps : StrMap) (k v k1 : String) :
    mapHas (mapSet ps k v) k1 = (decide (k1 = k) || mapHas ps k1) := by
  unfold mapHas
  rw [mapGet_mapSet]
  by_cases h : k1 = k <;> simp [h]

theorem ne_of_mapHas {ps : StrMap} {k k1 : String} (h : mapHas ps k = true)
    (h1 : mapHas ps k1 = false) : k ≠ k1 := by
  intro e
  rw [e, h1] at h
  exact Bool.noConfusion h

/-- When the defaults loop succeeds, a name that was set keeps its value and a
name that was not set reads as the default of its first declaration. -/
theorem applyDefaults_ok (s : String) (args : List ParameterItem) (ps ps1 : StrMap)
    (h : applyDefaults s args ps = .ok ps1) (name : String) :
    mapGet ps1 name =
      match mapGet ps name with
      | some v => some v
      | none => (args.find? (fun a => a.Name = name)).map (fun a => a.Value) := by
  induction args generalizing ps with
  | nil =>
    simp only [applyDefaults, Except.ok.injEq] at h
    subst h
    cases mapGet ps name <;> simp
  | cons a rest ih =>
    unfold applyDefaults at h
    by_cases h1 : mapHas ps a.Name = true
    · rw [if_pos h1] at h
      rw [ih ps h]
      cases hg : mapGet ps name with
      | some v => rfl
      | none =>
        have hne : a.Name ≠ name := ne_of_mapHas h1 (by simp [mapHas, hg])
        simp [List.find?_cons, hne]
    · rw [if_neg h1] at h
      by_cases h2 : a.Value = ""
      · rw [if_pos h2] at h
        exact Except.noConfusion h
      · rw [if_neg h2] at h
        rw [ih _ h, mapGet_mapSet]
        by_cases h3 : name = a.Name
        · subst h3
          have hg : mapGet ps a.Name = none := by
            cases hg : mapGet ps a.Name with
            | none => rfl
            | some v => exact absurd (by simp [mapHas, hg]) h1
          simp [hg, List.find?_cons]
        · have h4 : a.Name ≠ name := fun e => h3 e.symm
          simp only [h3, if_false]
          cases mapGet ps name with
          | some v => rfl
          | none => simp [List.find?_cons, h4]

/-- An error of the defaults loop is the missing-argument error of an argument
with an empty default, not set before the loop and not declared earlier. -/
theorem applyDefaults_error (s : String) (args : List ParameterItem) (ps : StrMap) (e : Err)
    (h : applyDefaults s args ps = .error e) :
    ∃ pre a post, args = pre ++ a :: post ∧ a.Value = "" ∧ mapHas ps a.Name = false ∧
      (∀ b ∈ pre, b.Name ≠ a.Name) ∧ e = .errorf (missingArgumentMessage a.Name s) := by
  induction args generalizing ps with
  | nil => exact Except.noConfusion h
  | cons a rest ih =>
    unfold applyDefaults at h
    by_cases h1 : mapHas ps a.Name = true
    · rw [if_pos h1] at h
      obtain ⟨pre, x, post, hd, hv, hh, hp, he⟩ := ih ps h
      refine ⟨a :: pre, x, post, by simp [hd], hv, hh, ?_, he⟩
      intro b hb
      rcases List.mem_cons.mp hb with hb | hb
      · subst hb
        exact ne_of_mapHas h1 hh
      · exact hp b hb
    · rw [if_neg h1] at h
      by_cases h2 : a.Value = ""
      · rw [if_pos h2] at h
        refine ⟨[], a, rest, rfl, h2, by simpa using h1, by simp, ?_⟩
        injection h with h
        exact h.symm
      · rw [if_neg h2] at h
        obtain ⟨pre, x, post, hd, hv, hh, hp, he⟩ := ih _ h
        rw [mapHas_mapSet] at hh
        simp only [Bool.or_eq_false_iff, decide_eq_false_iff_not] at hh
        refine ⟨a :: pre, x, post, by simp [hd], hv, hh.2, ?_, he⟩
        intro b hb
        rcases List.mem_cons.mp hb with hb | hb
        · subst hb
          exact fun e => hh.1 e.symm
        · exact hp b hb

/-- The defaults loop fails when some argument has an empty default, was not
set before the loop and is not declared earlier. -/
theorem applyDefaults_fails (s : String) (pre : List ParameterItem) (a : ParameterItem)
    (post : List ParameterItem) (ps : StrMap) (hv : a.Value = "") (hh : mapHas ps a.Name = false)
    (hp : ∀ b ∈ pre, b.Name ≠ a.Name) : ∃ e, applyDefaults s (pre ++ a :: post) ps = .error e := by
  induction pre generalizing ps with
  | nil => exact ⟨.errorf (missingArgumentMessage a.Name s), by simp [applyDefaults, hh, hv]⟩
  | cons b pre ih =>
    have hb : b.Name ≠ a.Name := hp b (List.mem_cons_self _ _)
    have hp1 : ∀ c ∈ pre, c.Name ≠ a.Name := fun c hc => hp c (List.mem_cons_of_mem _ hc)
    simp only [List.cons_append, applyDefaults]
    by_cases h1 : mapHas ps b.Name = true
    · rw [if_pos h1]
      exact ih ps hh hp1
    · rw [if_neg h1]
      by_cases h2 : b.Value = ""
      · rw [if_pos h2]
        exact ⟨_, rfl⟩
      · rw [if_neg h2]
        refine ih _ ?_ hp1
        rw [mapHas_mapSet, hh]
        simpa using fun e : a.Name = b.Name => hb e.symm

/-- The defaults loop reports the first argument left without a value. -/
theorem applyDefaults_first (s : String) (pre : List ParameterItem) (a : ParameterItem)
    (post : List ParameterItem) (ps : StrMap) (hv : a.Value = "") (hh : mapHas ps a.Name = false)
    (hp : ∀ b ∈ pre, b.Name ≠ a.Name)
    (hfirst : ∀ pre1 b pre2, pre = pre1 ++ b :: pre2 →
      ¬ (b.Value = "" ∧ mapHas ps b.Name = false ∧ ∀ c ∈ pre1, c.Name ≠ b.Name)) :
    applyDefaults s (pre ++ a :: post) ps = .error (.errorf (missingArgumentMessage a.Name s)) := by
  induction pre generalizing ps with
  | nil => simp [applyDefaults, hh, hv]
  | cons b pre ih =>
    have hb : b.Name ≠ a.Name := hp b (List.mem_cons_self _ _)
    have hp1 : ∀ c ∈ pre, c.Name ≠ a.Name := fun c hc => hp c (List.mem_cons_of_mem _ hc)
    have h0 := hfirst [] b pre rfl
    simp only [List.cons_append, applyDefaults]
    by_cases h1 : mapHas ps b.Name = true
    · rw [if_pos h1]
      refine ih ps hh hp1 ?_
      rintro pre1 c pre2 rfl ⟨hc1, hc2, hc3⟩
      refine hfirst (b :: pre1) c pre2 rfl ⟨hc1, hc2, ?_⟩
      intro x hx
      rcases List.mem_cons.mp hx with hx | hx
      · subst hx
        exact ne_of_mapHas h1 hc2
      · exact hc3 x hx
    · rw [if_neg h1]
      have h1f : mapHas ps b.Name = false := by simpa using h1
      have h2 : b.Value ≠ "" := fun h2 => h0 ⟨h2, h1f, by simp⟩
      rw [if_neg h2]
      refine ih _ ?_ hp1 ?_
      · rw [mapHas_mapSet, hh]
        simpa using fun e : a.Name = b.Name => hb e.symm
      · rintro pre1 c pre2 rfl ⟨hc1, hc2, hc3⟩
        rw [mapHas_mapSet] at hc2
        simp only [Bool.or_eq_false_iff, decide_eq_false_iff_not] at hc2
        refine hfirst (b :: pre1) c pre2 rfl ⟨hc1, hc2.2, ?_⟩
        intro x hx
        rcases List.mem_cons.mp hx with hx | hx
        · subst hx
          exact fun e => hc2.1 e.symm
        · exact hc3 x hx

theorem contains_missingArgumentMessage (arg stg : String) :
    Contains (missingArgumentMessage arg stg) arg ∧ Contains (missingArgumentMessage arg stg) stg := by
  constructor
  · exact ⟨"argument '", "' not set in stage '" ++ stg ++ "' and without default value", by
      simp [missingArgumentMessage, String.append_assoc]⟩
  · exact ⟨"argument '" ++ arg ++ "' not set in stage '", "' and without default value", by
      simp [missingArgumentMessage, String.append_assoc]⟩

theorem mapHas_false_iff_not_overridden (m : PodBuilder) (name : String) :
    mapHas (runParameters m) name = false ↔ ¬ Overridden m name := by
  rw [← mapHas_runParameters]
  simp

/-- `ResolveArguments` in terms of its steps, once the stage and its pod are known. -/
theorem ResolveArguments_eq (d : Deps) (m : PodBuilder) (stg : Stage) (sp : StagePod)
    (hstg : m.stg = some stg) (hpod : stg.Pod = some sp) :
    ResolveArguments d m =
      match collectParameters m stg sp with
      | .error e => .error e
      | .ok parameters =>
        match d.jsonMarshalPodSpec sp.Spec with
        | .error e => .error (.upstream e)
        | .ok raw =>
          match d.mustacheRender raw parameters with
          | .error e => .error (.upstream e)
          | .ok rendered =>
            .ok (m.withSpec { (d.jsonUnmarshalPodSpec rendered).1 with RestartPolicy := "Never" }) := by
  simp only [ResolveArguments, stagePod, hstg, hpod, bind, Except.bind, pure, Except.pure]
  cases collectParameters m stg sp with
  | error e => rfl
  | ok parameters =>
    simp only []
    cases d.jsonMarshalPodSpec sp.Spec with
    | error e => rfl
    | ok raw =>
      simp only [liftUp]
      cases d.mustacheRender raw parameters with
      | error e => rfl
      | ok rendered => rfl

/-! ## C1: the parameter map of `ResolveArguments` -/

/-- Claim C1, as amended. When `ResolveArguments` succeeds, the map handed to
`mustache.Render` reads, for every name: the value of the last run override of
that name for this stage when the run overrides it (never a stage default);
otherwise the default of the first declared argument of that name; nothing
when the name is neither overridden nor declared. -/
theorem ResolveArguments_parameter_map (d : Deps) (m m1 : PodBuilder)
    (h : ResolveArguments d m = .ok m1) :
    ∃ stg sp parameters raw rendered,
      m.stg = some stg ∧ stg.Pod = some sp ∧ collectParameters m stg sp = .ok parameters ∧
      d.jsonMarshalPodSpec sp.Spec = .ok raw ∧ d.mustacheRender raw parameters = .ok rendered ∧
      ∀ name : String,
        mapGet parameters name =
          match ((stageOverrides m).filter (fun p => p.Name = name)).getLast? with
          | some p => some p.Value
          | none => (sp.Inputs.Arguments.find? (fun a => a.Name = name)).map (fun a => a.Value) := by
  cases hstg : m.stg with
  | none => simp [ResolveArguments, stagePod, hstg, bind, Except.bind] at h
  | some stg =>
    cases hpod : stg.Pod with
    | none => simp [ResolveArguments, stagePod, hstg, hpod, bind, Except.bind] at h
    | some sp =>
      rw [ResolveArguments_eq d m stg sp hstg hpod] at h
      cases hc : collectParameters m stg sp with
      | error e => simp [hc] at h
      | ok parameters =>
        cases hm : d.jsonMarshalPodSpec sp.Spec with
        | error e => simp [hc, hm] at h
        | ok raw =>
          cases hr : d.mustacheRender raw parameters with
          | error e => simp [hc, hm, hr] at h
          | ok rendered =>
            refine ⟨stg, sp, parameters, raw, rendered, rfl, hpod, hc, hm, hr, ?_⟩
            intro name
            rw [applyDefaults_ok _ _ _ _ hc name, mapGet_runParameters]
            cases ((stageOverrides m).filter (fun p => p.Name = name)).getLast? <;> rfl

/-- The amended claim C1 at a run that overrides `TAG` twice and leaves `REGION` to its default. -/
theorem ResolveArguments_parameter_map_witness :
    ∃ m1,
      ResolveArguments (argDeps .ok)
          (plainBuilder (argStage [⟨"REGION", "eu"⟩, ⟨"TAG", "latest"⟩]) ""
            [⟨"TAG", "v1"⟩, ⟨"TAG", "v2"⟩]) = .ok m1 ∧
      ∃ stg sp parameters raw rendered,
        (plainBuilder (argStage [⟨"REGION", "eu"⟩, ⟨"TAG", "latest"⟩]) ""
            [⟨"TAG", "v1"⟩, ⟨"TAG", "v2"⟩]).stg = some stg ∧
        stg.Pod = some sp ∧
        collectParameters
            (plainBuilder (argStage [⟨"REGION", "eu"⟩, ⟨"TAG", "latest"⟩]) ""
              [⟨"TAG", "v1"⟩, ⟨"TAG", "v2"⟩]) stg sp = .ok parameters ∧
        (argDeps .ok).jsonMarshalPodSpec sp.Spec = .ok raw ∧
        (argDeps .ok).mustacheRender raw parameters = .ok rendered ∧
        ∀ name : String,
          mapGet parameters name =
            match ((stageOverrides
                (plainBuilder (argStage [⟨"REGION", "eu"⟩, ⟨"TAG", "latest"⟩]) ""
                  [⟨"TAG", "v1"⟩, ⟨"TAG", "v2"⟩])).filter (fun p => p.Name = name)).getLast? with
            | some p => some p.Value
            | none => (sp.Inputs.Arguments.find? (fun a => a.Name = name)).map (fun a => a.Value) :=
  ⟨_, rfl, ResolveArguments_parameter_map _ _ _ rfl⟩

/-- Claim C1 as stated fails: the stage declares `X` twice, with the defaults
`a` and `b`, and the run overrides nothing. `ResolveArguments` succeeds and
the map gives `X` the value `a`, so the second declared argument, which the
run does not override, is not mapped to its default `b`. -/
theorem ResolveArguments_duplicate_argument_default :
    (∃ m1, ResolveArguments (argDeps .ok) (plainBuilder (argStage [⟨"X", "a"⟩, ⟨"X", "b"⟩]) "" [])
        = .ok m1) ∧
    ∃ stg sp parameters,
      (plainBuilder (argStage [⟨"X", "a"⟩, ⟨"X", "b"⟩]) "" []).stg = some stg ∧
      stg.Pod = some sp ∧
      collectParameters (plainBuilder (argStage [⟨"X", "a"⟩, ⟨"X", "b"⟩]) "" []) stg sp
        = .ok parameters ∧
      ∃ a ∈ sp.Inputs.Arguments,
        ¬ Overridden (plainBuilder (argStage [⟨"X", "a"⟩, ⟨"X", "b"⟩]) "" []) a.Name ∧
        mapGet parameters a.Name ≠ some a.Value := by
  refine ⟨⟨_, rfl⟩, _, _, _, rfl, rfl, rfl, ⟨"X", "b"⟩, by decide, ?_, by decide⟩
  rintro ⟨p, hp, _⟩
  simp [stageOverrides, plainBuilder, argStage, plainStage] at hp

/-! ## C2: the missing-argument error -/

/-- Claim C2, as amended. `ResolveArguments` fails with the missing-argument
error exactly when some declared argument is left unset: it has an empty
default, no run override for this stage and no earlier declaration of the same
name. The error is the one of the first such argument, and its message
contains the name of that argument and the name of the stage. -/
theorem ResolveArguments_missing_argument (d : Deps) (m : PodBuilder) (stg : Stage)
    (sp : StagePod) (hstg : m.stg = some stg) (hpod : stg.Pod = some sp) :
    ((∃ a ∈ sp.Inputs.Arguments,
        ResolveArguments d m = .error (.errorf (missingArgumentMessage a.Name stg.Name))) ↔
      ∃ pre a post, sp.Inputs.Arguments = pre ++ a :: post ∧ Unset m pre a) ∧
    ∀ pre a post, sp.Inputs.Arguments = pre ++ a :: post → Unset m pre a →
      (∀ pre1 b pre2, pre = pre1 ++ b :: pre2 → ¬ Unset m pre1 b) →
      ResolveArguments d m = .error (.errorf (missingArgumentMessage a.Name stg.Name)) ∧
      Contains (missingArgumentMessage a.Name stg.Name) a.Name ∧
      Contains (missingArgumentMessage a.Name stg.Name) stg.Name := by
  have key : ∀ e, collectParameters m stg sp = .error e → ResolveArguments d m = .error e := by
    intro e he
    rw [ResolveArguments_eq d m stg sp hstg hpod, he]
  refine ⟨⟨?_, ?_⟩, ?_⟩
  · rintro ⟨a, _, ha⟩
    rw [ResolveArguments_eq d m stg sp hstg hpod] at ha
    cases hc : collectParameters m stg sp with
    | error e =>
      obtain ⟨pre, x, post, hd, hv, hh, hp, _⟩ := applyDefaults_error _ _ _ _ hc
      exact ⟨pre, x, post, hd, hv, (mapHas_false_iff_not_overridden m x.Name).mp hh, hp⟩
    | ok parameters =>
      rw [hc] at ha
      simp only [] at ha
      cases hm : d.jsonMarshalPodSpec sp.Spec with
      | error e => simp [hm] at ha
      | ok raw =>
        rw [hm] at ha
        simp only [] at ha
        cases hr : d.mustacheRender raw parameters with
        | error e => simp [hr] at ha
        | ok rendered => simp [hr] at ha
  · rintro ⟨pre, a, post, hd, hv, ho, hp⟩
    obtain ⟨e, he⟩ := applyDefaults_fails stg.Name pre a post (runParameters m) hv
      ((mapHas_false_iff_not_overridden m a.Name).mpr ho) hp
    rw [← hd] at he
    obtain ⟨pre1, x, post1, hd1, _, _, _, hx⟩ := applyDefaults_error _ _ _ _ he
    refine ⟨x, by simp [hd1], ?_⟩
    rw [← hx]
    exact key e he
  · rintro pre a post hd ⟨hv, ho, hp⟩ hfirst
    refine ⟨?_, contains_missingArgumentMessage a.Name stg.Name⟩
    apply key
    unfold collectParameters
    rw [hd]
    refine applyDefaults_first stg.Name pre a post (runParameters m) hv
      ((mapHas_false_iff_not_overridden m a.Name).mpr ho) hp ?_
    rintro pre1 b pre2 hb ⟨hb1, hb2, hb3⟩
    exact hfirst pre1 b pre2 hb ⟨hb1, (mapHas_false_iff_not_overridden m b.Name).mp hb2, hb3⟩

/-- The amended claim C2 at the stage `build` that declares `REGION` without a
default, in a run that overrides nothing: the build fails and the message
names `REGION` and `build`. -/
theorem ResolveArguments_missing_argument_witness :
    ResolveArguments (argDeps .ok) (plainBuilder (argStage [⟨"TAG", "latest"⟩, ⟨"REGION", ""⟩]) "" [])
        = .error (.errorf "argument 'REGION' not set in stage 'build' and without default value") ∧
    Contains "argument 'REGION' not set in stage 'build' and without default value" "REGION" ∧
    Contains "argument 'REGION' not set in stage 'build' and without default value" "build" :=
  (ResolveArguments_missing_argument (argDeps .ok)
    (plainBuilder (argStage [⟨"TAG", "latest"⟩, ⟨"REGION", ""⟩]) "" [])
    (argStage [⟨"TAG", "latest"⟩, ⟨"REGION", ""⟩])
    { Inputs := { Arguments := [⟨"TAG", "latest"⟩, ⟨"REGION", ""⟩], Resources := [], Artifacts := [] }
      Outputs := { Resources := [], Artifacts := [] }
      Spec := plainSpec ["main"] }
    rfl rfl).2 [⟨"TAG", "latest"⟩] ⟨"REGION", ""⟩ [] rfl
    ⟨rfl, by
      rintro ⟨p, hp, _⟩
      simp [stageOverrides, plainBuilder, argStage, plainStage] at hp, by decide⟩
    (by
      rintro pre1 b pre2 hb ⟨hv, _, _⟩
      rcases pre1 with _ | ⟨x, pre1⟩
      · simp only [List.nil_append, List.cons.injEq] at hb
        rw [← hb.1] at hv
        exact absurd hv (by decide)
      · simp at hb)

/-- Claim C2 as stated fails: the stage declares `X` with the default `a` and
then `X` again with an empty default, and the run overrides nothing. A
declared argument has no run override and an empty default, yet
`ResolveArguments` succeeds. -/
theorem ResolveArguments_duplicate_argument_empty_default :
    (∃ a ∈ [(⟨"X", "a"⟩ : ParameterItem), ⟨"X", ""⟩],
      a.Value = "" ∧ ¬ Overridden (plainBuilder (argStage [⟨"X", "a"⟩, ⟨"X", ""⟩]) "" []) a.Name) ∧
    ∃ m1, ResolveArguments (argDeps .ok) (plainBuilder (argStage [⟨"X", "a"⟩, ⟨"X", ""⟩]) "" [])
      = .ok m1 := by
  refine ⟨⟨⟨"X", ""⟩, by decide, rfl, ?_⟩, _, rfl⟩
  rintro ⟨p, hp, _⟩
  simp [stageOverrides, plainBuilder, argStage, plainStage] at hp

/-! ## C3: reference values in `ResolveArguments` -/

/-- Claim C3 at a failing input. The run overrides `TOKEN` with a reference
value that the lookup resolves to `hunter2`, and `REGION` keeps a default on
which the lookup fails. `ResolveArguments` succeeds, and the map it hands to
`mustache.Render` holds the reference value itself and the unresolved default:
no lookup takes place in this pass. -/
theorem ResolveArguments_keeps_reference_values :
    secretLookup "$.ns.secret/token" = .ok "hunter2" ∧
    secretLookup "eu" = .error "not a reference" ∧
    collectParameters
        (plainBuilder (argStage [⟨"TOKEN", ""⟩, ⟨"REGION", "eu"⟩]) "" [⟨"TOKEN", "$.ns.secret/token"⟩])
        (argStage [⟨"TOKEN", ""⟩, ⟨"REGION", "eu"⟩])
        { Inputs :=
            { Arguments := [⟨"TOKEN", ""⟩, ⟨"REGION", "eu"⟩], Resources := [], Artifacts := [] }
          Outputs := { Resources := [], Artifacts := [] }
          Spec := plainSpec ["main"] }
      = .ok [("TOKEN", "$.ns.secret/token"), ("REGION", "eu")] ∧
    ∃ m1,
      ResolveArguments (argDeps secretLookup)
        (plainBuilder (argStage [⟨"TOKEN", ""⟩, ⟨"REGION", "eu"⟩]) "" [⟨"TOKEN", "$.ns.secret/token"⟩])
        = .ok m1 :=
  ⟨rfl, rfl, rfl, _, rfl⟩

/-! ## C6: `CreatePVCVolume` -/

/-- Claim C6. For every builder state: when the PVC is recorded,
`CreatePVCVolume` returns the recorded volume name and leaves the builder,
hence the volume list and the mapping, unchanged; otherwise it returns the
proposed name, appends exactly one PVC volume with that name and that claim,
records `pvc -> name` and touches nothing else. Hence a second call with the
same PVC, whatever name it proposes, returns the name of the first call and
leaves the builder as the first call left it: the two calls together append the
one volume of the PVC when it was not recorded before, and none when it was. -/
theorem CreatePVCVolume_coalesces (m : PodBuilder) (name pvc : String) :
    (∀ volume, mapGet m.pvcVolumes pvc = some volume → CreatePVCVolume m name pvc = (volume, m)) ∧
    (mapGet m.pvcVolumes pvc = none →
      (CreatePVCVolume m name pvc).1 = name ∧
      (CreatePVCVolume m name pvc).2.pod.Spec.Volumes =
        m.pod.Spec.Volumes ++ [{ Name := name, VolumeSource := .PersistentVolumeClaim pvc }] ∧
      mapGet (CreatePVCVolume m name pvc).2.pvcVolumes pvc = some name ∧
      (∀ other, other ≠ pvc →
        mapGet (CreatePVCVolume m name pvc).2.pvcVolumes other = mapGet m.pvcVolumes other) ∧
      (CreatePVCVolume m name pvc).2 =
        { m with
          pod := { m.pod with Spec := { m.pod.Spec with
            Volumes := m.pod.Spec.Volumes ++
              [{ Name := name, VolumeSource := .PersistentVolumeClaim pvc }] } }
          pvcVolumes := mapSet m.pvcVolumes pvc name }) ∧
    (∀ name2,
      (CreatePVCVolume (CreatePVCVolume m name pvc).2 name2 pvc).1 = (CreatePVCVolume m name pvc).1 ∧
      (CreatePVCVolume (CreatePVCVolume m name pvc).2 name2 pvc).2 = (CreatePVCVolume m name pvc).2 ∧
      (CreatePVCVolume (CreatePVCVolume m name pvc).2 name2 pvc).2.pod.Spec.Volumes =
        m.pod.Spec.Volumes ++
          (if mapHas m.pvcVolumes pvc then []
           else [{ Name := name, VolumeSource := .PersistentVolumeClaim pvc }])) := by
  refine ⟨?_, ?_, ?_⟩
  · intro volume h
    simp [CreatePVCVolume, h]
  · intro h
    refine ⟨?_, ?_, ?_, ?_, ?_⟩ <;>
      simp [CreatePVCVolume, h, PodBuilder.appendVolume, PodBuilder.withSpec, mapGet_mapSet_same]
    intro other hne
    exact mapGet_mapSet_ne _ _ _ _ hne
  · intro name2
    cases h : mapGet m.pvcVolumes pvc with
    | some volume => simp [CreatePVCVolume, h, mapHas]
    | none =>
      simp [CreatePVCVolume, h, mapHas, PodBuilder.appendVolume, PodBuilder.withSpec,
        mapGet_mapSet_same]

/-! ## C7: `AddVolumeMounts` -/

/-- What `AddVolumeMounts` does: without a common PVC the builder is returned
as it is; with one, once the stage is known, every container of the pod,
sidecar or not, gets the stage mount appended. -/
theorem AddVolumeMounts_eq (d : Deps) (m : PodBuilder) (stg : Stage) (hstg : m.stg = some stg) :
    AddVolumeMounts d m =
      .ok (if m.executionContext.PVC = "" then m
        else m.withSpec { m.pod.Spec with
          Containers := m.pod.Spec.Containers.map (addStageMount d m.wfr.Name stg.Name) }) := by
  unfold AddVolumeMounts
  by_cases h : m.executionContext.PVC = ""
  · simp [h]
  · simp only [ne_eq, h, not_false_eq_true, if_true, if_false, hstg]
    cases hc : m.pod.Spec.Containers <;> simp

/-- Claim C7 at a failing input. With the common PVC `pvc-t1`, the workload
`main`, the stage-declared sidecar `sc-db` and the output resolver `output-1`,
`AddVolumeMounts` gives all three containers the mount of `commonPV` at the
stage workspace path with sub-path `stages/run/build`, although `OnlyWorkload`
rejects `sc-db`. -/
theorem AddVolumeMounts_mounts_sidecars :
    (exampleDeps [] [] PodSpec.zero .ok "pvc-t1").OnlyWorkload "sc-db" = false ∧
    (AddVolumeMounts (exampleDeps [] [] PodSpec.zero .ok "pvc-t1") mountBuilder).map
        (fun m1 => m1.pod.Spec.Containers.map (fun c => (c.Name, c.VolumeMounts))) =
      .ok [("main", [⟨"commonPV", "/stage", "stages/run/build"⟩]),
           ("sc-db", [⟨"commonPV", "/stage", "stages/run/build"⟩]),
           ("output-1", [⟨"commonPV", "/stage", "stages/run/build"⟩])] :=
  ⟨rfl, rfl⟩

/-! ## C9: the workload container name given to the coordinator -/

/-- Claim C9 at a failing input. The stage declares the sidecar `sc-db` before
its single workload container `main`. `Prepare` accepts the stage, `Build`
returns a pod, and the coordinator's workload-container-name variable is
`sc-db`, the first container of the template, not `main`. -/
theorem AddCoordinator_names_first_container :
    HasPrefix "sc-db" "sc-" = true ∧ HasPrefix "main" "sc-" = false ∧
    (Build (exampleDeps [sidecarFirstStage] [] (plainSpec ["sc-db", "main"]) .ok "")
        (NewPodBuilder (exampleDeps [sidecarFirstStage] [] (plainSpec ["sc-db", "main"]) .ok "")
          { Name := "wf", Stages := [{ Name := "build", Artifacts := [] }], Resources := none }
          { Name := "run", Namespace := "ns", Stages := [], Resources := [] } "build")).map
      (fun pod =>
        (pod.Spec.Containers.filter (fun c => c.Name = "coordinator")).map
          (fun c => c.Env.filter (fun e => e.Name = "workloadContainerName"))) =
      .ok [[⟨"workloadContainerName", "sc-db"⟩]] :=
  ⟨rfl, rfl, rfl⟩

/-! ## C10: `applyResourceRequirements` -/

theorem fillUnset_eq (target source : Option StrMap) :
    fillUnset target source = (source.getD []).foldl fillStep target := rfl

theorem resourceGet_getD (t : Option StrMap) (k : String) :
    resourceGet (some (t.getD [])) k = resourceGet t k := by
  cases t <;> simp [resourceGet, mapGet]

theorem resourceGet_fillStep (t : Option StrMap) (kv : String × String) (k : String) :
    resourceGet (fillStep t kv) k =
      match resourceGet t k with
      | some v => some v
      | none => if kv.1 = k then some kv.2 else none := by
  unfold fillStep
  by_cases h : mapHas (t.getD []) kv.1 = true
  · rw [if_pos h, resourceGet_getD]
    cases hg : resourceGet t k with
    | some v => rfl
    | none =>
      have hne : kv.1 ≠ k := by
        intro e
        rw [← resourceGet_getD, ← e] at hg
        simp [resourceGet, mapHas] at hg h
        rw [hg] at h
        exact Bool.noConfusion h
      simp [hne]
  · rw [if_neg h]
    show mapGet (mapSet (t.getD []) kv.1 kv.2) k = _
    rw [mapGet_mapSet, ← resourceGet_getD t k]
    by_cases hk : k = kv.1
    · have hg : mapGet (t.getD []) k = none := by
        cases hg : mapGet (t.getD []) k with
        | none => rfl
        | some v =>
          rw [hk] at hg
          exact absurd (by simp [mapHas, hg]) h
      rw [hk] at hg
      simp [resourceGet, hg, hk]
    · have hk1 : kv.1 ≠ k := fun e => hk e.symm
      simp only [hk, if_false, resourceGet, hk1]
      cases mapGet (t.getD []) k <;> rfl

theorem resourceGet_foldl_fillStep (l : StrMap) (t : Option StrMap) (k : String) :
    resourceGet (l.foldl fillStep t) k =
      match resourceGet t k with
      | some v => some v
      | none => mapGet l k := by
  induction l generalizing t with
  | nil =>
    simp only [List.foldl_nil]
    cases resourceGet t k <;> simp [mapGet]
  | cons kv rest ih =>
    simp only [List.foldl_cons]
    rw [ih, resourceGet_fillStep]
    obtain ⟨k0, v0⟩ := kv
    cases resourceGet t k with
    | some v => rfl
    | none =>
      by_cases h : k0 = k <;> simp [mapGet, h]

/-- After a fill loop a key that was set keeps its value, and a key that was
not set reads as in the requirements. -/
theorem resourceGet_fillUnset (target source : Option StrMap) (k : String) :
    resourceGet (fillUnset target source) k =
      match resourceGet target k with
      | some v => some v
      | none => resourceGet source k := by
  rw [fillUnset_eq, resourceGet_foldl_fillStep]
  cases source <;> cases resourceGet target k <;> simp [resourceGet, mapGet]

/-- A fill loop over requirements without entries leaves the list as it is, nil included. -/
theorem fillUnset_of_empty (target source : Option StrMap) (h : source.getD [] = []) :
    fillUnset target source = target := by
  simp [fillUnset, h]

/-- Claim C10. `applyResourceRequirements` returns as many containers as it
was given, with the same names in the same order; position by position, a
container the selector rejects is returned unchanged, and a selected container
differs from the original in its resource requirements only, where every
request or limit key that was set keeps its value, every key that was unset
reads as in the requirements (unset when the requirements do not have it), and
a request or limit list is left as it is when the requirements have no entry
of that kind. -/
theorem applyResourceRequirements_fills_unset (containers : List Container)
    (requirements : ResourceRequirements) (selector : String → Bool) :
    (applyResourceRequirements containers requirements selector).length = containers.length ∧
    (applyResourceRequirements containers requirements selector).map (fun c => c.Name) =
      containers.map (fun c => c.Name) ∧
    List.Forall₂
      (fun c c1 =>
        (selector c.Name = false → c1 = c) ∧
        (selector c.Name = true →
          c1 = { c with Resources := c1.Resources } ∧
          (∀ k, resourceGet c1.Resources.Requests k =
            match resourceGet c.Resources.Requests k with
            | some v => some v
            | none => resourceGet requirements.Requests k) ∧
          (∀ k, resourceGet c1.Resources.Limits k =
            match resourceGet c.Resources.Limits k with
            | some v => some v
            | none => resourceGet requirements.Limits k) ∧
          (requirements.Requests.getD [] = [] → c1.Resources.Requests = c.Resources.Requests) ∧
          (requirements.Limits.getD [] = [] → c1.Resources.Limits = c.Resources.Limits)))
      containers (applyResourceRequirements containers requirements selector) := by
  refine ⟨by simp [applyResourceRequirements], ?_, ?_⟩
  · simp only [applyResourceRequirements, List.map_map]
    apply List.map_congr_left
    intro c _
    simp only [Function.comp, applyToContainer]
    split <;> rfl
  · unfold applyResourceRequirements
    induction containers with
    | nil => exact List.Forall₂.nil
    | cons c rest ih =>
      refine List.Forall₂.cons ⟨?_, ?_⟩ ih
      · intro h
        simp [applyToContainer, h]
      · intro h
        have hc : applyToContainer requirements selector c =
            { c with
              Resources :=
                { Requests := fillUnset c.Resources.Requests requirements.Requests
                  Limits := fillUnset c.Resources.Limits requirements.Limits } } := by
          simp [applyToContainer, h]
        rw [hc]
        exact ⟨rfl, fun k => resourceGet_fillUnset _ _ k, fun k => resourceGet_fillUnset _ _ k,
          fun he => fillUnset_of_empty _ _ he, fun he => fillUnset_of_empty _ _ he⟩

/-! ## `Build` as a chain of passes -/

theorem bind_eq_ok {α β : Type} (x : Except Err α) (f : α → Except Err β) (b : β) :
    (x >>= f) = .ok b ↔ ∃ a, x = .ok a ∧ f a = .ok b := by
  cases x with
  | error e => simp [bind, Except.bind]
  | ok a => simp [bind, Except.bind]

/-- A pod returned by `Build` is the pod of the builder after all eleven passes succeeded. -/
theorem Build_ok (d : Deps) (m : PodBuilder) (pod : Pod) (h : Build d m = .ok pod) :
    ∃ m1 m2 m3 m4 m5 m6 m7 m8 m9 m10 m11,
      Prepare d m = .ok m1 ∧ ResolveArguments d m1 = .ok m2 ∧ CreateVolumes d m2 = .ok m3 ∧
      ResolveInputResources d m3 = .ok m4 ∧ ResolveOutputResources d m4 = .ok m5 ∧
      ResolveInputArtifacts d m5 = .ok m6 ∧ AddVolumeMounts d m6 = .ok m7 ∧
      AddCoordinator d m7 = .ok m8 ∧ InjectEnvs d m8 = .ok m9 ∧
      ApplyResourceRequirements d m9 = .ok m10 ∧ ApplyServiceAccount d m10 = .ok m11 ∧
      pod = m11.pod := by
  unfold Build at h
  simp only [bind_eq_ok] at h
  obtain ⟨m1, h1, m2, h2, m3, h3, m4, h4, m5, h5, m6, h6, m7, h7, m8, h8, m9, h9, m10, h10, m11,
    h11, hp⟩ := h
  refine ⟨m1, m2, m3, m4, m5, m6, m7, m8, m9, m10, m11, h1, h2, h3, h4, h5, h6, h7, h8, h9, h10,
    h11, ?_⟩
  simp only [pure, Except.pure, Except.ok.injEq] at hp
  exact hp.symm

/-! ## What the passes leave alone -/

theorem SameRun_same (m : PodBuilder) : SameRun m m := ⟨rfl, rfl, rfl, rfl⟩

theorem SameRun_then {m m1 m2 : PodBuilder} (h : SameRun m m1) (h1 : SameRun m1 m2) :
    SameRun m m2 :=
  ⟨h1.1.trans h.1, h1.2.1.trans h.2.1, h1.2.2.1.trans h.2.2.1, h1.2.2.2.trans h.2.2.2⟩

theorem SameRun_withSpec (m : PodBuilder) (spec : PodSpec) : SameRun m (m.withSpec spec) :=
  ⟨rfl, rfl, rfl, rfl⟩

theorem Prepare_ok (d : Deps) (m m1 : PodBuilder) (h : Prepare d m = .ok m1) :
    SameRun m m1 ∧ m1.pod.Spec = m.pod.Spec ∧ m1.pvcVolumes = m.pvcVolumes ∧
    ∃ stage sp, m1.stg = some stage ∧ stage.Pod = some sp ∧
      d.getStage m.wfr.Namespace m.stage = .ok stage := by
  unfold Prepare at h
  cases hg : d.getStage m.wfr.Namespace m.stage with
  | error e => simp [hg] at h
  | ok stage =>
    rw [hg] at h
    simp only [] at h
    cases hp : stage.Pod with
    | none => simp [hp] at h
    | some sp =>
      rw [hp] at h
      simp only [] at h
      split at h
      · exact Except.noConfusion h
      · injection h with h
        subst h
        exact ⟨⟨rfl, rfl, rfl, rfl⟩, rfl, rfl, stage, sp, rfl, hp, rfl⟩

theorem ResolveArguments_ok (d : Deps) (m m1 : PodBuilder) (h : ResolveArguments d m = .ok m1) :
    SameRun m m1 ∧ m1.stg = m.stg ∧ m1.pvcVolumes = m.pvcVolumes ∧
    m1.outputResources = m.outputResources ∧ m1.pod.ObjectMeta = m.pod.ObjectMeta ∧
    ∃ rendered, m1.pod.Spec = { (d.jsonUnmarshalPodSpec rendered).1 with RestartPolicy := "Never" } := by
  cases hstg : m.stg with
  | none => simp [ResolveArguments, stagePod, hstg, bind, Except.bind] at h
  | some stg =>
    cases hpod : stg.Pod with
    | none => simp [ResolveArguments, stagePod, hstg, hpod, bind, Except.bind] at h
    | some sp =>
      rw [ResolveArguments_eq d m stg sp hstg hpod] at h
      cases hc : collectParameters m stg sp with
      | error e => simp [hc] at h
      | ok parameters =>
        cases hm : d.jsonMarshalPodSpec sp.Spec with
        | error e => simp [hc, hm] at h
        | ok raw =>
          cases hr : d.mustacheRender raw parameters with
          | error e => simp [hc, hm, hr] at h
          | ok rendered =>
            simp only [hc, hm, hr, Except.ok.injEq] at h
            subst h
            exact ⟨⟨rfl, rfl, rfl, rfl⟩, hstg.symm ▸ rfl, rfl, rfl, rfl, rendered, rfl⟩

theorem Continues_same (m : PodBuilder) : Continues m m :=
  ⟨SameRun_same m, rfl, fun _ _ h => h, ⟨[], by simp⟩, fun h => h⟩

theorem Continues_then {m m1 m2 : PodBuilder} (h : Continues m m1) (h1 : Continues m1 m2) :
    Continues m m2 := by
  obtain ⟨a, b, c, ⟨added, e⟩, f⟩ := h
  obtain ⟨a1, b1, c1, ⟨added1, e1⟩, f1⟩ := h1
  refine ⟨SameRun_then a a1, b1.trans b, fun p v hp => c1 p v (c p v hp), ⟨added ++ added1, ?_⟩,
    fun hv => f1 (f hv)⟩
  rw [e1, e, List.append_assoc]

/-- A pass that keeps the volumes, the mapping and the run continues the builder. -/
theorem Continues_of_same {m m1 : PodBuilder} (h : SameRun m m1) (hs : m1.stg = m.stg)
    (hv : m1.pod.Spec.Volumes = m.pod.Spec.Volumes) (hp : m1.pvcVolumes = m.pvcVolumes) :
    Continues m m1 := by
  refine ⟨h, hs, fun p v hg => by rw [hp]; exact hg, ⟨[], by simp [hv]⟩, ?_⟩
  intro hc
  unfold VolumesCoalesced at hc ⊢
  rw [hv, hp]
  exact hc

theorem Continues_withSpec_same (m : PodBuilder) (spec : PodSpec)
    (hv : spec.Volumes = m.pod.Spec.Volumes) : Continues m (m.withSpec spec) :=
  Continues_of_same (SameRun_withSpec m spec) rfl hv rfl

/-- Appending a volume that references no PVC continues the builder. -/
theorem appendVolume_continues (m : PodBuilder) (v : Volume) (hv : claimName v = none) :
    Continues m (m.appendVolume v) := by
  refine ⟨⟨rfl, rfl, rfl, rfl⟩, rfl, fun _ _ h => h, ⟨[v], rfl⟩, ?_⟩
  rintro ⟨hn, hr⟩
  refine ⟨?_, ?_⟩
  · simpa [PodBuilder.appendVolume, PodBuilder.withSpec, List.filterMap_append, hv] using hn
  · intro w hw p hp
    simp only [PodBuilder.appendVolume, PodBuilder.withSpec, List.mem_append,
      List.mem_singleton] at hw
    rcases hw with hw | hw
    · exact hr w hw p hp
    · subst hw
      rw [hv] at hp
      exact Option.noConfusion hp

theorem CreatePVCVolume_continues (m : PodBuilder) (name pvc : String) :
    Continues m (CreatePVCVolume m name pvc).2 ∧
    (CreatePVCVolume m name pvc).2.pod.Spec.Containers = m.pod.Spec.Containers ∧
    (CreatePVCVolume m name pvc).2.pod.Spec.InitContainers = m.pod.Spec.InitContainers ∧
    (CreatePVCVolume m name pvc).2.outputResources = m.outputResources ∧
    mapGet (CreatePVCVolume m name pvc).2.pvcVolumes pvc = some (CreatePVCVolume m name pvc).1 := by
  cases h : mapGet m.pvcVolumes pvc with
  | some volume =>
    have e : CreatePVCVolume m name pvc = (volume, m) := by simp [CreatePVCVolume, h]
    rw [e]
    exact ⟨Continues_same m, rfl, rfl, rfl, h⟩
  | none =>
    have e : CreatePVCVolume m name pvc =
        (name,
          { m.appendVolume { Name := name, VolumeSource := .PersistentVolumeClaim pvc } with
            pvcVolumes := mapSet m.pvcVolumes pvc name }) := by
      simp [CreatePVCVolume, h]
    rw [e]
    refine ⟨⟨⟨rfl, rfl, rfl, rfl⟩, rfl, ?_, ⟨_, rfl⟩, ?_⟩, rfl, rfl, rfl, mapGet_mapSet_same _ _ _⟩
    · intro p v hp
      have hne : p ≠ pvc := by
        intro e
        rw [e, h] at hp
        exact Option.noConfusion hp
      show mapGet (mapSet m.pvcVolumes pvc name) p = some v
      rw [mapGet_mapSet_ne _ _ _ _ hne]
      exact hp
    · rintro ⟨hn, hr⟩
      refine ⟨?_, ?_⟩
      · show ((m.pod.Spec.Volumes ++ [_]).filterMap claimName).Nodup
        rw [List.filterMap_append]
        simp only [List.filterMap_cons, claimName, List.filterMap_nil]
        rw [List.nodup_append]
        refine ⟨hn, List.nodup_singleton _, ?_⟩
        intro x hx hx1
        rw [List.mem_singleton] at hx1
        subst hx1
        obtain ⟨w, hw, hc⟩ := List.mem_filterMap.mp hx
        have := hr w hw x hc
        simp [mapHas, h] at this
      · intro w hw p hp
        show mapHas (mapSet m.pvcVolumes pvc name) p = true
        rw [mapHas_mapSet]
        have hw1 : w ∈ m.pod.Spec.Volumes ++
            [({ Name := name, VolumeSource := .PersistentVolumeClaim pvc } : Volume)] := hw
        rcases List.mem_append.mp hw1 with hw2 | hw2
        · simp [hr w hw2 p hp]
        · rw [List.mem_singleton] at hw2
          subst hw2
          simp only [claimName, Option.some.injEq] at hp
          simp [hp]

theorem CreateVolumes_ok (d : Deps) (m m1 : PodBuilder) (h : CreateVolumes d m = .ok m1) :
    Continues m m1 ∧ m1.pod.Spec.Containers = m.pod.Spec.Containers ∧
    m1.pod.Spec.InitContainers = m.pod.Spec.InitContainers := by
  unfold CreateVolumes at h
  simp only [bind_eq_ok, bind, Except.bind, pure, Except.pure] at h
  have c0 := appendVolume_continues m
    { Name := d.CoordinatorSidecarVolumeName, VolumeSource := .EmptyDir } rfl
  generalize hm0 : m.appendVolume
    { Name := d.CoordinatorSidecarVolumeName, VolumeSource := .EmptyDir } = m0 at h c0
  have k0 : m0.pod.Spec.Containers = m.pod.Spec.Containers ∧
      m0.pod.Spec.InitContainers = m.pod.Spec.InitContainers := by
    subst hm0
    exact ⟨rfl, rfl⟩
  have step : ∀ ma : PodBuilder, Continues m ma →
      (ma.pod.Spec.Containers = m.pod.Spec.Containers ∧
        ma.pod.Spec.InitContainers = m.pod.Spec.InitContainers) →
      (if d.ConfigSecret ≠ "" then
          (ma.appendVolume
              { Name := d.DockerSockVolume
                VolumeSource := .HostPath d.DockerSockPath "Socket" }).appendVolume
            { Name := d.DockerConfigJSONVolume
              VolumeSource :=
                .Secret d.ConfigSecret [(d.DockerConfigJSONFile, d.DockerConfigJSONFile)] }
        else
          ma.appendVolume
            { Name := d.DockerSockVolume, VolumeSource := .HostPath d.DockerSockPath "Socket" })
        = m1 →
      Continues m m1 ∧ m1.pod.Spec.Containers = m.pod.Spec.Containers ∧
        m1.pod.Spec.InitContainers = m.pod.Spec.InitContainers := by
    intro ma ca ka hb
    have cb := Continues_then ca (appendVolume_continues ma
      { Name := d.DockerSockVolume, VolumeSource := .HostPath d.DockerSockPath "Socket" } rfl)
    by_cases hs : d.ConfigSecret = ""
    · simp only [hs, ne_eq, not_true_eq_false, if_false] at hb
      subst hb
      exact ⟨cb, ka⟩
    · simp only [hs, ne_eq, not_false_eq_true, if_true] at hb
      subst hb
      exact ⟨Continues_then cb (appendVolume_continues _ _ rfl), ka⟩
  by_cases hp : m0.executionContext.PVC = ""
  · simp only [hp, ne_eq, not_true_eq_false, if_false, Except.ok.injEq] at h
    exact step m0 c0 k0 h
  · simp only [hp, ne_eq, not_false_eq_true, if_true] at h
    have cc := CreatePVCVolume_continues m0 d.DefaultPvVolumeName m0.executionContext.PVC
    generalize CreatePVCVolume m0 d.DefaultPvVolumeName m0.executionContext.PVC = res at h cc
    obtain ⟨n, mc⟩ := res
    simp only at h cc
    by_cases hn : n = d.DefaultPvVolumeName
    · simp only [hn, not_true_eq_false, if_false, Except.ok.injEq] at h
      exact step mc (Continues_then c0 cc.1) ⟨cc.2.1.trans k0.1, cc.2.2.1.trans k0.2⟩ h
    · simp [hn] at h

/-! ## The loop of `ResolveInputResources` -/

theorem withMounts_nil (d : Deps) (c : Container) : withMounts d [] c = c := by
  unfold withMounts
  split <;> simp

theorem withMounts_cons (d : Deps) (x : VolumeMount) (xs : List VolumeMount) (c : Container) :
    withMounts d xs (withMounts d [x] c) = withMounts d (x :: xs) c := by
  unfold withMounts
  by_cases h : d.OnlyWorkload c.Name = true
  · simp [h]
  · simp [h]

theorem mountInputResource_eq (d : Deps) (volumeName subPath : String) (r : PathItem) :
    mountInputResource d volumeName subPath r =
      withMounts d
        [{ Name := volumeName, MountPath := r.Path, SubPath := workloadSubPath subPath }] := by
  funext c
  rfl

theorem ChosenVolume_mono (d : Deps) {m ma mb m1 : PodBuilder} {added added1 : List Volume}
    (r : PathItem) (ch : InputChoice) (he : ma.executionContext = m.executionContext)
    (hw : ma.wfr = m.wfr)
    (hp : ∀ p v, mapGet mb.pvcVolumes p = some v → mapGet m1.pvcVolumes p = some v)
    (ha : ∀ v ∈ added, v ∈ added1) (h : ChosenVolume d ma mb added r ch) :
    ChosenVolume d m m1 added1 r ch := by
  unfold ChosenVolume at h ⊢
  cases hc : ch.resource.Persistent with
  | some persistent =>
    rw [hc] at h
    exact ⟨hp _ _ h.1, h.2⟩
  | none =>
    rw [hc] at h
    simp only [he, hw] at h ⊢
    by_cases hpvc : m.executionContext.PVC = ""
    · simp only [hpvc, if_true] at h ⊢
      exact ⟨h.1, h.2.1, ha _ h.2.2⟩
    · simp only [hpvc, if_false] at h ⊢
      exact h

theorem inputResourceVolume_ok (d : Deps) (m : PodBuilder) (r : PathItem) (resource : Resource)
    (envs : List EnvVar) :
    Continues m (inputResourceVolume d m r resource).2.2 ∧
    (inputResourceVolume d m r resource).2.2.pod.Spec.Containers = m.pod.Spec.Containers ∧
    (inputResourceVolume d m r resource).2.2.pod.Spec.InitContainers = m.pod.Spec.InitContainers ∧
    ∃ added,
      (inputResourceVolume d m r resource).2.2.pod.Spec.Volumes = m.pod.Spec.Volumes ++ added ∧
      ChosenVolume d m (inputResourceVolume d m r resource).2.2 added r
        { resource := resource
          volumeName := (inputResourceVolume d m r resource).1
          subPath := (inputResourceVolume d m r resource).2.1
          envs := envs } := by
  cases hc : resource.Persistent with
  | some persistent =>
    have e : inputResourceVolume d m r resource =
        ((CreatePVCVolume m (d.InputResourceVolumeName r.Name) persistent.PVC).1, persistent.Path,
          (CreatePVCVolume m (d.InputResourceVolumeName r.Name) persistent.PVC).2) := by
      simp [inputResourceVolume, hc]
    rw [e]
    obtain ⟨c, k, i, _, g⟩ :=
      CreatePVCVolume_continues m (d.InputResourceVolumeName r.Name) persistent.PVC
    obtain ⟨added, ha⟩ := c.2.2.2.1
    refine ⟨c, k, i, added, ha, ?_⟩
    simp only [ChosenVolume, hc]
    exact ⟨g, trivial⟩
  | none =>
    by_cases hp : m.executionContext.PVC = ""
    · have e : inputResourceVolume d m r resource =
          (d.GetResourceVolumeName resource.Name, "",
            CreateEmptyDirVolume m (d.GetResourceVolumeName resource.Name)) := by
        simp [inputResourceVolume, hc, hp]
      rw [e]
      refine ⟨appendVolume_continues m _ rfl, rfl, rfl,
        [{ Name := d.GetResourceVolumeName resource.Name, VolumeSource := .EmptyDir }], rfl, ?_⟩
      simp [ChosenVolume, hc, hp]
    · have e : inputResourceVolume d m r resource =
          (d.DefaultPvVolumeName, ResourcePath m.wfr.Name r.Name, m) := by
        simp [inputResourceVolume, hc, hp]
      rw [e]
      refine ⟨Continues_same m, rfl, rfl, [], by simp, ?_⟩
      simp [ChosenVolume, hc, hp]

/-- One iteration of the loop of `ResolveInputResources`. -/
theorem resolveInputResource_ok (d : Deps) (m : PodBuilder) (index : Nat) (r : PathItem)
    (m1 : PodBuilder) (h : resolveInputResource d m index r = .ok m1) :
    Continues m m1 ∧
    ∃ ch added,
      d.getResource m.wfr.Namespace r.Name = .ok ch.resource ∧
      m1.pod.Spec.Volumes = m.pod.Spec.Volumes ++ added ∧
      ChosenVolume d m m1 added r ch ∧
      m1.pod.Spec.InitContainers = m.pod.Spec.InitContainers ++ inputContainers d index [ch] ∧
      m1.pod.Spec.Containers = m.pod.Spec.Containers.map (withMounts d (inputMounts [r] [ch])) := by
  unfold resolveInputResource at h
  cases hg : d.getResource m.wfr.Namespace r.Name with
  | error e => simp [hg] at h
  | ok resource =>
    rw [hg] at h
    simp only at h
    cases he : resolveEnvs d
        (resourceEnvsMap m r.Name resource [(d.EnvWorkflowrunName, m.wfr.Name)]) with
    | error e => simp [he] at h
    | ok envs =>
      rw [he] at h
      simp only [Except.ok.injEq] at h
      obtain ⟨c, k, i, added, ha, hch⟩ := inputResourceVolume_ok d m r resource envs
      generalize inputResourceVolume d m r resource = res at h c k i ha hch
      obtain ⟨volumeName, subPath, m0⟩ := res
      simp only at h c k i ha hch
      subst h
      refine ⟨Continues_then c (Continues_withSpec_same m0 _ rfl),
        ⟨resource, volumeName, subPath, envs⟩, added, rfl, ha, ?_, ?_, ?_⟩
      · exact ChosenVolume_mono d r _ rfl rfl (fun _ _ hq => hq) (fun _ hv => hv) hch
      · simp [PodBuilder.withSpec, i, inputContainers, List.enumFrom]
      · simp [PodBuilder.withSpec, k, inputMounts, mountInputResource_eq]

/-- The loop of `ResolveInputResources`, started at position `index`. -/
theorem resolveInputResourcesFrom_ok (d : Deps) (index : Nat) (rs : List PathItem)
    (m m1 : PodBuilder) (h : resolveInputResourcesFrom d index rs m = .ok m1) :
    Continues m m1 ∧
    ∃ chosen added,
      m1.pod.Spec.Volumes = m.pod.Spec.Volumes ++ added ∧
      List.Forall₂
        (fun r ch =>
          d.getResource m.wfr.Namespace r.Name = .ok ch.resource ∧ ChosenVolume d m m1 added r ch)
        rs chosen ∧
      m1.pod.Spec.InitContainers = m.pod.Spec.InitContainers ++ inputContainers d index chosen ∧
      m1.pod.Spec.Containers = m.pod.Spec.Containers.map (withMounts d (inputMounts rs chosen)) := by
  induction rs generalizing index m with
  | nil =>
    simp only [resolveInputResourcesFrom, Except.ok.injEq] at h
    subst h
    refine ⟨Continues_same m, [], [], by simp, List.Forall₂.nil, by simp [inputContainers], ?_⟩
    have e : withMounts d [] = id := funext (withMounts_nil d)
    simp [inputMounts, e]
  | cons r rest ih =>
    unfold resolveInputResourcesFrom at h
    cases hs : resolveInputResource d m index r with
    | error e => simp [hs] at h
    | ok ma =>
      rw [hs] at h
      simp only at h
      obtain ⟨c, ch, added, hg, hv, hch, hi, hk⟩ := resolveInputResource_ok d m index r ma hs
      obtain ⟨c1, chosen, added1, hv1, hf, hi1, hk1⟩ := ih (index + 1) ma h
      refine ⟨Continues_then c c1, ch :: chosen, added ++ added1, ?_, List.Forall₂.cons ⟨hg, ?_⟩ ?_, ?_, ?_⟩
      · rw [hv1, hv, List.append_assoc]
      · exact ChosenVolume_mono d r ch rfl rfl c1.2.2.1
          (fun v hv => List.mem_append_left _ hv) hch
      · refine hf.imp ?_
        intro r1 ch1 ⟨hg1, hc1⟩
        refine ⟨by rw [← c.1.2.1]; exact hg1, ?_⟩
        exact ChosenVolume_mono d r1 ch1 c.1.2.2.2 c.1.2.1 (fun _ _ hq => hq)
          (fun v hv => List.mem_append_right _ hv) hc1
      · rw [hi1, hi, List.append_assoc]
        simp [inputContainers, List.enumFrom]
      · rw [hk1, hk, List.map_map]
        apply List.map_congr_left
        intro c0 _
        simp only [Function.comp, inputMounts, List.zipWith_cons_cons, List.zipWith_nil_right]
        exact withMounts_cons d _ _ c0

/-! ## C4: `ResolveInputResources` -/

/-- Position by position, a resource of the stage has its choice. -/
theorem choice_at (P : PathItem → InputChoice → Prop) :
    ∀ (rs : List PathItem) (chosen : List InputChoice), List.Forall₂ P rs chosen →
      ∀ (i : Nat) (r : PathItem), rs[i]? = some r → ∃ ch, chosen[i]? = some ch ∧ P r ch
  | [], _, _, i, r, hr => by simp at hr
  | r0 :: rs, [], hf, _, _, _ => by cases hf
  | r0 :: rs, ch0 :: chosen, hf, 0, r, hr => by
    rw [List.forall₂_cons] at hf
    simp only [List.getElem?_cons_zero, Option.some.injEq] at hr
    exact ⟨ch0, by simp, hr ▸ hf.1⟩
  | r0 :: rs, ch0 :: chosen, hf, i + 1, r, hr => by
    rw [List.forall₂_cons] at hf
    simpa using choice_at P rs chosen hf.2 i r (by simpa using hr)

theorem workloadSubPath_eq (subPath : String) :
    workloadSubPath subPath = if subPath = "" then "data" else subPath ++ "/data" := by
  unfold workloadSubPath
  split
  · rfl
  · rw [String.append_assoc]
    rfl

/-- Claim C4, as amended. When `ResolveInputResources` succeeds there is, for
the input resource `r` at every 0-based position `i` of the stage, a choice of
volume and sub-path such that: the init container appended at position `i` is
named `InputContainerName(i+1)`, has the args `[pull]` and exactly one volume
mount, of the chosen volume at the resolver workspace path with the chosen
sub-path; every container that `OnlyWorkload` selects gets, at position `i` of
the mounts appended to it, the same volume at the stage-declared path of `r`,
with the chosen sub-path followed by `/data`, or just `data` when the chosen
sub-path is empty, and the other containers are unchanged. The choice is: with
a persistent binding, the volume recorded for the persistent PVC and
`persistent.path`; without a binding and with a common PVC, the common PVC
volume and `resources/<runName>/<resourceName>`; without either, an emptyDir
volume appended by the pass and the empty sub-path. -/
theorem ResolveInputResources_mounts (d : Deps) (m m1 : PodBuilder) (stg : Stage) (sp : StagePod)
    (hstg : m.stg = some stg) (hpod : stg.Pod = some sp)
    (h : ResolveInputResources d m = .ok m1) :
    ∃ chosen added,
      m1.pod.Spec.Volumes = m.pod.Spec.Volumes ++ added ∧
      chosen.length = sp.Inputs.Resources.length ∧
      m1.pod.Spec.InitContainers = m.pod.Spec.InitContainers ++ inputContainers d 0 chosen ∧
      m1.pod.Spec.Containers =
        m.pod.Spec.Containers.map (withMounts d (inputMounts sp.Inputs.Resources chosen)) ∧
      ∀ i r, sp.Inputs.Resources[i]? = some r →
        ∃ ch c,
          chosen[i]? = some ch ∧
          d.getResource m.wfr.Namespace r.Name = .ok ch.resource ∧
          ChosenVolume d m m1 added r ch ∧
          (inputContainers d 0 chosen)[i]? = some c ∧
          c.Name = d.InputContainerName (i + 1) ∧
          c.Args = [d.ResourcePullCommand] ∧
          c.VolumeMounts =
            [{ Name := ch.volumeName, MountPath := d.ResolverDefaultWorkspacePath,
               SubPath := ch.subPath }] ∧
          (inputMounts sp.Inputs.Resources chosen)[i]? =
            some { Name := ch.volumeName, MountPath := r.Path,
                   SubPath := if ch.subPath = "" then "data" else ch.subPath ++ "/data" } := by
  simp only [ResolveInputResources, stagePod, hstg, hpod] at h
  obtain ⟨_, chosen, added, hv, hf, hi, hk⟩ := resolveInputResourcesFrom_ok d 0 _ m m1 h
  refine ⟨chosen, added, hv, hf.length_eq.symm, hi, hk, ?_⟩
  intro i r hr
  obtain ⟨ch, hch, hg, hc⟩ := choice_at _ _ _ hf i r hr
  refine ⟨ch, inputContainer d i (resolverImage d ch.resource) ch.envs ch.volumeName ch.subPath,
    hch, hg, hc, ?_, rfl, rfl, rfl, ?_⟩
  · simp [inputContainers, hch]
  · simp [inputMounts, List.getElem?_zipWith, hr, hch, workloadSubPath_eq]

/-- The amended claim C4 at the stage `build` with the workload `main`, the
sidecar `sc-db`, the common PVC `pvc-t1` and the input resources `git-src`
(no binding) and `cache` (bound to `cache/dir` of `pvc-cache`). -/
theorem ResolveInputResources_mounts_witness :
    ∃ m1,
      ResolveInputResources (inputDeps "pvc-t1")
        (inputBuilder "pvc-t1" [⟨"git-src", "/src"⟩, ⟨"cache", "/cache"⟩]) = .ok m1 ∧
      m1.pod.Spec.InitContainers.map (fun c => (c.Name, c.Args, c.VolumeMounts)) =
        [("input-1", ["pull"], [⟨"commonPV", "/workspace", "resources/run/git-src"⟩]),
         ("input-2", ["pull"], [⟨"input-cache", "/workspace", "cache/dir"⟩])] ∧
      m1.pod.Spec.Containers.map (fun c => (c.Name, c.VolumeMounts)) =
        [("main", [⟨"commonPV", "/src", "resources/run/git-src/data"⟩,
                   ⟨"input-cache", "/cache", "cache/dir/data"⟩]),
         ("sc-db", [])] ∧
      ∃ chosen added,
        m1.pod.Spec.Volumes =
          (inputBuilder "pvc-t1" [⟨"git-src", "/src"⟩, ⟨"cache", "/cache"⟩]).pod.Spec.Volumes ++
            added ∧
        chosen.length = 2 ∧
        m1.pod.Spec.InitContainers =
          (inputBuilder "pvc-t1" [⟨"git-src", "/src"⟩, ⟨"cache", "/cache"⟩]).pod.Spec.InitContainers
            ++ inputContainers (inputDeps "pvc-t1") 0 chosen ∧
        m1.pod.Spec.Containers =
          (inputBuilder "pvc-t1" [⟨"git-src", "/src"⟩, ⟨"cache", "/cache"⟩]).pod.Spec.Containers.map
            (withMounts (inputDeps "pvc-t1")
              (inputMounts [⟨"git-src", "/src"⟩, ⟨"cache", "/cache"⟩] chosen)) :=
  ⟨_, rfl, rfl, rfl,
    (ResolveInputResources_mounts (inputDeps "pvc-t1")
      (inputBuilder "pvc-t1" [⟨"git-src", "/src"⟩, ⟨"cache", "/cache"⟩]) _
      (plainStage "build" ["main", "sc-db"] [] [⟨"git-src", "/src"⟩, ⟨"cache", "/cache"⟩])
      { Inputs :=
          { Arguments := [], Resources := [⟨"git-src", "/src"⟩, ⟨"cache", "/cache"⟩],
            Artifacts := [] }
        Outputs := { Resources := [], Artifacts := [] }
        Spec := plainSpec ["main", "sc-db"] }
      rfl rfl rfl).imp
      (fun _ h1 => h1.imp (fun _ h2 => ⟨h2.1, h2.2.1, h2.2.2.1, h2.2.2.2.1⟩))⟩

/-- Claim C4 as stated fails: the input resource `dataset` is bound to the root
of the PVC `pvc-data`, so `persistent.path` is empty. The init container mounts
the volume of that PVC with the empty sub-path, and the workload `main` mounts
it with the sub-path `data`, not `persistent.path + "/data"`, which is `/data`. -/
theorem ResolveInputResources_persistent_root :
    (inputDeps "pvc-t1").getResource "ns" "dataset" =
      .ok { Name := "dataset", ResourceType := "KV", Resolver := "", Parameters := [],
            Persistent := some { PVC := "pvc-data", Path := "" } } ∧
    (ResolveInputResources (inputDeps "pvc-t1") (inputBuilder "pvc-t1" [⟨"dataset", "/data"⟩])).map
        (fun m1 =>
          (m1.pod.Spec.InitContainers.map (fun c => (c.Name, c.VolumeMounts)),
            m1.pod.Spec.Containers.map (fun c => (c.Name, c.VolumeMounts)))) =
      .ok ([("input-1", [⟨"input-dataset", "/workspace", ""⟩])],
           [("main", [⟨"input-dataset", "/data", "data"⟩]), ("sc-db", [])]) ∧
    ("data" : String) ≠ "" ++ "/data" :=
  ⟨rfl, rfl, by decide⟩

/-! ## The later passes continue the builder -/

theorem outputMounts_continues (d : Deps) (m : PodBuilder) (r : PathItem) (resource : Resource) :
    Continues m (outputMounts d m r resource).2 ∧
    (outputMounts d m r resource).2.pod.Spec.Containers = m.pod.Spec.Containers ∧
    (outputMounts d m r resource).2.pod.Spec.InitContainers = m.pod.Spec.InitContainers := by
  cases hc : resource.Persistent with
  | some persistent =>
    have e : (outputMounts d m r resource).2 =
        (CreatePVCVolume m (d.OutputResourceVolumeName r.Name) persistent.PVC).2 := by
      simp [outputMounts, hc]
    rw [e]
    obtain ⟨c, k, i, _, _⟩ :=
      CreatePVCVolume_continues m (d.OutputResourceVolumeName r.Name) persistent.PVC
    exact ⟨c, k, i⟩
  | none =>
    have e : (outputMounts d m r resource).2 = m := by simp [outputMounts, hc]
    rw [e]
    exact ⟨Continues_same m, rfl, rfl⟩

theorem resolveOutputResource_ok (d : Deps) (m : PodBuilder) (index : Nat) (r : PathItem)
    (m1 : PodBuilder) (h : resolveOutputResource d m index r = .ok m1) :
    Continues m m1 ∧ m1.pod.Spec.InitContainers = m.pod.Spec.InitContainers := by
  unfold resolveOutputResource at h
  cases hg : d.getResource m.wfr.Namespace r.Name with
  | error e => simp [hg] at h
  | ok resource =>
    rw [hg] at h
    simp only at h
    cases he : resolveEnvs d (resourceEnvsMap m r.Name resource []) with
    | error e => simp [he] at h
    | ok envs =>
      rw [he] at h
      simp only [Except.ok.injEq] at h
      have c0 : Continues m { m with outputResources := m.outputResources ++ [resource] } :=
        Continues_of_same ⟨rfl, rfl, rfl, rfl⟩ rfl rfl rfl
      obtain ⟨c1, _, i1⟩ :=
        outputMounts_continues d { m with outputResources := m.outputResources ++ [resource] } r
          resource
      generalize outputMounts d { m with outputResources := m.outputResources ++ [resource] } r
        resource = res at h c1 i1
      obtain ⟨mounts, mb⟩ := res
      simp only at h c1 i1
      subst h
      exact ⟨Continues_then (Continues_then c0 c1) (Continues_withSpec_same mb _ rfl), i1⟩

theorem resolveOutputResourcesFrom_ok (d : Deps) (index : Nat) (rs : List PathItem)
    (m m1 : PodBuilder) (h : resolveOutputResourcesFrom d index rs m = .ok m1) :
    Continues m m1 ∧ m1.pod.Spec.InitContainers = m.pod.Spec.InitContainers := by
  induction rs generalizing index m with
  | nil =>
    simp only [resolveOutputResourcesFrom, Except.ok.injEq] at h
    subst h
    exact ⟨Continues_same m, rfl⟩
  | cons r rest ih =>
    unfold resolveOutputResourcesFrom at h
    cases hs : resolveOutputResource d m index r with
    | error e => simp [hs] at h
    | ok ma =>
      rw [hs] at h
      simp only at h
      obtain ⟨c, i⟩ := resolveOutputResource_ok d m index r ma hs
      obtain ⟨c1, i1⟩ := ih (index + 1) ma h
      exact ⟨Continues_then c c1, i1.trans i⟩

theorem ResolveInputResources_ok (d : Deps) (m m1 : PodBuilder)
    (h : ResolveInputResources d m = .ok m1) : Continues m m1 := by
  unfold ResolveInputResources at h
  cases hs : stagePod m with
  | error e => simp [hs] at h
  | ok p =>
    rw [hs] at h
    exact (resolveInputResourcesFrom_ok d 0 _ m m1 h).1

theorem ResolveOutputResources_ok (d : Deps) (m m1 : PodBuilder)
    (h : ResolveOutputResources d m = .ok m1) :
    Continues m m1 ∧ m1.pod.Spec.InitContainers = m.pod.Spec.InitContainers := by
  unfold ResolveOutputResources at h
  cases hs : stagePod m with
  | error e => simp [hs] at h
  | ok p =>
    rw [hs] at h
    exact resolveOutputResourcesFrom_ok d 0 _ m m1 h

theorem resolveInputArtifactsLoop_ok (d : Deps) (stg : Stage) (wfStage : StageItem)
    (artifacts : List PathItem) (m m1 : PodBuilder)
    (h : resolveInputArtifactsLoop d stg wfStage artifacts m = .ok m1) :
    Continues m m1 ∧ m1.pod.Spec.InitContainers = m.pod.Spec.InitContainers := by
  induction artifacts generalizing m with
  | nil =>
    simp only [resolveInputArtifactsLoop, Except.ok.injEq] at h
    subst h
    exact ⟨Continues_same m, rfl⟩
  | cons artifact rest ih =>
    unfold resolveInputArtifactsLoop at h
    simp only at h
    split at h
    · exact Except.noConfusion h
    · cases hm : mountArtifact d m artifact
          (splitSlash (artifactSource wfStage.Artifacts artifact.Name)) m.pod.Spec.Containers with
      | error e => simp [hm] at h
      | ok containers =>
        rw [hm] at h
        simp only at h
        obtain ⟨c, i⟩ := ih _ h
        exact ⟨Continues_then (Continues_withSpec_same m _ rfl) c, i⟩

theorem ResolveInputArtifacts_ok (d : Deps) (m m1 : PodBuilder)
    (h : ResolveInputArtifacts d m = .ok m1) :
    Continues m m1 ∧ m1.pod.Spec.InitContainers = m.pod.Spec.InitContainers := by
  unfold ResolveInputArtifacts at h
  cases hs : m.stg with
  | none => simp [hs] at h
  | some stg =>
    rw [hs] at h
    simp only at h
    split at h
    · exact Except.noConfusion h
    · split at h
      · exact Except.noConfusion h
      · cases hf : m.wf.Stages.find? (fun s => s.Name = stg.Name) with
        | none => simp [hf] at h
        | some wfStage =>
          rw [hf] at h
          simp only at h
          cases hp : stg.Pod with
          | none => simp [hp] at h
          | some sp =>
            rw [hp] at h
            exact resolveInputArtifactsLoop_ok d stg wfStage _ m m1 h

theorem AddVolumeMounts_ok (d : Deps) (m m1 : PodBuilder) (h : AddVolumeMounts d m = .ok m1) :
    Continues m m1 ∧ m1.pod.Spec.InitContainers = m.pod.Spec.InitContainers := by
  unfold AddVolumeMounts at h
  split at h
  · split at h
    · injection h with h
      subst h
      exact ⟨Continues_withSpec_same m _ rfl, rfl⟩
    · exact Except.noConfusion h
    · injection h with h
      subst h
      exact ⟨Continues_withSpec_same m _ rfl, rfl⟩
  · injection h with h
    subst h
    exact ⟨Continues_same m, rfl⟩

theorem AddCoordinator_ok (d : Deps) (m m1 : PodBuilder) (h : AddCoordinator d m = .ok m1) :
    Continues m m1 ∧ m1.pod.Spec.InitContainers = m.pod.Spec.InitContainers := by
  unfold AddCoordinator at h
  simp only [bind_eq_ok, pure, Except.pure, Except.ok.injEq] at h
  obtain ⟨_, _, _, _, _, _, _, _, h⟩ := h
  subst h
  exact ⟨Continues_withSpec_same m _ rfl, rfl⟩

theorem InjectEnvs_ok (d : Deps) (m m1 : PodBuilder) (h : InjectEnvs d m = .ok m1) :
    Continues m m1 ∧ m1.pod.Spec.InitContainers = m.pod.Spec.InitContainers ∧
    m1.pod.Spec.Containers =
      m.pod.Spec.Containers.map (fun c => { c with Env := c.Env ++ injectedEnvs d m }) := by
  simp only [InjectEnvs, Except.ok.injEq] at h
  subst h
  exact ⟨Continues_withSpec_same m _ rfl, rfl, rfl⟩

theorem applyResourceRequirements_env (containers : List Container)
    (requirements : ResourceRequirements) (selector : String → Bool) :
    (applyResourceRequirements containers requirements selector).map (fun c => (c.Name, c.Env)) =
      containers.map (fun c => (c.Name, c.Env)) := by
  simp only [applyResourceRequirements, List.map_map]
  apply List.map_congr_left
  intro c _
  simp only [Function.comp, applyToContainer]
  split <;> rfl

theorem ApplyResourceRequirements_ok (d : Deps) (m m1 : PodBuilder)
    (h : ApplyResourceRequirements d m = .ok m1) :
    Continues m m1 ∧
    m1.pod.Spec.Containers.map (fun c => (c.Name, c.Env)) =
      m.pod.Spec.Containers.map (fun c => (c.Name, c.Env)) ∧
    m1.pod.Spec.InitContainers.map (fun c => (c.Name, c.Env)) =
      m.pod.Spec.InitContainers.map (fun c => (c.Name, c.Env)) := by
  simp only [ApplyResourceRequirements, Except.ok.injEq] at h
  subst h
  refine ⟨Continues_withSpec_same m _ rfl, ?_, applyResourceRequirements_env _ _ _⟩
  show (applyResourceRequirements _ _ _).map _ = _
  rw [applyResourceRequirements_env]
  cases m.wf.Resources with
  | none => rfl
  | some r => exact applyResourceRequirements_env _ _ _

theorem ApplyServiceAccount_ok (d : Deps) (m m1 : PodBuilder)
    (h : ApplyServiceAccount d m = .ok m1) :
    Continues m m1 ∧ m1.pod.Spec.Containers = m.pod.Spec.Containers ∧
    m1.pod.Spec.InitContainers = m.pod.Spec.InitContainers := by
  simp only [ApplyServiceAccount, Except.ok.injEq] at h
  subst h
  exact ⟨Continues_withSpec_same m _ rfl, rfl, rfl⟩

/-! ## C5: one volume per PVC -/

/-- From `ResolveArguments` on, every pass of `Build` continues the builder. -/
theorem Build_continues (d : Deps) (m : PodBuilder) (pod : Pod) (h : Build d m = .ok pod) :
    ∃ m1 m2 m9 m11,
      Prepare d m = .ok m1 ∧ ResolveArguments d m1 = .ok m2 ∧ Continues m2 m9 ∧
      (∃ m8, InjectEnvs d m8 = .ok m9 ∧ Continues m2 m8) ∧ Continues m9 m11 ∧
      m11.pod.Spec.Containers.map (fun c => (c.Name, c.Env)) =
        m9.pod.Spec.Containers.map (fun c => (c.Name, c.Env)) ∧
      pod = m11.pod := by
  obtain ⟨m1, m2, m3, m4, m5, m6, m7, m8, m9, m10, m11, h1, h2, h3, h4, h5, h6, h7, h8, h9, h10,
    h11, hp⟩ := Build_ok d m pod h
  have c3 := (CreateVolumes_ok d m2 m3 h3).1
  have c4 := ResolveInputResources_ok d m3 m4 h4
  have c5 := (ResolveOutputResources_ok d m4 m5 h5).1
  have c6 := (ResolveInputArtifacts_ok d m5 m6 h6).1
  have c7 := (AddVolumeMounts_ok d m6 m7 h7).1
  have c8 := (AddCoordinator_ok d m7 m8 h8).1
  have c9 := (InjectEnvs_ok d m8 m9 h9).1
  obtain ⟨c10, e10, _⟩ := ApplyResourceRequirements_ok d m9 m10 h10
  obtain ⟨c11, e11, _⟩ := ApplyServiceAccount_ok d m10 m11 h11
  have c28 :=
    Continues_then (Continues_then (Continues_then (Continues_then (Continues_then c3 c4) c5) c6)
      c7) c8
  refine ⟨m1, m2, m9, m11, h1, h2, Continues_then c28 c9, ⟨m8, h9, c28⟩, Continues_then c10 c11, ?_, hp⟩
  rw [e11, e10]

theorem filter_claim_length (vols : List Volume) (v : Volume) (p : String)
    (hn : (vols.filterMap claimName).Nodup) (hv : v ∈ vols) (hc : claimName v = some p) :
    (vols.filter (fun w => claimName w = some p)).length = 1 := by
  induction vols with
  | nil => exact absurd hv (List.not_mem_nil _)
  | cons w rest ih =>
    by_cases hw : claimName w = some p
    · have hn1 : (p :: rest.filterMap claimName).Nodup := by
        simpa [List.filterMap_cons, hw] using hn
      have hnot : p ∉ rest.filterMap claimName := (List.nodup_cons.mp hn1).1
      have hnil : rest.filter (fun w => claimName w = some p) = [] := by
        rw [List.filter_eq_nil_iff]
        intro x hx hxp
        exact hnot (List.mem_filterMap.mpr ⟨x, hx, by simpa using hxp⟩)
      simp [List.filter_cons, hw, hnil]
    · have hvr : v ∈ rest := by
        rcases List.mem_cons.mp hv with e | e
        · rw [e] at hc
          exact absurd hc hw
        · exact e
      have hn1 : (rest.filterMap claimName).Nodup := by
        cases hcw : claimName w with
        | none => simpa [List.filterMap_cons, hcw] using hn
        | some q =>
          have : (q :: rest.filterMap claimName).Nodup := by
            simpa [List.filterMap_cons, hcw] using hn
          exact (List.nodup_cons.mp this).2
      simp [List.filter_cons, hw, ih hn1 hvr]

/-- The volumes the builder makes itself are coalesced. For every pod returned
by `Build` on a fresh builder whose templated pod spec declares no PVC volume
of its own: no two volumes of the pod have the same PVC claim name, and for
every PVC referenced by a volume mount of a container or init container of the
pod, exactly one volume of the pod references that PVC. -/
theorem Build_one_volume_per_pvc (d : Deps) (wf : Workflow) (wfr : WorkflowRun) (stage : String)
    (pod : Pod) (h : Build d (NewPodBuilder d wf wfr stage) = .ok pod)
    (htemplate : ∀ m1 m2, Prepare d (NewPodBuilder d wf wfr stage) = .ok m1 →
      ResolveArguments d m1 = .ok m2 → ∀ v ∈ m2.pod.Spec.Volumes, claimName v = none) :
    (pod.Spec.Volumes.filterMap claimName).Nodup ∧
    ∀ c ∈ pod.Spec.InitContainers ++ pod.Spec.Containers, ∀ vm ∈ c.VolumeMounts,
      ∀ v ∈ pod.Spec.Volumes, v.Name = vm.Name → ∀ p, claimName v = some p →
        (pod.Spec.Volumes.filter (fun w => claimName w = some p)).length = 1 := by
  obtain ⟨m1, m2, m9, m11, h1, h2, c9, _, c11, _, hp⟩ := Build_continues d _ pod h
  have hnone := htemplate m1 m2 h1 h2
  have hv2 : VolumesCoalesced m2 := by
    refine ⟨?_, fun v hv p hc => ?_⟩
    · have e : m2.pod.Spec.Volumes.filterMap claimName = [] := by
        rw [List.filterMap_eq_nil_iff]
        exact hnone
      rw [e]
      exact List.nodup_nil
    · rw [hnone v hv] at hc
      exact Option.noConfusion hc
  have hv11 : VolumesCoalesced m11 := (Continues_then c9 c11).2.2.2.2 hv2
  subst hp
  refine ⟨hv11.1, ?_⟩
  intro c _ vm _ v hv _ p hc
  exact filter_claim_length _ v p hv11.1 hv hc

/-- Coalescing at the stage `build` with the input resource `git-src`, the
common PVC `pvc-t1` and a template without volumes. -/
theorem Build_one_volume_per_pvc_witness :
    (Build (buildDeps "pvc-t1" []) (buildBuilder "pvc-t1" [])).map
        (fun pod => pod.Spec.Volumes.filterMap claimName) = .ok ["pvc-t1"] ∧
    ∃ pod, Build (buildDeps "pvc-t1" []) (buildBuilder "pvc-t1" []) = .ok pod ∧
      (pod.Spec.Volumes.filterMap claimName).Nodup ∧
      ∀ c ∈ pod.Spec.InitContainers ++ pod.Spec.Containers, ∀ vm ∈ c.VolumeMounts,
        ∀ v ∈ pod.Spec.Volumes, v.Name = vm.Name → ∀ p, claimName v = some p →
          (pod.Spec.Volumes.filter (fun w => claimName w = some p)).length = 1 :=
  ⟨rfl, _, rfl,
    Build_one_volume_per_pvc (buildDeps "pvc-t1" [])
      { Name := "wf", Stages := [{ Name := "build", Artifacts := [] }], Resources := none }
      { Name := "run", Namespace := "ns", Stages := [], Resources := [] } "build" _ rfl
      (by
        intro m1 m2 h1 h2 v hv
        obtain ⟨_, _, _, _, _, rendered, hs⟩ := ResolveArguments_ok _ m1 m2 h2
        rw [hs] at hv
        exact absurd hv (List.not_mem_nil _))⟩

/-- Claim C5 at a failing input: the pod template of the stage declares the
volume `scratch` on the PVC `pvc-t1`, which is also the common PVC of the run.
`CreatePVCVolume` looks in the mapping only, where no template volume is
recorded, so it appends a second volume for the PVC instead of returning the
name of the one that exists: the built pod has two volumes with the claim
`pvc-t1`, `scratch` and `commonPV`, and the workload `main` mounts `commonPV`. -/
theorem Build_template_pvc_volume_twice :
    (Build (buildDeps "pvc-t1" [⟨"scratch", .PersistentVolumeClaim "pvc-t1"⟩])
        (buildBuilder "pvc-t1" [⟨"scratch", .PersistentVolumeClaim "pvc-t1"⟩])).map
      (fun pod =>
        (pod.Spec.Volumes.filter (fun v => claimName v = some "pvc-t1"),
          (pod.Spec.Containers.filter (fun c => c.Name = "main")).map
            (fun c => c.VolumeMounts.map (fun vm => vm.Name)))) =
      .ok ([⟨"scratch", .PersistentVolumeClaim "pvc-t1"⟩,
            ⟨"commonPV", .PersistentVolumeClaim "pvc-t1"⟩],
           [["commonPV", "commonPV"]]) :=
  rfl

/-! ## C8: the injected environment -/

/-- Claim C8, as amended. For every pod returned by `Build`, every container
of the pod's container list (workload, sidecars, output resolvers and
coordinator; init containers apart) has an environment entry `workflowRunName`
equal to the name of the workflow run and an environment entry `stageName`
equal to the stage name. -/
theorem Build_injects_envs (d : Deps) (m : PodBuilder) (pod : Pod) (h : Build d m = .ok pod) :
    ∀ c ∈ pod.Spec.Containers,
      ({ Name := d.EnvWorkflowrunName, Value := m.wfr.Name } : EnvVar) ∈ c.Env ∧
      ({ Name := d.EnvStageName, Value := m.stage } : EnvVar) ∈ c.Env := by
  obtain ⟨m1, m2, m9, m11, h1, h2, _, ⟨m8, h9, c8⟩, _, he, hp⟩ := Build_continues d m pod h
  have s1 := (Prepare_ok d m m1 h1).1
  have s2 := (ResolveArguments_ok d m1 m2 h2).1
  have s8 : SameRun m m8 := SameRun_then (SameRun_then s1 s2) c8.1
  obtain ⟨_, _, hk⟩ := InjectEnvs_ok d m8 m9 h9
  subst hp
  intro c hc
  have hmem : (c.Name, c.Env) ∈ m11.pod.Spec.Containers.map (fun c => (c.Name, c.Env)) :=
    List.mem_map.mpr ⟨c, hc, rfl⟩
  rw [he, hk] at hmem
  simp only [List.map_map, List.mem_map, Function.comp, Prod.mk.injEq] at hmem
  obtain ⟨c0, _, _, henv⟩ := hmem
  rw [← henv]
  simp [injectedEnvs, s8.2.1, s8.2.2.1]

/-- The amended claim C8 at the stage `build` with the workload `main`, the
sidecar `sc-db` and the input resource `git-src`. -/
theorem Build_injects_envs_witness :
    ∃ pod, Build (buildDeps "pvc-t1" []) (buildBuilder "pvc-t1" []) = .ok pod ∧
      pod.Spec.Containers.map (fun c => c.Name) = ["main", "sc-db", "coordinator"] ∧
      ∀ c ∈ pod.Spec.Containers,
        (⟨"workflowRunName", "run"⟩ : EnvVar) ∈ c.Env ∧ (⟨"stageName", "build"⟩ : EnvVar) ∈ c.Env :=
  ⟨_, rfl, rfl, Build_injects_envs (buildDeps "pvc-t1" []) (buildBuilder "pvc-t1" []) _ rfl⟩

/-- Claim C8 as stated fails: the stage `build` has the input resource
`git-src`, so the built pod has the init container `input-1`. Its environment
is the one composed in `ResolveInputResources`, the run name alone: it has no
entry `stageName`. -/
theorem Build_init_container_without_stage_name :
    (Build (buildDeps "pvc-t1" []) (buildBuilder "pvc-t1" [])).map
        (fun pod => pod.Spec.InitContainers.map (fun c => (c.Name, c.Env))) =
      .ok [("input-1", [⟨"workflowRunName", "run"⟩])] :=
  rfl

/-! ## C11: the priority of resource requirements -/

theorem applyToContainer_get (requirements : ResourceRequirements) (selector : String → Bool)
    (c : Container) :
    (applyToContainer requirements selector c).Name = c.Name ∧
    applyToContainer requirements selector c =
      { c with Resources := (applyToContainer requirements selector c).Resources } ∧
    (∀ k, resourceGet (applyToContainer requirements selector c).Resources.Requests k =
      match resourceGet c.Resources.Requests k with
      | some v => some v
      | none => if selector c.Name then resourceGet requirements.Requests k else none) ∧
    (∀ k, resourceGet (applyToContainer requirements selector c).Resources.Limits k =
      match resourceGet c.Resources.Limits k with
      | some v => some v
      | none => if selector c.Name then resourceGet requirements.Limits k else none) := by
  by_cases h : selector c.Name = true
  · have hc : applyToContainer requirements selector c =
        { c with
          Resources :=
            { Requests := fillUnset c.Resources.Requests requirements.Requests
              Limits := fillUnset c.Resources.Limits requirements.Limits } } := by
      simp [applyToContainer, h]
    rw [hc]
    refine ⟨rfl, rfl, ?_, ?_⟩
    · intro k
      simp only [h, if_true]
      exact resourceGet_fillUnset _ _ k
    · intro k
      simp only [h, if_true]
      exact resourceGet_fillUnset _ _ k
  · have hc : applyToContainer requirements selector c = c := by
      simp [applyToContainer, h]
    rw [hc]
    refine ⟨rfl, rfl, ?_, ?_⟩
    · intro k
      cases resourceGet c.Resources.Requests k <;> simp [h]
    · intro k
      cases resourceGet c.Resources.Limits k <;> simp [h]

theorem ApplyResourceRequirements_eq (d : Deps) (m : PodBuilder) :
    ApplyResourceRequirements d m =
      .ok (m.withSpec
        { m.pod.Spec with
          InitContainers :=
            m.pod.Spec.InitContainers.map
              (applyToContainer d.ConfigResourceRequirements AllContainers)
          Containers := m.pod.Spec.Containers.map (bothRounds d m) }) := by
  unfold ApplyResourceRequirements bothRounds
  cases m.wf.Resources with
  | none => simp [applyResourceRequirements]
  | some r =>
    simp only [applyResourceRequirements, List.map_map]
    rfl

theorem bothRounds_get (d : Deps) (m : PodBuilder) (c : Container) :
    bothRounds d m c = { c with Resources := (bothRounds d m c).Resources } ∧
    (∀ k, resourceGet (bothRounds d m c).Resources.Requests k =
      effectiveValue (resourceGet c.Resources.Requests k) (d.OnlyCustomContainer c.Name)
        (workflowValue m.wf (fun r => r.Requests) k)
        (resourceGet d.ConfigResourceRequirements.Requests k)) ∧
    (∀ k, resourceGet (bothRounds d m c).Resources.Limits k =
      effectiveValue (resourceGet c.Resources.Limits k) (d.OnlyCustomContainer c.Name)
        (workflowValue m.wf (fun r => r.Limits) k)
        (resourceGet d.ConfigResourceRequirements.Limits k)) := by
  unfold bothRounds workflowValue effectiveValue
  cases m.wf.Resources with
  | none =>
    obtain ⟨_, h2, h3, h4⟩ := applyToContainer_get d.ConfigResourceRequirements AllContainers c
    refine ⟨h2, fun k => ?_, fun k => ?_⟩
    · rw [h3 k]
      cases resourceGet c.Resources.Requests k <;> simp [AllContainers]
    · rw [h4 k]
      cases resourceGet c.Resources.Limits k <;> simp [AllContainers]
  | some r =>
    obtain ⟨a1, a2, a3, a4⟩ := applyToContainer_get r d.OnlyCustomContainer c
    obtain ⟨_, b2, b3, b4⟩ := applyToContainer_get d.ConfigResourceRequirements AllContainers
      (applyToContainer r d.OnlyCustomContainer c)
    refine ⟨?_, fun k => ?_, fun k => ?_⟩
    · simp only [applyToContainer, AllContainers]
      by_cases hs : d.OnlyCustomContainer c.Name = true <;> simp [hs]
    · simp only []
      rw [b3 k, a3 k]
      cases resourceGet c.Resources.Requests k with
      | some v => rfl
      | none =>
        by_cases hs : d.OnlyCustomContainer c.Name = true
        · simp only [hs, if_true, AllContainers]
        · simp [hs, AllContainers]
    · simp only []
      rw [b4 k, a4 k]
      cases resourceGet c.Resources.Limits k with
      | some v => rfl
      | none =>
        by_cases hs : d.OnlyCustomContainer c.Name = true
        · simp only [hs, if_true, AllContainers]
        · simp [hs, AllContainers]

/-- Claim C11. `ApplyResourceRequirements` always succeeds and changes nothing
but the resource requirements of the containers, position by position. For
every container of the pod's container list and every request or limit key the
value afterwards is: the value the container had (the stage spec) if there was
one; otherwise the workflow-level value if the workflow declares the key and
`OnlyCustomContainer` selects the container; otherwise the operator default if
one is configured; otherwise the key stays unset. For every init container it
is the value the container had, otherwise the operator default, otherwise
unset: the workflow level never reaches an init container. -/
theorem ApplyResourceRequirements_priority (d : Deps) (m : PodBuilder) :
    ∃ m1, ApplyResourceRequirements d m = .ok m1 ∧
      m1 = m.withSpec { m.pod.Spec with
        InitContainers := m1.pod.Spec.InitContainers, Containers := m1.pod.Spec.Containers } ∧
      List.Forall₂
        (fun c c1 =>
          c1 = { c with Resources := c1.Resources } ∧
          (∀ k, resourceGet c1.Resources.Requests k =
            effectiveValue (resourceGet c.Resources.Requests k) (d.OnlyCustomContainer c.Name)
              (workflowValue m.wf (fun r => r.Requests) k)
              (resourceGet d.ConfigResourceRequirements.Requests k)) ∧
          (∀ k, resourceGet c1.Resources.Limits k =
            effectiveValue (resourceGet c.Resources.Limits k) (d.OnlyCustomContainer c.Name)
              (workflowValue m.wf (fun r => r.Limits) k)
              (resourceGet d.ConfigResourceRequirements.Limits k)))
        m.pod.Spec.Containers m1.pod.Spec.Containers ∧
      List.Forall₂
        (fun c c1 =>
          c1 = { c with Resources := c1.Resources } ∧
          (∀ k, resourceGet c1.Resources.Requests k =
            effectiveValue (resourceGet c.Resources.Requests k) false none
              (resourceGet d.ConfigResourceRequirements.Requests k)) ∧
          (∀ k, resourceGet c1.Resources.Limits k =
            effectiveValue (resourceGet c.Resources.Limits k) false none
              (resourceGet d.ConfigResourceRequirements.Limits k)))
        m.pod.Spec.InitContainers m1.pod.Spec.InitContainers := by
  refine ⟨_, ApplyResourceRequirements_eq d m, rfl, ?_, ?_⟩
  · show List.Forall₂ _ m.pod.Spec.Containers (m.pod.Spec.Containers.map (bothRounds d m))
    rw [List.forall₂_map_right_iff, List.forall₂_same]
    intro c _
    exact bothRounds_get d m c
  · show List.Forall₂ _ m.pod.Spec.InitContainers
      (m.pod.Spec.InitContainers.map (applyToContainer d.ConfigResourceRequirements AllContainers))
    rw [List.forall₂_map_right_iff, List.forall₂_same]
    intro c _
    obtain ⟨_, h2, h3, h4⟩ := applyToContainer_get d.ConfigResourceRequirements AllContainers c
    refine ⟨h2, fun k => ?_, fun k => ?_⟩
    · rw [h3 k]
      unfold effectiveValue
      cases resourceGet c.Resources.Requests k <;> simp [AllContainers]
    · rw [h4 k]
      unfold effectiveValue
      cases resourceGet c.Resources.Limits k <;> simp [AllContainers]

/-! ## C13: `Prepare` -/

/-- Claim C13. Once the stage is fetched, `Prepare` fails when the stage has no
pod template, and fails when the number of template containers whose name does
not start with the workload-sidecar prefix is not exactly one; otherwise it
succeeds, records the stage, leaves the pod spec alone and sets the pod's name
to `PodName(workflowName, stageName)`, its namespace to the namespace of the
execution context, the workflow-owned label and the three annotations: the
name of the workflow run, the stage name and the namespace of the run (read
back under their keys, which are distinct constants). -/
theorem Prepare_validates (d : Deps) (m : PodBuilder) (stage : Stage)
    (hg : d.getStage m.wfr.Namespace m.stage = .ok stage) :
    (stage.Pod = none →
      Prepare d m = .error (.errorf ("pod must be defined in stage spec, stage: " ++ m.stage))) ∧
    (∀ sp, stage.Pod = some sp → workloadCount d sp ≠ 1 →
      Prepare d m = .error (.errorf
        ("only one workload containers supported, others should be sidecars, stage: " ++
          m.stage))) ∧
    (∀ sp, stage.Pod = some sp → workloadCount d sp = 1 →
      ∃ m1, Prepare d m = .ok m1 ∧ m1.stg = some stage ∧ m1.pod.Spec = m.pod.Spec ∧
        m1.pod.ObjectMeta.Name = d.PodName m.wf.Name m.stage ∧
        m1.pod.ObjectMeta.Namespace = m.executionContext.Namespace ∧
        m1.pod.ObjectMeta.Labels = [(d.WorkflowLabelName, "true")] ∧
        m1.pod.ObjectMeta.Annotations =
          mapSet (mapSet (mapSet [] d.WorkflowRunAnnotationName m.wfr.Name)
            d.StageAnnotationName m.stage) d.MetaNamespaceAnnotationName m.wfr.Namespace ∧
        (d.WorkflowRunAnnotationName ≠ d.StageAnnotationName →
          d.WorkflowRunAnnotationName ≠ d.MetaNamespaceAnnotationName →
          d.StageAnnotationName ≠ d.MetaNamespaceAnnotationName →
          mapGet m1.pod.ObjectMeta.Annotations d.WorkflowRunAnnotationName = some m.wfr.Name ∧
          mapGet m1.pod.ObjectMeta.Annotations d.StageAnnotationName = some m.stage ∧
          mapGet m1.pod.ObjectMeta.Annotations d.MetaNamespaceAnnotationName =
            some m.wfr.Namespace)) := by
  refine ⟨?_, ?_, ?_⟩
  · intro hp
    simp [Prepare, hg, hp]
  · intro sp hp hc
    unfold workloadCount at hc
    simp [Prepare, hg, hp, hc]
  · intro sp hp hc
    unfold workloadCount at hc
    have e : Prepare d m = .ok
        { m with
          stg := some stage
          pod := { m.pod with
            ObjectMeta :=
              { Name := d.PodName m.wf.Name m.stage
                Namespace := m.executionContext.Namespace
                Labels := [(d.WorkflowLabelName, "true")]
                Annotations :=
                  mapSet (mapSet (mapSet [] d.WorkflowRunAnnotationName m.wfr.Name)
                    d.StageAnnotationName m.stage) d.MetaNamespaceAnnotationName
                    m.wfr.Namespace } } } := by
      simp only [Prepare, hg, hp, hc, ne_eq, not_true_eq_false, if_false]
    refine ⟨_, e, rfl, rfl, rfl, rfl, rfl, rfl, ?_⟩
    intro h1 h2 h3
    refine ⟨?_, ?_, ?_⟩
    · show mapGet (mapSet (mapSet (mapSet [] _ _) _ _) _ _) _ = _
      rw [mapGet_mapSet_ne _ _ _ _ h2, mapGet_mapSet_ne _ _ _ _ h1, mapGet_mapSet_same]
    · show mapGet (mapSet (mapSet (mapSet [] _ _) _ _) _ _) _ = _
      rw [mapGet_mapSet_ne _ _ _ _ h3, mapGet_mapSet_same]
    · show mapGet (mapSet (mapSet (mapSet [] _ _) _ _) _ _) _ = _
      rw [mapGet_mapSet_same]

/-- Claim C13 at the stage `build` of the worked examples, which lists the
sidecar `sc-db` before its one workload container `main`. -/
theorem Prepare_validates_witness :
    ∃ m1,
      Prepare (buildDeps "pvc-t1" []) (buildBuilder "pvc-t1" []) = .ok m1 ∧
      m1.pod.ObjectMeta =
        { Name := "wf-build", Namespace := "ns", Labels := [("workflow", "true")],
          Annotations := [("workflowrun", "run"), ("stage", "build"), ("meta-namespace", "ns")] } ∧
      mapGet m1.pod.ObjectMeta.Annotations "stage" = some "build" :=
  match (Prepare_validates (buildDeps "pvc-t1" []) (buildBuilder "pvc-t1" []) (buildStage [])
      rfl).2.2 _ rfl rfl with
  | ⟨m1, h, _, _, _, _, _, _, hr⟩ =>
    ⟨m1, h, by
      have e : Prepare (buildDeps "pvc-t1" []) (buildBuilder "pvc-t1" []) = .ok _ := rfl
      rw [e] at h
      injection h with h
      subst h
      exact ⟨rfl, rfl⟩⟩

/-! ## C15: the order of the passes of `Build` -/

theorem runPasses_append (pre post : List (PodBuilder → Except Err PodBuilder)) (m : PodBuilder) :
    runPasses (pre ++ post) m =
      match runPasses pre m with
      | .error e => .error e
      | .ok m1 => runPasses post m1 := by
  induction pre generalizing m with
  | nil => rfl
  | cons p pre ih =>
    simp only [List.cons_append, runPasses]
    cases p m with
    | error e => rfl
    | ok m1 => exact ih m1

theorem map_pod_step (x : Except Err PodBuilder) (f : PodBuilder → Except Err Pod)
    (g : PodBuilder → Except Err PodBuilder)
    (h : ∀ a, f a = (g a).map (fun m1 => m1.pod)) :
    (x >>= f) =
      Except.map (fun m1 => m1.pod)
        (match x with
          | .error e => (Except.error e : Except Err PodBuilder)
          | .ok m1 => g m1) := by
  cases x with
  | error e => rfl
  | ok a => exact h a

theorem Build_eq_runPasses (d : Deps) (m : PodBuilder) :
    Build d m = (runPasses (buildOrder d) m).map (fun m1 => m1.pod) := by
  unfold Build
  simp only [buildOrder, runPasses]
  refine map_pod_step _ _ _ (fun m1 => ?_)
  refine map_pod_step _ _ _ (fun m2 => ?_)
  refine map_pod_step _ _ _ (fun m3 => ?_)
  refine map_pod_step _ _ _ (fun m4 => ?_)
  refine map_pod_step _ _ _ (fun m5 => ?_)
  refine map_pod_step _ _ _ (fun m6 => ?_)
  refine map_pod_step _ _ _ (fun m7 => ?_)
  refine map_pod_step _ _ _ (fun m8 => ?_)
  rfl

/-- Claim C15. `Build` is the run of the eleven passes in the order `Prepare`,
`ResolveArguments`, `CreateVolumes`, `ResolveInputResources`,
`ResolveOutputResources`, `ResolveInputArtifacts`, `AddVolumeMounts`,
`AddCoordinator`, `InjectEnvs`, `ApplyResourceRequirements`,
`ApplyServiceAccount`, each on the builder the one before left. When the passes
before a pass succeed and that pass returns an error, `Build` returns that same
error and no pod, whatever passes would follow; and `Build` returns a pod only
when every pass succeeded, the pod being the one of the builder after the last pass. -/
theorem Build_runs_passes_in_order (d : Deps) (m : PodBuilder) :
    Build d m = (runPasses (buildOrder d) m).map (fun m1 => m1.pod) ∧
    (∀ pre p post, buildOrder d = pre ++ p :: post →
      ∀ mk e, runPasses pre m = .ok mk → p mk = .error e →
        Build d m = .error e ∧ ∀ later, runPasses (pre ++ p :: later) m = .error e) ∧
    (∀ pod, Build d m = .ok pod →
      (∃ m11, runPasses (buildOrder d) m = .ok m11 ∧ pod = m11.pod) ∧
      ∀ pre p post, buildOrder d = pre ++ p :: post →
        ∃ mk mk1, runPasses pre m = .ok mk ∧ p mk = .ok mk1) := by
  have stop : ∀ pre p later mk e, runPasses pre m = .ok mk → p mk = .error e →
      runPasses (pre ++ p :: later) m = .error e := by
    intro pre p later mk e hpre hp
    rw [runPasses_append, hpre]
    simp [runPasses, hp]
  refine ⟨Build_eq_runPasses d m, ?_, ?_⟩
  · intro pre p post hb mk e hpre hp
    refine ⟨?_, fun later => stop pre p later mk e hpre hp⟩
    rw [Build_eq_runPasses, hb, stop pre p post mk e hpre hp]
    rfl
  · intro pod hpod
    rw [Build_eq_runPasses] at hpod
    cases hr : runPasses (buildOrder d) m with
    | error e =>
      rw [hr] at hpod
      exact Except.noConfusion hpod
    | ok m11 =>
      rw [hr] at hpod
      refine ⟨⟨m11, rfl, ?_⟩, ?_⟩
      · injection hpod with hpod
        exact hpod.symm
      · intro pre p post hb
        rw [hb, runPasses_append] at hr
        cases hpre : runPasses pre m with
        | error e => simp [hpre] at hr
        | ok mk =>
          rw [hpre] at hr
          simp only [runPasses] at hr
          cases hp : p mk with
          | error e => simp [hp] at hr
          | ok mk1 => exact ⟨mk, mk1, rfl, hp⟩

/-! ## C17: the restart policy -/

theorem KeepsPolicy_same (m : PodBuilder) : KeepsPolicy m m := ⟨rfl, rfl⟩

theorem KeepsPolicy_then {m m1 m2 : PodBuilder} (h : KeepsPolicy m m1) (h1 : KeepsPolicy m1 m2) :
    KeepsPolicy m m2 :=
  ⟨h1.1.trans h.1, h1.2.trans h.2⟩

theorem KeepsPolicy_withSpec (m : PodBuilder) (spec : PodSpec)
    (h : spec.RestartPolicy = m.pod.Spec.RestartPolicy) : KeepsPolicy m (m.withSpec spec) :=
  ⟨h, rfl⟩

theorem CreatePVCVolume_keeps (m : PodBuilder) (name pvc : String) :
    KeepsPolicy m (CreatePVCVolume m name pvc).2 := by
  unfold CreatePVCVolume
  cases mapGet m.pvcVolumes pvc with
  | some volume => exact ⟨rfl, rfl⟩
  | none => exact ⟨rfl, rfl⟩

theorem CreateVolumes_keeps (d : Deps) (m m1 : PodBuilder) (h : CreateVolumes d m = .ok m1) :
    KeepsPolicy m m1 := by
  unfold CreateVolumes at h
  simp only [bind_eq_ok, bind, Except.bind, pure, Except.pure] at h
  have k0 : KeepsPolicy m
      (m.appendVolume { Name := d.CoordinatorSidecarVolumeName, VolumeSource := .EmptyDir }) :=
    ⟨rfl, rfl⟩
  generalize m.appendVolume
    { Name := d.CoordinatorSidecarVolumeName, VolumeSource := .EmptyDir } = m0 at h k0
  have step : ∀ ma : PodBuilder, KeepsPolicy m ma →
      (if d.ConfigSecret ≠ "" then
          (ma.appendVolume
              { Name := d.DockerSockVolume
                VolumeSource := .HostPath d.DockerSockPath "Socket" }).appendVolume
            { Name := d.DockerConfigJSONVolume
              VolumeSource :=
                .Secret d.ConfigSecret [(d.DockerConfigJSONFile, d.DockerConfigJSONFile)] }
        else
          ma.appendVolume
            { Name := d.DockerSockVolume, VolumeSource := .HostPath d.DockerSockPath "Socket" })
        = m1 → KeepsPolicy m m1 := by
    intro ma ka hb
    by_cases hs : d.ConfigSecret = ""
    · simp only [hs, ne_eq, not_true_eq_false, if_false] at hb
      subst hb
      exact KeepsPolicy_then ka ⟨rfl, rfl⟩
    · simp only [hs, ne_eq, not_false_eq_true, if_true] at hb
      subst hb
      exact KeepsPolicy_then ka ⟨rfl, rfl⟩
  by_cases hp : m0.executionContext.PVC = ""
  · simp only [hp, ne_eq, not_true_eq_false, if_false, Except.ok.injEq] at h
    exact step m0 k0 h
  · simp only [hp, ne_eq, not_false_eq_true, if_true] at h
    have cc := CreatePVCVolume_keeps m0 d.DefaultPvVolumeName m0.executionContext.PVC
    generalize CreatePVCVolume m0 d.DefaultPvVolumeName m0.executionContext.PVC = res at h cc
    obtain ⟨n, mc⟩ := res
    simp only at h cc
    by_cases hn : n = d.DefaultPvVolumeName
    · simp only [hn, not_true_eq_false, if_false, Except.ok.injEq] at h
      exact step mc (KeepsPolicy_then k0 cc) h
    · simp [hn] at h

theorem inputResourceVolume_keeps (d : Deps) (m : PodBuilder) (r : PathItem)
    (resource : Resource) : KeepsPolicy m (inputResourceVolume d m r resource).2.2 := by
  unfold inputResourceVolume
  cases resource.Persistent with
  | some persistent => exact CreatePVCVolume_keeps m _ _
  | none =>
    simp only []
    split
    · exact ⟨rfl, rfl⟩
    · exact ⟨rfl, rfl⟩

theorem resolveInputResource_keeps (d : Deps) (m : PodBuilder) (index : Nat) (r : PathItem)
    (m1 : PodBuilder) (h : resolveInputResource d m index r = .ok m1) : KeepsPolicy m m1 := by
  unfold resolveInputResource at h
  cases hg : d.getResource m.wfr.Namespace r.Name with
  | error e => simp [hg] at h
  | ok resource =>
    rw [hg] at h
    simp only at h
    cases he : resolveEnvs d
        (resourceEnvsMap m r.Name resource [(d.EnvWorkflowrunName, m.wfr.Name)]) with
    | error e => simp [he] at h
    | ok envs =>
      rw [he] at h
      simp only [Except.ok.injEq] at h
      have k := inputResourceVolume_keeps d m r resource
      generalize inputResourceVolume d m r resource = res at h k
      obtain ⟨volumeName, subPath, m0⟩ := res
      simp only at h k
      subst h
      exact KeepsPolicy_then k ⟨rfl, rfl⟩

theorem resolveInputResourcesFrom_keeps (d : Deps) (index : Nat) (rs : List PathItem)
    (m m1 : PodBuilder) (h : resolveInputResourcesFrom d index rs m = .ok m1) :
    KeepsPolicy m m1 := by
  induction rs generalizing index m with
  | nil =>
    simp only [resolveInputResourcesFrom, Except.ok.injEq] at h
    subst h
    exact KeepsPolicy_same m
  | cons r rest ih =>
    unfold resolveInputResourcesFrom at h
    cases hs : resolveInputResource d m index r with
    | error e => simp [hs] at h
    | ok ma =>
      rw [hs] at h
      exact KeepsPolicy_then (resolveInputResource_keeps d m index r ma hs) (ih (index + 1) ma h)

theorem ResolveInputResources_keeps (d : Deps) (m m1 : PodBuilder)
    (h : ResolveInputResources d m = .ok m1) : KeepsPolicy m m1 := by
  unfold ResolveInputResources at h
  cases hs : stagePod m with
  | error e => simp [hs] at h
  | ok p =>
    rw [hs] at h
    exact resolveInputResourcesFrom_keeps d 0 _ m m1 h

theorem outputMounts_keeps (d : Deps) (m : PodBuilder) (r : PathItem) (resource : Resource) :
    KeepsPolicy m (outputMounts d m r resource).2 := by
  cases hc : resource.Persistent with
  | some persistent =>
    have e : (outputMounts d m r resource).2 =
        (CreatePVCVolume m (d.OutputResourceVolumeName r.Name) persistent.PVC).2 := by
      simp [outputMounts, hc]
    rw [e]
    exact CreatePVCVolume_keeps m _ _
  | none =>
    have e : (outputMounts d m r resource).2 = m := by simp [outputMounts, hc]
    rw [e]
    exact KeepsPolicy_same m

theorem resolveOutputResource_keeps (d : Deps) (m : PodBuilder) (index : Nat) (r : PathItem)
    (m1 : PodBuilder) (h : resolveOutputResource d m index r = .ok m1) : KeepsPolicy m m1 := by
  unfold resolveOutputResource at h
  cases hg : d.getResource m.wfr.Namespace r.Name with
  | error e => simp [hg] at h
  | ok resource =>
    rw [hg] at h
    simp only at h
    cases he : resolveEnvs d (resourceEnvsMap m r.Name resource []) with
    | error e => simp [he] at h
    | ok envs =>
      rw [he] at h
      simp only [Except.ok.injEq] at h
      have k := outputMounts_keeps d { m with outputResources := m.outputResources ++ [resource] }
        r resource
      generalize outputMounts d { m with outputResources := m.outputResources ++ [resource] } r
        resource = res at h k
      obtain ⟨mounts, mb⟩ := res
      simp only at h k
      subst h
      exact @KeepsPolicy_then _ mb _ k ⟨rfl, rfl⟩

theorem resolveOutputResourcesFrom_keeps (d : Deps) (index : Nat) (rs : List PathItem)
    (m m1 : PodBuilder) (h : resolveOutputResourcesFrom d index rs m = .ok m1) :
    KeepsPolicy m m1 := by
  induction rs generalizing index m with
  | nil =>
    simp only [resolveOutputResourcesFrom, Except.ok.injEq] at h
    subst h
    exact KeepsPolicy_same m
  | cons r rest ih =>
    unfold resolveOutputResourcesFrom at h
    cases hs : resolveOutputResource d m index r with
    | error e => simp [hs] at h
    | ok ma =>
      rw [hs] at h
      exact KeepsPolicy_then (resolveOutputResource_keeps d m index r ma hs) (ih (index + 1) ma h)

theorem ResolveOutputResources_keeps (d : Deps) (m m1 : PodBuilder)
    (h : ResolveOutputResources d m = .ok m1) : KeepsPolicy m m1 := by
  unfold ResolveOutputResources at h
  cases hs : stagePod m with
  | error e => simp [hs] at h
  | ok p =>
    rw [hs] at h
    exact resolveOutputResourcesFrom_keeps d 0 _ m m1 h

theorem resolveInputArtifactsLoop_keeps (d : Deps) (stg : Stage) (wfStage : StageItem)
    (artifacts : List PathItem) (m m1 : PodBuilder)
    (h : resolveInputArtifactsLoop d stg wfStage artifacts m = .ok m1) : KeepsPolicy m m1 := by
  induction artifacts generalizing m with
  | nil =>
    simp only [resolveInputArtifactsLoop, Except.ok.injEq] at h
    subst h
    exact KeepsPolicy_same m
  | cons artifact rest ih =>
    unfold resolveInputArtifactsLoop at h
    simp only at h
    split at h
    · exact Except.noConfusion h
    · cases hm : mountArtifact d m artifact
          (splitSlash (artifactSource wfStage.Artifacts artifact.Name)) m.pod.Spec.Containers with
      | error e => simp [hm] at h
      | ok containers =>
        rw [hm] at h
        simp only at h
        have k := ih _ h
        exact KeepsPolicy_then ⟨rfl, rfl⟩ k

theorem ResolveInputArtifacts_keeps (d : Deps) (m m1 : PodBuilder)
    (h : ResolveInputArtifacts d m = .ok m1) : KeepsPolicy m m1 := by
  unfold ResolveInputArtifacts at h
  cases hs : m.stg with
  | none => simp [hs] at h
  | some stg =>
    rw [hs] at h
    simp only at h
    split at h
    · exact Except.noConfusion h
    · split at h
      · exact Except.noConfusion h
      · cases hf : m.wf.Stages.find? (fun s => s.Name = stg.Name) with
        | none => simp [hf] at h
        | some wfStage =>
          rw [hf] at h
          simp only at h
          cases hp : stg.Pod with
          | none => simp [hp] at h
          | some sp =>
            rw [hp] at h
            exact resolveInputArtifactsLoop_keeps d stg wfStage _ m m1 h

theorem AddVolumeMounts_keeps (d : Deps) (m m1 : PodBuilder) (h : AddVolumeMounts d m = .ok m1) :
    KeepsPolicy m m1 := by
  unfold AddVolumeMounts at h
  split at h
  · split at h
    · injection h with h
      subst h
      exact ⟨rfl, rfl⟩
    · exact Except.noConfusion h
    · injection h with h
      subst h
      exact ⟨rfl, rfl⟩
  · injection h with h
    subst h
    exact ⟨rfl, rfl⟩

theorem AddCoordinator_keeps (d : Deps) (m m1 : PodBuilder) (h : AddCoordinator d m = .ok m1) :
    KeepsPolicy m m1 := by
  unfold AddCoordinator at h
  simp only [bind_eq_ok, pure, Except.pure, Except.ok.injEq] at h
  obtain ⟨_, _, _, _, _, _, _, _, h⟩ := h
  subst h
  exact ⟨rfl, rfl⟩

theorem InjectEnvs_keeps (d : Deps) (m m1 : PodBuilder) (h : InjectEnvs d m = .ok m1) :
    KeepsPolicy m m1 := by
  simp only [InjectEnvs, Except.ok.injEq] at h
  subst h
  exact ⟨rfl, rfl⟩

theorem ApplyResourceRequirements_keeps (d : Deps) (m m1 : PodBuilder)
    (h : ApplyResourceRequirements d m = .ok m1) : KeepsPolicy m m1 := by
  simp only [ApplyResourceRequirements, Except.ok.injEq] at h
  subst h
  exact ⟨rfl, rfl⟩

theorem ApplyServiceAccount_keeps (d : Deps) (m m1 : PodBuilder)
    (h : ApplyServiceAccount d m = .ok m1) : KeepsPolicy m m1 := by
  simp only [ApplyServiceAccount, Except.ok.injEq] at h
  subst h
  exact ⟨rfl, rfl⟩

/-- Every pass after `ResolveArguments` keeps the restart policy and the metadata of the pod. -/
theorem laterPasses_keep (d : Deps) (p : PodBuilder → Except Err PodBuilder)
    (hp : p ∈ laterPasses d) (m m1 : PodBuilder) (h : p m = .ok m1) : KeepsPolicy m m1 := by
  simp only [laterPasses, List.mem_cons, List.mem_singleton, List.not_mem_nil, or_false] at hp
  rcases hp with e | e | e | e | e | e | e | e | e <;> subst e
  · exact CreateVolumes_keeps d m m1 h
  · exact ResolveInputResources_keeps d m m1 h
  · exact ResolveOutputResources_keeps d m m1 h
  · exact ResolveInputArtifacts_keeps d m m1 h
  · exact AddVolumeMounts_keeps d m m1 h
  · exact AddCoordinator_keeps d m m1 h
  · exact InjectEnvs_keeps d m m1 h
  · exact ApplyResourceRequirements_keeps d m m1 h
  · exact ApplyServiceAccount_keeps d m m1 h

/-- Claim C17. After `ResolveArguments` succeeds the restart policy of the
pod is `Never`, whatever the templated pod spec of the stage declares; every
later pass of `Build` leaves the restart policy as it finds it; so every pod
returned by `Build` has the restart policy `Never`. -/
theorem Build_restart_policy_never (d : Deps) :
    (∀ m m1, ResolveArguments d m = .ok m1 → m1.pod.Spec.RestartPolicy = "Never") ∧
    (∀ p ∈ laterPasses d, ∀ m m1, p m = .ok m1 →
      m1.pod.Spec.RestartPolicy = m.pod.Spec.RestartPolicy) ∧
    (∀ m pod, Build d m = .ok pod → pod.Spec.RestartPolicy = "Never") := by
  have hra : ∀ m m1, ResolveArguments d m = .ok m1 → m1.pod.Spec.RestartPolicy = "Never" := by
    intro m m1 h
    obtain ⟨_, _, _, _, _, rendered, hs⟩ := ResolveArguments_ok d m m1 h
    rw [hs]
  refine ⟨hra, fun p hp m m1 h => (laterPasses_keep d p hp m m1 h).1, ?_⟩
  intro m pod h
  obtain ⟨m1, m2, m3, m4, m5, m6, m7, m8, m9, m10, m11, h1, h2, h3, h4, h5, h6, h7, h8, h9, h10,
    h11, hp⟩ := Build_ok d m pod h
  have k := KeepsPolicy_then (CreateVolumes_keeps d m2 m3 h3)
    (KeepsPolicy_then (ResolveInputResources_keeps d m3 m4 h4)
    (KeepsPolicy_then (ResolveOutputResources_keeps d m4 m5 h5)
    (KeepsPolicy_then (ResolveInputArtifacts_keeps d m5 m6 h6)
    (KeepsPolicy_then (AddVolumeMounts_keeps d m6 m7 h7)
    (KeepsPolicy_then (AddCoordinator_keeps d m7 m8 h8)
    (KeepsPolicy_then (InjectEnvs_keeps d m8 m9 h9)
    (KeepsPolicy_then (ApplyResourceRequirements_keeps d m9 m10 h10)
      (ApplyServiceAccount_keeps d m10 m11 h11))))))))
  rw [hp, k.1]
  exact hra m1 m2 h2

/-- Claim C17 at a stage whose pod template declares the restart policy `Always`. -/
theorem Build_restart_policy_never_witness :
    alwaysStage.Pod.map (fun sp => sp.Spec.RestartPolicy) = some "Always" ∧
    ∃ pod, Build alwaysDeps alwaysBuilder = .ok pod ∧ pod.Spec.RestartPolicy = "Never" :=
  ⟨rfl, _, rfl, (Build_restart_policy_never alwaysDeps).2.2 alwaysBuilder _ rfl⟩

/-! ## C16: the passes that cannot fail -/

theorem CreatePVCVolume_of_empty (m : PodBuilder) (name pvc : String) (h : m.pvcVolumes = []) :
    (CreatePVCVolume m name pvc).1 = name := by
  simp [CreatePVCVolume, h, mapGet]

theorem CreateVolumes_of_empty (d : Deps) (m : PodBuilder) (h : m.pvcVolumes = []) :
    ∃ m1, CreateVolumes d m = .ok m1 := by
  unfold CreateVolumes
  simp only [bind, Except.bind, pure, Except.pure]
  by_cases hp : (m.appendVolume
      { Name := d.CoordinatorSidecarVolumeName, VolumeSource := .EmptyDir }).executionContext.PVC = ""
  · simp only [hp, ne_eq, not_true_eq_false, if_false]
    exact ⟨_, rfl⟩
  · have hn := CreatePVCVolume_of_empty
      (m.appendVolume { Name := d.CoordinatorSidecarVolumeName, VolumeSource := .EmptyDir })
      d.DefaultPvVolumeName
      (m.appendVolume
        { Name := d.CoordinatorSidecarVolumeName, VolumeSource := .EmptyDir }).executionContext.PVC
      h
    simp only [hp, ne_eq, not_false_eq_true, if_true, hn, not_true_eq_false, if_false]
    exact ⟨_, rfl⟩

/-- Claim C16. On a freshly constructed builder on which `Prepare` and
`ResolveArguments` succeeded, with `json.Marshal` succeeding on the stage, the
workflow run and the output resources: no PVC has a recorded volume before
`CreateVolumes`, so `CreatePVCVolume` returns the proposed name and
`CreateVolumes` succeeds (its name-conflict error is unreachable); and once
the three passes after it succeeded, `AddVolumeMounts`, `AddCoordinator`,
`InjectEnvs`, `ApplyResourceRequirements` and `ApplyServiceAccount` all
succeed, one after the other. -/
theorem later_passes_cannot_fail (d : Deps) (wf : Workflow) (wfr : WorkflowRun) (stage : String)
    (m1 m2 : PodBuilder) (h1 : Prepare d (NewPodBuilder d wf wfr stage) = .ok m1)
    (h2 : ResolveArguments d m1 = .ok m2)
    (hstage : ∀ s, ∃ o, d.jsonMarshalStage s = .ok o)
    (hrun : ∀ w, ∃ o, d.jsonMarshalWorkflowRun w = .ok o)
    (hres : ∀ rs, ∃ o, d.jsonMarshalResources rs = .ok o) :
    m2.pvcVolumes = [] ∧
    (∀ name pvc, (CreatePVCVolume m2 name pvc).1 = name) ∧
    (∀ v name pvc, (CreatePVCVolume (m2.appendVolume v) name pvc).1 = name) ∧
    (∃ m3, CreateVolumes d m2 = .ok m3) ∧
    (∀ m3 m4 m5 m6, CreateVolumes d m2 = .ok m3 → ResolveInputResources d m3 = .ok m4 →
      ResolveOutputResources d m4 = .ok m5 → ResolveInputArtifacts d m5 = .ok m6 →
      ∃ m7 m8 m9 m10 m11,
        AddVolumeMounts d m6 = .ok m7 ∧ AddCoordinator d m7 = .ok m8 ∧ InjectEnvs d m8 = .ok m9 ∧
        ApplyResourceRequirements d m9 = .ok m10 ∧ ApplyServiceAccount d m10 = .ok m11) := by
  obtain ⟨_, _, hp1, stg, sp, hs1, hpod, _⟩ := Prepare_ok d _ m1 h1
  obtain ⟨_, hs2, hp2, _⟩ := ResolveArguments_ok d m1 m2 h2
  have hempty : m2.pvcVolumes = [] := by
    rw [hp2, hp1]
    rfl
  refine ⟨hempty, fun name pvc => CreatePVCVolume_of_empty m2 name pvc hempty,
    fun v name pvc => CreatePVCVolume_of_empty _ name pvc hempty,
    CreateVolumes_of_empty d m2 hempty, ?_⟩
  intro m3 m4 m5 m6 h3 h4 h5 h6
  have c6 : Continues m2 m6 :=
    Continues_then (Continues_then (Continues_then (CreateVolumes_ok d m2 m3 h3).1
      (ResolveInputResources_ok d m3 m4 h4)) (ResolveOutputResources_ok d m4 m5 h5).1)
      (ResolveInputArtifacts_ok d m5 m6 h6).1
  have hs6 : m6.stg = some stg := by rw [c6.2.1, hs2, hs1]
  have h7 := AddVolumeMounts_eq d m6 stg hs6
  obtain ⟨c7, _⟩ := AddVolumeMounts_ok d m6 _ h7
  have hs7 := c7.2.1.trans hs6
  obtain ⟨o1, ho1⟩ := hstage stg
  generalize hm7 : (if m6.executionContext.PVC = "" then m6
    else m6.withSpec
      { m6.pod.Spec with
        Containers := m6.pod.Spec.Containers.map (addStageMount d m6.wfr.Name stg.Name) }) = m7
    at h7 hs7
  obtain ⟨o2, ho2⟩ := hrun m7.wfr
  obtain ⟨o3, ho3⟩ := hres m7.outputResources
  have h8 : ∃ m8, AddCoordinator d m7 = .ok m8 := by
    cases hac : AddCoordinator d m7 with
    | ok m8 => exact ⟨m8, rfl⟩
    | error e =>
      simp [AddCoordinator, stagePod, hs7, hpod, bind, Except.bind, liftUp, ho1, ho2, ho3, pure,
        Except.pure] at hac
  obtain ⟨m8, h8⟩ := h8
  exact ⟨m7, m8, _, _, _, h7, h8, rfl, rfl, rfl⟩

/-- Claim C16 at the stage `build` of the worked examples with the common PVC `pvc-t1`. -/
theorem later_passes_cannot_fail_witness :
    ∃ m1 m2 m3,
      Prepare (buildDeps "pvc-t1" []) (buildBuilder "pvc-t1" []) = .ok m1 ∧
      ResolveArguments (buildDeps "pvc-t1" []) m1 = .ok m2 ∧ m2.pvcVolumes = [] ∧
      CreateVolumes (buildDeps "pvc-t1" []) m2 = .ok m3 :=
  match (later_passes_cannot_fail (buildDeps "pvc-t1" [])
      { Name := "wf", Stages := [{ Name := "build", Artifacts := [] }], Resources := none }
      { Name := "run", Namespace := "ns", Stages := [], Resources := [] } "build" _ _ rfl rfl
      (fun _ => ⟨_, rfl⟩) (fun _ => ⟨_, rfl⟩) (fun _ => ⟨_, rfl⟩)) with
  | ⟨he, _, _, ⟨m3, h3⟩, _⟩ => ⟨_, _, m3, rfl, rfl, he, h3⟩

/-! ## C12: input artifacts need the common PVC -/

theorem returned_loopInPlace (d : Deps) (stg : Stage) (wfStage : StageItem)
    (artifacts : List PathItem) (m : PodBuilder) :
    returned (resolveInputArtifactsLoopInPlace d stg wfStage artifacts m) =
      resolveInputArtifactsLoop d stg wfStage artifacts m := by
  induction artifacts generalizing m with
  | nil => rfl
  | cons artifact rest ih =>
    unfold resolveInputArtifactsLoopInPlace resolveInputArtifactsLoop
    simp only
    split
    · rfl
    · cases mountArtifact d m artifact
          (splitSlash (artifactSource wfStage.Artifacts artifact.Name)) m.pod.Spec.Containers with
      | error e => rfl
      | ok containers => exact ih _

/-- The in-place run and the pass return the same. -/
theorem returned_InPlace (d : Deps) (m : PodBuilder) :
    returned (ResolveInputArtifactsInPlace d m) = ResolveInputArtifacts d m := by
  unfold ResolveInputArtifactsInPlace ResolveInputArtifacts
  cases m.stg with
  | none => rfl
  | some stg =>
    simp only
    split
    · rfl
    · split
      · rfl
      · cases m.wf.Stages.find? (fun s => s.Name = stg.Name) with
        | none => rfl
        | some wfStage =>
          cases stg.Pod with
          | none => rfl
          | some sp => exact returned_loopInPlace d stg wfStage _ m

theorem data_artifactsWithoutPVCMessage (k : Nat) :
    (artifactsWithoutPVCMessage k).data.head? = some 'a' := by
  simp [artifactsWithoutPVCMessage, String.data_append]

theorem errorf_ne_artifactsMessage (s : String) (c : Char) (hs : s.data.head? = some c)
    (hc : c ≠ 'a') (k : Nat) : Err.errorf s ≠ .errorf (artifactsWithoutPVCMessage k) := by
  intro e
  injection e with e
  rw [e, data_artifactsWithoutPVCMessage] at hs
  injection hs with hs
  exact hc hs.symm

theorem ArtifactFileName_error (d : Deps) (m : PodBuilder) (stageName artifactName : String)
    (e : Err) (h : ArtifactFileName d m stageName artifactName = .error e) :
    NotArtifactsError e := by
  unfold ArtifactFileName at h
  cases hg : d.getStage m.wfr.Namespace stageName with
  | error x =>
    rw [hg] at h
    injection h with h
    subst h
    intro k hk
    exact Err.noConfusion hk
  | ok stage =>
    rw [hg] at h
    simp only at h
    cases hp : stage.Pod with
    | none =>
      rw [hp] at h
      injection h with h
      subst h
      intro k hk
      exact Err.noConfusion hk
    | some sp =>
      rw [hp] at h
      simp only at h
      cases hf : sp.Outputs.Artifacts.find? (fun artifact => artifact.Name = artifactName) with
      | some artifact => simp [hf] at h
      | none =>
        rw [hf] at h
        injection h with h
        subst h
        exact errorf_ne_artifactsMessage _ 'o' (by simp [String.data_append]) (by decide)

theorem mountArtifact_error (d : Deps) (m : PodBuilder) (artifact : PathItem)
    (parts : List String) (cs : List Container) (e : Err)
    (h : mountArtifact d m artifact parts cs = .error e) : NotArtifactsError e := by
  induction cs with
  | nil => exact Except.noConfusion h
  | cons c rest ih =>
    unfold mountArtifact at h
    split at h
    · rename_i p0 p1 _
      cases ha : ArtifactFileName d m p0 p1 with
      | error x =>
        rw [ha] at h
        injection h with h
        subst h
        exact ArtifactFileName_error d m p0 p1 x ha
      | ok fileName =>
        rw [ha] at h
        simp only at h
        cases hr : mountArtifact d m artifact (p0 :: p1 :: _) rest with
        | error x =>
          rw [hr] at h
          injection h with h
          subst h
          exact ih hr
        | ok cs1 => simp [hr] at h
    · injection h with h
      subst h
      intro k hk
      exact Err.noConfusion hk

theorem resolveInputArtifactsLoop_error (d : Deps) (stg : Stage) (wfStage : StageItem)
    (artifacts : List PathItem) (m : PodBuilder) (e : Err)
    (h : resolveInputArtifactsLoop d stg wfStage artifacts m = .error e) :
    NotArtifactsError e := by
  induction artifacts generalizing m with
  | nil => exact Except.noConfusion h
  | cons artifact rest ih =>
    unfold resolveInputArtifactsLoop at h
    simp only at h
    split at h
    · injection h with h
      subst h
      exact errorf_ne_artifactsMessage _ 'i' (by simp [String.data_append]) (by decide)
    · cases hm : mountArtifact d m artifact
          (splitSlash (artifactSource wfStage.Artifacts artifact.Name)) m.pod.Spec.Containers with
      | error x =>
        rw [hm] at h
        injection h with h
        subst h
        exact mountArtifact_error d m artifact _ _ x hm
      | ok containers =>
        rw [hm] at h
        exact ih _ h

/-- Claim C12. On a builder whose stage declares `n` input artifacts: when the
execution context has no PVC and `n >= 1`, `ResolveInputArtifacts` returns the
artifacts-without-PVC error, whose message contains the count `n`, and leaves
the builder, hence every container of the pod, as it was; when the PVC is
non-empty or `n = 0` it does not return this error. Therefore `Build`, started
on a builder without PVC for a stage with `n >= 1` input artifacts, returns no
pod, and returns this very error once the five passes before
`ResolveInputArtifacts` have succeeded. -/
theorem ResolveInputArtifacts_needs_pvc (d : Deps) :
    (∀ m stg sp, m.stg = some stg → stg.Pod = some sp → m.executionContext.PVC = "" →
      1 ≤ sp.Inputs.Artifacts.length →
      ResolveInputArtifactsInPlace d m =
        (m, some (.errorf (artifactsWithoutPVCMessage sp.Inputs.Artifacts.length))) ∧
      ResolveInputArtifacts d m =
        .error (.errorf (artifactsWithoutPVCMessage sp.Inputs.Artifacts.length)) ∧
      Contains (artifactsWithoutPVCMessage sp.Inputs.Artifacts.length)
        (toString sp.Inputs.Artifacts.length)) ∧
    (∀ m stg sp, m.stg = some stg → stg.Pod = some sp →
      m.executionContext.PVC ≠ "" ∨ sp.Inputs.Artifacts.length = 0 →
      ∀ k, ResolveInputArtifacts d m ≠ .error (.errorf (artifactsWithoutPVCMessage k))) ∧
    (∀ m0 stg sp, d.getStage m0.wfr.Namespace m0.stage = .ok stg → stg.Pod = some sp →
      m0.executionContext.PVC = "" → 1 ≤ sp.Inputs.Artifacts.length →
      (∀ pod, Build d m0 ≠ .ok pod) ∧
      ∀ m1 m2 m3 m4 m5, Prepare d m0 = .ok m1 → ResolveArguments d m1 = .ok m2 →
        CreateVolumes d m2 = .ok m3 → ResolveInputResources d m3 = .ok m4 →
        ResolveOutputResources d m4 = .ok m5 →
        Build d m0 = .error (.errorf (artifactsWithoutPVCMessage sp.Inputs.Artifacts.length))) := by
  have inplace : ∀ m stg sp, m.stg = some stg → stg.Pod = some sp → m.executionContext.PVC = "" →
      1 ≤ sp.Inputs.Artifacts.length →
      ResolveInputArtifactsInPlace d m =
        (m, some (.errorf (artifactsWithoutPVCMessage sp.Inputs.Artifacts.length))) := by
    intro m stg sp hs hp hpvc hn
    have hpos : 0 < sp.Inputs.Artifacts.length := hn
    simp [ResolveInputArtifactsInPlace, hs, hp, hpvc, hpos, artifactsWithoutPVCMessage]
  have fails : ∀ m stg sp, m.stg = some stg → stg.Pod = some sp → m.executionContext.PVC = "" →
      1 ≤ sp.Inputs.Artifacts.length →
      ResolveInputArtifacts d m =
        .error (.errorf (artifactsWithoutPVCMessage sp.Inputs.Artifacts.length)) := by
    intro m stg sp hs hp hpvc hn
    rw [← returned_InPlace, inplace m stg sp hs hp hpvc hn]
    rfl
  refine ⟨?_, ?_, ?_⟩
  · intro m stg sp hs hp hpvc hn
    refine ⟨inplace m stg sp hs hp hpvc hn, fails m stg sp hs hp hpvc hn, ?_⟩
    exact ⟨"artifacts not supported when no PVC provided, but ", " input artifacts found", rfl⟩
  · intro m stg sp hs hp hor k hk
    unfold ResolveInputArtifacts at hk
    rw [hs] at hk
    simp only [hp, Option.map_some', Option.getD_some] at hk
    have hcheck : ¬ (m.executionContext.PVC = "" ∧ 0 < sp.Inputs.Artifacts.length) := by
      rintro ⟨h1, h2⟩
      rcases hor with h | h
      · exact h h1
      · omega
    rw [if_neg (by simp), if_neg hcheck] at hk
    cases hf : m.wf.Stages.find? (fun s => s.Name = stg.Name) with
    | none =>
      rw [hf] at hk
      injection hk with hk
      exact errorf_ne_artifactsMessage
        ("stage " ++ stg.Name ++ " not found in workflow " ++ m.wf.Name) 's'
        (by simp [String.data_append]) (by decide) k hk
    | some wfStage =>
      rw [hf] at hk
      exact resolveInputArtifactsLoop_error d stg wfStage _ m _ hk k rfl
  · intro m0 stg sp hg hp hpvc hn
    have reach : ∀ m1 m2 m3 m4 m5, Prepare d m0 = .ok m1 → ResolveArguments d m1 = .ok m2 →
        CreateVolumes d m2 = .ok m3 → ResolveInputResources d m3 = .ok m4 →
        ResolveOutputResources d m4 = .ok m5 →
        ResolveInputArtifacts d m5 =
          .error (.errorf (artifactsWithoutPVCMessage sp.Inputs.Artifacts.length)) := by
      intro m1 m2 m3 m4 m5 h1 h2 h3 h4 h5
      obtain ⟨s1, _, _, stage, sp1, hs1, _, hg1⟩ := Prepare_ok d m0 m1 h1
      rw [hg] at hg1
      injection hg1 with hg1
      subst hg1
      obtain ⟨s2, hs2, _⟩ := ResolveArguments_ok d m1 m2 h2
      have c5 : Continues m2 m5 :=
        Continues_then (Continues_then (CreateVolumes_ok d m2 m3 h3).1
          (ResolveInputResources_ok d m3 m4 h4)) (ResolveOutputResources_ok d m4 m5 h5).1
      have hstg : m5.stg = some stg := by rw [c5.2.1, hs2, hs1]
      have hctx : m5.executionContext.PVC = "" := by
        rw [(SameRun_then (SameRun_then s1 s2) c5.1).2.2.2]
        exact hpvc
      exact fails m5 stg sp hstg hp hctx hn
    refine ⟨?_, ?_⟩
    · intro pod hb
      obtain ⟨m1, m2, m3, m4, m5, m6, _, _, _, _, _, h1, h2, h3, h4, h5, h6, _⟩ :=
        Build_ok d m0 pod hb
      rw [reach m1 m2 m3 m4 m5 h1 h2 h3 h4 h5] at h6
      exact Except.noConfusion h6
    · intro m1 m2 m3 m4 m5 h1 h2 h3 h4 h5
      have h6 := reach m1 m2 m3 m4 m5 h1 h2 h3 h4 h5
      simp only [Build, bind, Except.bind, h1, h2, h3, h4, h5, h6]

/-- Claim C12 at the scenario of the spec: the stage `test` with the input
artifact `a1`, bound to `build/out.tar`, and no PVC. -/
theorem ResolveInputArtifacts_needs_pvc_witness :
    Build artifactDeps artifactBuilder =
      .error (.errorf "artifacts not supported when no PVC provided, but 1 input artifacts found") ∧
    ∀ pod, Build artifactDeps artifactBuilder ≠ .ok pod :=
  ⟨rfl, ((ResolveInputArtifacts_needs_pvc artifactDeps).2.2 artifactBuilder artifactStage
    { Inputs := { Arguments := [], Resources := [], Artifacts := [⟨"a1", "/in/out.tar"⟩] }
      Outputs := { Resources := [], Artifacts := [] }
      Spec := plainSpec ["main"] } rfl rfl rfl (by decide)).1⟩

/-! ## C14: the mounts of the output containers -/

theorem outputMounts_fst (d : Deps) (m : PodBuilder) (r : PathItem) (resource : Resource) :
    ∃ data, (outputMounts d m r resource).1 = notifyMount d :: data :: imageMounts d resource := by
  cases hc : resource.Persistent with
  | some persistent =>
    refine ⟨{ Name := (CreatePVCVolume m (d.OutputResourceVolumeName r.Name) persistent.PVC).1
              MountPath := d.filepathJoin d.ResolverDefaultDataPath
                (d.filepathBase persistent.Path)
              SubPath := persistent.Path }, ?_⟩
    simp only [outputMounts, hc, imageMounts, notifyMount, socketMount, registryMount]
    by_cases ht : resource.ResourceType = d.ImageResourceType
    · by_cases hs : d.ConfigSecret = "" <;> simp [ht, hs]
    · simp [ht]
  | none =>
    refine ⟨{ Name := d.CoordinatorSidecarVolumeName, MountPath := d.ResolverDefaultDataPath
              SubPath := "resources/" ++ resource.Name }, ?_⟩
    simp only [outputMounts, hc, imageMounts, notifyMount, socketMount, registryMount]
    by_cases ht : resource.ResourceType = d.ImageResourceType
    · by_cases hs : d.ConfigSecret = "" <;> simp [ht, hs]
    · simp [ht]

/-- One iteration of the loop of `ResolveOutputResources`. -/
theorem resolveOutputResource_container (d : Deps) (m : PodBuilder) (index : Nat) (r : PathItem)
    (m1 : PodBuilder) (h : resolveOutputResource d m index r = .ok m1) :
    ∃ resource c data,
      d.getResource m.wfr.Namespace r.Name = .ok resource ∧
      m1.pod.Spec.Containers = m.pod.Spec.Containers ++ [c] ∧
      c.Name = d.OutputContainerName (index + 1) ∧ c.Args = [d.ResourcePushCommand] ∧
      c.VolumeMounts = notifyMount d :: data :: imageMounts d resource := by
  unfold resolveOutputResource at h
  cases hg : d.getResource m.wfr.Namespace r.Name with
  | error e => simp [hg] at h
  | ok resource =>
    rw [hg] at h
    simp only at h
    cases he : resolveEnvs d (resourceEnvsMap m r.Name resource []) with
    | error e => simp [he] at h
    | ok envs =>
      rw [he] at h
      simp only [Except.ok.injEq] at h
      obtain ⟨data, hd⟩ :=
        outputMounts_fst d { m with outputResources := m.outputResources ++ [resource] } r resource
      obtain ⟨_, k, _⟩ :=
        outputMounts_continues d { m with outputResources := m.outputResources ++ [resource] } r
          resource
      generalize outputMounts d { m with outputResources := m.outputResources ++ [resource] } r
        resource = res at h hd k
      obtain ⟨mounts, mb⟩ := res
      simp only at h hd k
      subst h
      subst hd
      exact ⟨resource,
        { Name := d.OutputContainerName (index + 1)
          Image := resolverImage d resource
          Args := [d.ResourcePushCommand]
          Env := envs
          VolumeMounts := notifyMount d :: data :: imageMounts d resource
          ImagePullPolicy := d.ImagePullPolicy
          Resources := ResourceRequirements.zero
          Rest := "" }, data, rfl, by simp [PodBuilder.withSpec, k], rfl, rfl, rfl⟩

/-- The loop of `ResolveOutputResources`, started at position `index`. -/
theorem resolveOutputResourcesFrom_containers (d : Deps) (index : Nat) (rs : List PathItem)
    (m m1 : PodBuilder) (h : resolveOutputResourcesFrom d index rs m = .ok m1) :
    ∃ outs : List (Resource × Container),
      m1.pod.Spec.Containers = m.pod.Spec.Containers ++ outs.map (fun oc => oc.2) ∧
      outs.length = rs.length ∧
      ∀ i r, rs[i]? = some r →
        ∃ resource c data, outs[i]? = some (resource, c) ∧
          d.getResource m.wfr.Namespace r.Name = .ok resource ∧
          c.Name = d.OutputContainerName (index + i + 1) ∧ c.Args = [d.ResourcePushCommand] ∧
          c.VolumeMounts = notifyMount d :: data :: imageMounts d resource := by
  induction rs generalizing index m with
  | nil =>
    simp only [resolveOutputResourcesFrom, Except.ok.injEq] at h
    subst h
    exact ⟨[], by simp, rfl, fun i r hr => by simp at hr⟩
  | cons r0 rest ih =>
    unfold resolveOutputResourcesFrom at h
    cases hs : resolveOutputResource d m index r0 with
    | error e => simp [hs] at h
    | ok ma =>
      rw [hs] at h
      simp only at h
      obtain ⟨resource, c, data, hg, hk, hn, ha, hv⟩ :=
        resolveOutputResource_container d m index r0 ma hs
      obtain ⟨outs, hk1, hl, hall⟩ := ih (index + 1) ma h
      have hw : ma.wfr = m.wfr := (resolveOutputResource_ok d m index r0 ma hs).1.1.2.1
      refine ⟨(resource, c) :: outs, ?_, by simp [hl], ?_⟩
      · rw [hk1, hk]
        simp
      · intro i r hr
        cases i with
        | zero =>
          simp only [List.getElem?_cons_zero, Option.some.injEq] at hr
          subst hr
          exact ⟨resource, c, data, by simp, hg, by simpa using hn, ha, hv⟩
        | succ j =>
          simp only [List.getElem?_cons_succ] at hr
          obtain ⟨resource1, c1, data1, ho, hg1, hn1, ha1, hv1⟩ := hall j r hr
          refine ⟨resource1, c1, data1, by simpa using ho, by rw [← hw]; exact hg1, ?_, ha1, hv1⟩
          rw [hn1]
          congr 1
          omega

/-- Claim C14. When `ResolveOutputResources` succeeds it appends one container
per output resource of the stage, in order; the container of the resource at
position `i` is named `OutputContainerName(i+1)`, has the args `[push]`, and its
volume mounts are the notify mount, one data mount and then: the mount of the
container-socket volume if and only if the resource type is `Image`, followed
by the mount of the registry-config secret volume if and only if the type is
`Image` and a registry secret is configured; for any other type nothing
follows. Where the data volume and the coordinator volume are not the volume
asked about, the container has a mount of the socket volume exactly for an
`Image` resource, and a mount of the registry secret volume exactly for an
`Image` resource with a registry secret configured. -/
theorem ResolveOutputResources_image_mounts (d : Deps) (m m1 : PodBuilder) (stg : Stage)
    (sp : StagePod) (hstg : m.stg = some stg) (hpod : stg.Pod = some sp)
    (h : ResolveOutputResources d m = .ok m1) :
    ∃ outs : List (Resource × Container),
      m1.pod.Spec.Containers = m.pod.Spec.Containers ++ outs.map (fun oc => oc.2) ∧
      outs.length = sp.Outputs.Resources.length ∧
      ∀ i r, sp.Outputs.Resources[i]? = some r →
        ∃ resource c data, outs[i]? = some (resource, c) ∧
          d.getResource m.wfr.Namespace r.Name = .ok resource ∧
          c.Name = d.OutputContainerName (i + 1) ∧ c.Args = [d.ResourcePushCommand] ∧
          c.VolumeMounts =
            notifyMount d :: data ::
              (if resource.ResourceType = d.ImageResourceType then
                socketMount d :: (if d.ConfigSecret ≠ "" then [registryMount d] else [])
              else []) ∧
          (d.CoordinatorSidecarVolumeName ≠ d.DockerSockVolume → data.Name ≠ d.DockerSockVolume →
            ((∃ vm ∈ c.VolumeMounts, vm.Name = d.DockerSockVolume) ↔
              resource.ResourceType = d.ImageResourceType)) ∧
          (d.CoordinatorSidecarVolumeName ≠ d.DockerConfigJSONVolume →
            data.Name ≠ d.DockerConfigJSONVolume →
            d.DockerSockVolume ≠ d.DockerConfigJSONVolume →
            ((∃ vm ∈ c.VolumeMounts, vm.Name = d.DockerConfigJSONVolume) ↔
              resource.ResourceType = d.ImageResourceType ∧ d.ConfigSecret ≠ "")) := by
  simp only [ResolveOutputResources, stagePod, hstg, hpod] at h
  obtain ⟨outs, hk, hl, hall⟩ := resolveOutputResourcesFrom_containers d 0 _ m m1 h
  refine ⟨outs, hk, hl, ?_⟩
  intro i r hr
  obtain ⟨resource, c, data, ho, hg, hn, ha, hv⟩ := hall i r hr
  refine ⟨resource, c, data, ho, hg, by simpa using hn, ha, hv, ?_, ?_⟩
  · intro h1 h2
    rw [hv]
    unfold imageMounts
    by_cases ht : resource.ResourceType = d.ImageResourceType
    · simp only [ht, if_true, iff_true]
      exact ⟨socketMount d, by simp, rfl⟩
    · simp only [ht, if_false, iff_false]
      rintro ⟨vm, hvm, hname⟩
      simp only [List.mem_cons, List.mem_singleton, List.not_mem_nil, or_false] at hvm
      rcases hvm with e | e
      · rw [e] at hname
        exact h1 hname
      · rw [e] at hname
        exact h2 hname
  · intro h1 h2 h3
    rw [hv]
    unfold imageMounts
    by_cases ht : resource.ResourceType = d.ImageResourceType
    · by_cases hs : d.ConfigSecret = ""
      · simp only [ht, hs, if_true, ne_eq, not_true_eq_false, if_false, and_false, iff_false]
        rintro ⟨vm, hvm, hname⟩
        simp only [List.mem_cons, List.mem_singleton, List.not_mem_nil, or_false] at hvm
        rcases hvm with e | e | e
        · rw [e] at hname
          exact h1 hname
        · rw [e] at hname
          exact h2 hname
        · rw [e] at hname
          exact h3 hname
      · simp only [ht, hs, if_true, ne_eq, not_false_eq_true, and_self, iff_true]
        exact ⟨registryMount d, by simp, rfl⟩
    · simp only [ht, if_false, false_and, iff_false]
      rintro ⟨vm, hvm, hname⟩
      simp only [List.mem_cons, List.mem_singleton, List.not_mem_nil, or_false] at hvm
      rcases hvm with e | e
      · rw [e] at hname
        exact h1 hname
      · rw [e] at hname
        exact h2 hname

/-- Claim C14 at the scenario of the spec: with a registry secret configured,
the output container of the `Image` resource mounts the socket and the
registry secret, the one of the Git resource mounts neither. -/
theorem ResolveOutputResources_image_mounts_witness :
    ∃ m1, ResolveOutputResources outputDeps outputBuilder = .ok m1 ∧
      m1.pod.Spec.Containers.map (fun c => (c.Name, c.VolumeMounts.map (fun vm => vm.Name))) =
        [("main", []),
         ("output-1", ["coordinatorShared", "coordinatorShared", "docker-sock", "docker-config"]),
         ("output-2", ["coordinatorShared", "coordinatorShared"])] ∧
      ∃ outs : List (Resource × Container),
        m1.pod.Spec.Containers = outputBuilder.pod.Spec.Containers ++ outs.map (fun oc => oc.2) ∧
        outs.length = 2 :=
  ⟨_, rfl, rfl,
    (ResolveOutputResources_image_mounts outputDeps outputBuilder _
      { Name := "build"
        Pod := some
          { Inputs := { Arguments := [], Resources := [], Artifacts := [] }
            Outputs := { Resources := [⟨"app-image", ""⟩, ⟨"git-out", ""⟩], Artifacts := [] }
            Spec := plainSpec ["main"] } }
      { Inputs := { Arguments := [], Resources := [], Artifacts := [] }
        Outputs := { Resources := [⟨"app-image", ""⟩, ⟨"git-out", ""⟩], Artifacts := [] }
        Spec := plainSpec ["main"] }
      rfl rfl rfl).imp (fun _ h1 => ⟨h1.1, h1.2.1⟩)⟩


/-! ## Listing integrations -/

theorem secretsList_ok (s : ServerDeps) (w : World) (ns selector : String)
    (hf : s.fault w.tick = none) :
    secretsList s w ns selector = (.ok (matching s w ns selector), w.called) := by
  simp only [secretsList, apiCall, hf, matching]

theorem int64_small (x : Int) (h0 : 0 ≤ x) (h1 : x < 2 ^ 63) : int64 x = x := by
  unfold int64
  have : (x + 2 ^ 63) % 2 ^ 64 = x + 2 ^ 63 := by
    apply Int.emod_eq_of_lt <;> omega
  omega

theorem goSlice_within {α : Type} (cap : Nat) (xs : List α) (zero : α) (a b : Nat)
    (hab : a ≤ b) (hb : b ≤ xs.length) (hc : xs.length ≤ cap) :
    goSlice cap xs zero (a : Int) (b : Int) = some ((xs.drop a).take (b - a)) := by
  unfold goSlice
  have h : (0 : Int) ≤ (a : Int) ∧ (a : Int) ≤ (b : Int) ∧ (b : Int) ≤ (cap : Int) := by
    refine ⟨by omega, by omega, by omega⟩
  rw [if_pos h]
  simp only [Int.toNat_ofNat]
  rw [List.drop_append_of_le_length (by omega)]
  rw [List.take_append_of_le_length (by simp only [List.length_drop]; omega)]

theorem goSlice_of_empty {α : Type} (zero : α) (a b : Int) (hb : 0 < b) :
    goSlice 0 ([] : List α) zero a b = none := by
  unfold goSlice
  rw [if_neg]
  intro h
  have := h.2.2
  simp only [Nat.cast_zero] at this
  omega

theorem ListIntegrations_of_items (s : ServerDeps) (w : World) (tenant : String) (a l : Int)
    (items : List Secret) (w1 : World)
    (hl : secretsList s w (s.TenantNamespace tenant) s.LabelIntegrationType = (.ok items, w1)) :
    ListIntegrations s w tenant { Start := a, Limit := l } =
      if a ≥ (items.length : Int) then (.ok { Total := items.length, Items := [] }, w1)
      else
        match goSlice (sliceCap s (decodeAll s items).length) (decodeAll s items) Integration.zero a
            (if int64 (a + l) > (items.length : Int) then (items.length : Int)
              else int64 (a + l)) with
        | none => (.error (.crash "slice bounds out of range"), w1)
        | some page => (.ok { Total := items.length, Items := page }, w1) := by
  unfold ListIntegrations
  rw [hl]

/-- Claim C18. Pagination of `ListIntegrations`, for a start `a` and a limit `l`
that are not negative and whose sum is an `int64`, when the listing call
itself succeeds. When every listed secret decodes, the answer is the one of
the specification: the total is the number of listed secrets and the items
are `decoded[a : min (a + l) total]`, empty when `a ≥ total`. When none of
the listed secrets decodes, `a` is below the total and the limit is positive,
the total still counts them, so the page bounds lie outside the empty list
of decoded integrations and the slice expression of line 54 faults: no
response is returned. -/
theorem ListIntegrations_page_of_decoded (s : ServerDeps) (w : World) (tenant : String)
    (a l : Nat) (hf : s.fault w.tick = none) (hsum : a + l < 2 ^ 63) :
    let items := matching s w (s.TenantNamespace tenant) s.LabelIntegrationType
    let decoded := decodeAll s items
    let total := items.length
    (decoded.length = total →
      ListIntegrations s w tenant { Start := a, Limit := l } =
        (.ok { Total := total, Items := (decoded.drop a).take (min (a + l) total - a) },
          w.called)) ∧
    (decoded = [] → a < total → 0 < l →
      ListIntegrations s w tenant { Start := a, Limit := l } =
        (.error (.crash "slice bounds out of range"), w.called)) := by
  intro items decoded total
  have hl : secretsList s w (s.TenantNamespace tenant) s.LabelIntegrationType =
      (.ok items, w.called) := secretsList_ok s w _ _ hf
  have h64 : int64 ((a : Int) + (l : Int)) = ((a + l : Nat) : Int) := by
    rw [int64_small _ (by omega) (by omega)]; omega
  constructor
  · intro hall
    have hall : (decodeAll s items).length = items.length := hall
    have ht : total = items.length := rfl
    have hd : decoded = decodeAll s items := rfl
    rw [ht, hd]
    rw [ListIntegrations_of_items s w tenant a l items w.called hl]
    by_cases hge : ((a : Int) ≥ ((items.length : Nat) : Int))
    · rw [if_pos hge]
      have : items.length ≤ a := by
        have : (items.length : Int) ≤ (a : Int) := hge
        omega
      have e : List.drop a decoded = [] := List.drop_eq_nil_of_le (by omega)
      rw [e, List.take_nil]
    · rw [if_neg hge, h64]
      have hlt : a < items.length := by
        have : ¬ ((items.length : Int) ≤ (a : Int)) := hge
        omega
      have hstop : (if ((a + l : Nat) : Int) > ((items.length : Nat) : Int) then
          ((items.length : Nat) : Int) else ((a + l : Nat) : Int)) =
          ((min (a + l) items.length : Nat) : Int) := by
        by_cases h : ((a + l : Nat) : Int) > ((items.length : Nat) : Int)
        · rw [if_pos h]
          have : items.length < a + l := by
            have : ((items.length : Nat) : Int) < ((a + l : Nat) : Int) := h
            omega
          rw [Nat.min_eq_right (by omega)]
        · rw [if_neg h]
          have : a + l ≤ items.length := by
            have : ¬ (((items.length : Nat) : Int) < ((a + l : Nat) : Int)) := h
            omega
          rw [Nat.min_eq_left this]
      rw [hstop]
      have hcap : (decodeAll s items).length ≤ sliceCap s (decodeAll s items).length := by
        unfold sliceCap
        split
        · omega
        · exact Nat.le_max_left _ _
      rw [goSlice_within _ _ _ a (min (a + l) items.length) (by omega) (by omega) hcap]
  · intro hnone hlt hpos
    have hlt : a < items.length := hlt
    rw [ListIntegrations_of_items s w tenant a l items w.called hl]
    have hge : ¬ ((a : Int) ≥ ((items.length : Nat) : Int)) := by
      intro h
      have : (items.length : Int) ≤ (a : Int) := h
      omega
    rw [if_neg hge, h64]
    have hd : decodeAll s items = [] := hnone
    rw [hd]
    have hc : sliceCap s ([] : List Integration).length = 0 := by simp [sliceCap]
    rw [hc, goSlice_of_empty]
    split
    · have : (0 : Int) < ((items.length : Nat) : Int) := by
        have : 0 < items.length := by omega
        omega
      exact this
    · omega

/-- The failing input of C18: tenant `devs` has one secret with the
integration type label whose data does not decode; the first page of size
one is asked for. The specification answers total 1 and no items; the handler
faults on the slice expression. -/
theorem ListIntegrations_page_of_decoded_witness :
    let s := exampleServer [] (fun _ => none)
    let w := worldOf [brokenSecret]
    matching s w (s.TenantNamespace "devs") s.LabelIntegrationType = [brokenSecret] ∧
    decodeAll s [brokenSecret] = [] ∧
    ListIntegrations s w "devs" { Start := 0, Limit := 1 } =
      (.error (.crash "slice bounds out of range"), w.called) :=
  ⟨by decide, by decide,
   (ListIntegrations_page_of_decoded (exampleServer [] (fun _ => none)) (worldOf [brokenSecret])
      "devs" 0 1 rfl (by norm_num)).2 (by decide) (by decide) (by decide)⟩


/-! ## Updating an integration -/

theorem apiCall_secrets {α : Type} (s : ServerDeps) (w : World) (run : Except ApiError α × World)
    (h : run.2.secrets = w.secrets) : (apiCall s w run).2.secrets = w.secrets := by
  unfold apiCall
  cases s.fault w.tick with
  | none => exact h
  | some e => rfl

theorem apiCall_error_secrets {α : Type} (s : ServerDeps) (w : World)
    (run : Except ApiError α × World) (e : ApiError) (w1 : World)
    (hrun : ∀ e1, run.1 = .error e1 → run.2.secrets = w.secrets)
    (h : apiCall s w run = (.error e, w1)) : w1.secrets = w.secrets := by
  unfold apiCall at h
  cases hf : s.fault w.tick with
  | none =>
    rw [hf] at h
    injection h with h1 h2
    rw [← h2]
    exact hrun e h1
  | some e1 =>
    rw [hf] at h
    injection h with h1 h2
    rw [← h2]; rfl

theorem namespacesGet_secrets (s : ServerDeps) (w : World) (name : String) :
    (namespacesGet s w name).2.secrets = w.secrets := by
  unfold namespacesGet
  apply apiCall_secrets
  split <;> rfl

theorem CreateNamespace_secrets (s : ServerDeps) (w : World) (name : String) :
    (CreateNamespace s w name).2.secrets = w.secrets := by
  unfold CreateNamespace
  apply apiCall_secrets
  split <;> rfl

theorem CreateResourceQuota_secrets (s : ServerDeps) (w : World) (tenant : Tenant) (ns : String) :
    (CreateResourceQuota s w tenant ns).2.secrets = w.secrets := by
  unfold CreateResourceQuota
  apply apiCall_secrets
  split
  · rfl
  · split <;> rfl

theorem pvcGet_secrets (s : ServerDeps) (w : World) (ns name : String) :
    (pvcGet s w ns name).2.secrets = w.secrets := by
  unfold pvcGet
  apply apiCall_secrets
  split <;> rfl

theorem CreatePVC_secrets (s : ServerDeps) (w : World) (t sc sz ns : String) :
    (CreatePVC s w t sc sz ns).2.secrets = w.secrets := by
  unfold CreatePVC
  apply apiCall_secrets
  split
  · rfl
  · split <;> rfl

theorem namespacesDelete_secrets (s : ServerDeps) (w : World) (name : String) :
    (namespacesDelete s w name).2.secrets = w.secrets := by
  unfold namespacesDelete
  apply apiCall_secrets
  split <;> rfl

theorem pvcDelete_secrets (s : ServerDeps) (w : World) (ns name : String) :
    (pvcDelete s w ns name).2.secrets = w.secrets := by
  unfold pvcDelete
  apply apiCall_secrets
  split <;> rfl

theorem secretsGet_secrets (s : ServerDeps) (w : World) (ns name : String) :
    (secretsGet s w ns name).2.secrets = w.secrets := by
  unfold secretsGet
  apply apiCall_secrets
  split <;> rfl

theorem secretsGet_cluster (s : ServerDeps) (w : World) (ns name : String) :
    SameCluster w (secretsGet s w ns name).2 := by
  unfold secretsGet apiCall
  cases s.fault w.tick with
  | none => dsimp only; split <;> exact ⟨rfl, rfl, rfl⟩
  | some e => exact ⟨rfl, rfl, rfl⟩

theorem secretsUpdate_cluster (s : ServerDeps) (w : World) (ns : String) (x : Secret) :
    SameCluster w (secretsUpdate s w ns x).2 := by
  unfold secretsUpdate apiCall
  cases s.fault w.tick with
  | none => dsimp only; split <;> exact ⟨rfl, rfl, rfl⟩
  | some e => exact ⟨rfl, rfl, rfl⟩

theorem SameCluster_then {w w1 w2 : World} (h1 : SameCluster w w1) (h2 : SameCluster w1 w2) :
    SameCluster w w2 :=
  ⟨h2.1.trans h1.1, h2.2.1.trans h1.2.1, h2.2.2.trans h1.2.2⟩

/-- `OpenClusterForTenant` leaves the stored integrations alone. -/
theorem OpenClusterForTenant_secrets (s : ServerDeps) (w : World) (cluster : ClusterSource)
    (tenant : String) : (OpenClusterForTenant s w cluster tenant).2.secrets = w.secrets := by
  unfold OpenClusterForTenant
  cases s.NewClusterClient cluster.Credential cluster.IsControlCluster with
  | some e => rfl
  | none =>
    dsimp only
    cases s.getTenant tenant with
    | error e => rfl
    | ok t =>
      dsimp only
      have hn : ∀ r : Except Failure ClusterSource × World,
          r = (if cluster.Namespace ≠ "" then
            match namespacesGet s w cluster.Namespace with
            | (.error e, w1) => (.error (.api e), w1)
            | (.ok _, w1) => (.ok cluster, w1)
          else
            match CreateNamespace s w (s.TenantNamespace t.Name) with
            | (r, w1) =>
              match exceptAlreadyExists r with
              | some e => (.error (.api e), w1)
              | none => (.ok { cluster with Namespace := s.TenantNamespace t.Name }, w1)) →
          r.2.secrets = w.secrets := by
        intro r hr
        rw [hr]
        split
        · have := namespacesGet_secrets s w cluster.Namespace
          split <;> rename_i h <;> rw [h] at this <;> exact this
        · have := CreateNamespace_secrets s w (s.TenantNamespace t.Name)
          split
          rename_i h
          rw [h] at this
          split <;> exact this
      generalize hgen : (if cluster.Namespace ≠ "" then
            match namespacesGet s w cluster.Namespace with
            | (.error e, w1) => (Except.error (Failure.api e), w1)
            | (.ok _, w1) => (Except.ok cluster, w1)
          else
            match CreateNamespace s w (s.TenantNamespace t.Name) with
            | (r, w1) =>
              match exceptAlreadyExists r with
              | some e => (.error (.api e), w1)
              | none => (.ok { cluster with Namespace := s.TenantNamespace t.Name }, w1)) = named
      have hnamed := hn named hgen.symm
      rcases named with ⟨_ | c1, w1⟩
      · exact hnamed
      · dsimp only
        have hq := CreateResourceQuota_secrets s w1 t c1.Namespace
        rcases hcq : CreateResourceQuota s w1 t c1.Namespace with ⟨r, w2⟩
        rw [hcq] at hq
        dsimp only
        have h2 : w2.secrets = w.secrets := hq.trans hnamed
        cases exceptAlreadyExists r with
        | some e => exact h2
        | none =>
          dsimp only
          split
          · have := pvcGet_secrets s w2 c1.Namespace c1.PVC
            split <;> rename_i h <;> rw [h] at this <;> exact this.trans h2
          · have := CreatePVC_secrets s w2 t.Name t.StorageClass
              (if t.Size = "" then s.DefaultPVCSize else t.Size) c1.Namespace
            rcases hp : CreatePVC s w2 t.Name t.StorageClass
              (if t.Size = "" then s.DefaultPVCSize else t.Size) c1.Namespace with ⟨r3, w3⟩
            rw [hp] at this
            dsimp only
            cases exceptAlreadyExists r3 with
            | some e => exact this.trans h2
            | none => exact this.trans h2


/-- `CloseClusterForTenant` leaves the stored integrations alone. -/
theorem CloseClusterForTenant_secrets (s : ServerDeps) (w : World) (cluster : ClusterSource)
    (tenant : String) : (CloseClusterForTenant s w cluster tenant).2.secrets = w.secrets := by
  unfold CloseClusterForTenant
  cases s.NewClusterClient cluster.Credential cluster.IsControlCluster with
  | some e => rfl
  | none =>
    dsimp only
    have hd := namespacesDelete_secrets s w cluster.Namespace
    split
    · split <;> rename_i h <;> rw [h] at hd <;> exact hd
    · split
      · rename_i h; rw [h] at hd; exact hd
      · rename_i u w1 h
        rw [h] at hd
        split
        · have hp := pvcDelete_secrets s w1 cluster.Namespace cluster.PVC
          split <;> rename_i h2 <;> rw [h2] at hp <;> exact hp.trans hd
        · exact hd

theorem getIntegration_world (s : ServerDeps) (w : World) (tenant name : String) :
    (getIntegration s w tenant name).2 = w.called := by
  unfold getIntegration secretsGet apiCall
  cases s.fault w.tick with
  | some e => rfl
  | none =>
    dsimp only
    cases List.find? (fun p => decide (p.1 = s.TenantNamespace tenant ∧
        p.2.ObjectMeta.Name = s.IntegrationSecret name)) w.secrets with
    | none => rfl
    | some p =>
      dsimp only
      split <;> rfl

theorem retry_succeeds (fn : World → Option Failure × World)
    (hfail : ∀ w0 e w1, fn w0 = (some e, w1) → w1.secrets = w0.secrets) :
    ∀ (n : Nat) (last : Option Failure) (w w1 : World),
      RetryOnConflict fn n last w = (none, w1) →
      (n = 0 ∧ last = none) ∨ ∃ w0, w0.secrets = w.secrets ∧ fn w0 = (none, w1) := by
  intro n
  induction n with
  | zero =>
    intro last w w1 h
    simp only [RetryOnConflict, Prod.mk.injEq] at h
    exact Or.inl ⟨rfl, h.1⟩
  | succ n ih =>
    intro last w w1 h
    right
    unfold RetryOnConflict at h
    split at h
    · rename_i w2 hfn
      injection h with _ h2
      rw [h2] at hfn
      exact ⟨w, rfl, hfn⟩
    · rename_i w2 hfn
      rcases ih _ _ _ h with ⟨_, hl⟩ | ⟨w0, h0, hw0⟩
      · cases hl
      · exact ⟨w0, h0.trans (hfail _ _ _ hfn), hw0⟩
    · injection h with h1 _
      cases h1

theorem retry_fails (fn : World → Option Failure × World)
    (hfail : ∀ w0 e w1, fn w0 = (some e, w1) → w1.secrets = w0.secrets) :
    ∀ (n : Nat) (last : Option Failure) (w w1 : World) (e : Failure),
      RetryOnConflict fn n last w = (some e, w1) → w1.secrets = w.secrets := by
  intro n
  induction n with
  | zero =>
    intro last w w1 e h
    simp only [RetryOnConflict, Prod.mk.injEq] at h
    rw [h.2]
  | succ n ih =>
    intro last w w1 e h
    unfold RetryOnConflict at h
    split at h
    · injection h with h1 _
      cases h1
    · rename_i w2 hfn
      exact (ih _ _ _ _ h).trans (hfail _ _ _ hfn)
    · rename_i e1 w2 _ hfn
      injection h with h1 h2
      rw [← h2]
      exact hfail _ _ _ hfn

theorem retry_cluster (fn : World → Option Failure × World)
    (hfn : ∀ w0, SameCluster w0 (fn w0).2) :
    ∀ (n : Nat) (last : Option Failure) (w : World),
      SameCluster w (RetryOnConflict fn n last w).2 := by
  intro n
  induction n with
  | zero => intro last w; exact ⟨rfl, rfl, rfl⟩
  | succ n ih =>
    intro last w
    unfold RetryOnConflict
    have h := hfn w
    split
    · rename_i w1 hw; rw [hw] at h; exact h
    · rename_i w1 hw; rw [hw] at h; exact SameCluster_then h (ih _ _)
    · rename_i e w1 _ hw; rw [hw] at h; exact h


theorem find_after_replace (L : List (String × Secret)) (P : String × Secret → Prop)
    [DecidablePred P] (x y : String × Secret) (hx : P x)
    (h : L.find? (fun p => decide (P p)) = some y) :
    (L.map (fun p => if P p then x else p)).find? (fun p => decide (P p)) = some x := by
  induction L with
  | nil => simp at h
  | cons p rest ih =>
    by_cases hp : P p
    · simp only [List.map_cons, hp, if_true, List.find?_cons, hx, decide_True]
    · rw [List.find?_cons] at h
      simp only [hp, decide_False] at h
      simp only [List.map_cons, List.find?_cons, hp, if_false, decide_False]
      exact ih h

theorem secretsGet_ok (s : ServerDeps) (w : World) (ns name : String) (x : Secret) (w1 : World)
    (h : secretsGet s w ns name = (.ok x, w1)) :
    w1 = w.called ∧ x.ObjectMeta.Name = name ∧
      w.secrets.find? (fun p => decide (p.1 = ns ∧ p.2.ObjectMeta.Name = name)) = some (ns, x) := by
  unfold secretsGet apiCall at h
  cases hf : s.fault w.tick with
  | some e => rw [hf] at h; cases h
  | none =>
    rw [hf] at h
    dsimp only at h
    cases hfind : List.find? (fun p => decide (p.1 = ns ∧ p.2.ObjectMeta.Name = name)) w.secrets with
    | none => rw [hfind] at h; cases h
    | some p =>
      rw [hfind] at h
      injection h with h1 h2
      injection h1 with h1
      have hp := List.find?_some hfind
      simp only [decide_eq_true_eq] at hp
      refine ⟨h2.symm, ?_, ?_⟩
      · rw [← h1]; exact hp.2
      · rw [← h1, ← hp.1]

theorem secretsUpdate_ok (s : ServerDeps) (w : World) (ns : String) (x : Secret) (u : Unit)
    (w1 : World) (h : secretsUpdate s w ns x = (.ok u, w1)) :
    w1.secrets = w.secrets.map (fun p =>
      if p.1 = ns ∧ p.2.ObjectMeta.Name = x.ObjectMeta.Name then (ns, x) else p) := by
  unfold secretsUpdate apiCall at h
  cases hf : s.fault w.tick with
  | some e => rw [hf] at h; cases h
  | none =>
    rw [hf] at h
    dsimp only at h
    split at h
    · injection h with _ h2
      rw [← h2]; rfl
    · injection h with h1 _
      cases h1

theorem updateOnce_fails (s : ServerDeps) (ns name : String) (secret : Secret) (inp : Integration)
    (w0 : World) (e : Failure) (w1 : World)
    (h : updateOnce s ns name secret inp w0 = (some e, w1)) : w1.secrets = w0.secrets := by
  unfold updateOnce at h
  have hg := secretsGet_secrets s w0 ns (s.IntegrationSecret name)
  rcases hget : secretsGet s w0 ns (s.IntegrationSecret name) with ⟨r, w2⟩
  rw [hget] at h hg
  cases r with
  | error e1 =>
    injection h with _ h2
    rw [← h2]; exact hg
  | ok origin =>
    dsimp only at h
    cases hl : origin.ObjectMeta.Labels with
    | none =>
      rw [hl] at h
      injection h with _ h2
      rw [← h2]; exact hg
    | some labels =>
      rw [hl] at h
      dsimp only at h
      split at h
      · rename_i e1 w3 hu
        injection h with _ h2
        rw [← h2]
        unfold secretsUpdate at hu
        refine (apiCall_error_secrets s w2 _ e1 w3 ?_ hu).trans hg
        intro e2 he2
        split at he2
        · cases he2
        · split
          · rename_i hc _; rename_i hc2; exact absurd hc2 hc
          · rfl
      · cases h

theorem updateOnce_cluster (s : ServerDeps) (ns name : String) (secret : Secret)
    (inp : Integration) (w0 : World) :
    SameCluster w0 (updateOnce s ns name secret inp w0).2 := by
  unfold updateOnce
  have hg := secretsGet_cluster s w0 ns (s.IntegrationSecret name)
  rcases hget : secretsGet s w0 ns (s.IntegrationSecret name) with ⟨r, w2⟩
  rw [hget] at hg
  cases r with
  | error e1 => exact hg
  | ok origin =>
    dsimp only
    cases origin.ObjectMeta.Labels with
    | none => exact hg
    | some labels =>
      dsimp only
      split
      · rename_i e1 w3 hu
        exact SameCluster_then hg
          ((congrArg (fun r => SameCluster w2 r.2) hu).mp (secretsUpdate_cluster s w2 ns _))
      · rename_i u w3 hu
        exact SameCluster_then hg
          ((congrArg (fun r => SameCluster w2 r.2) hu).mp (secretsUpdate_cluster s w2 ns _))

theorem updateOnce_succeeds (s : ServerDeps) (ns name : String) (secret : Secret)
    (inp : Integration) (w0 w1 : World)
    (h : updateOnce s ns name secret inp w0 = (none, w1)) :
    ∃ origin labels,
      w0.secrets.find? (fun p => decide (p.1 = ns ∧ p.2.ObjectMeta.Name = s.IntegrationSecret name))
        = some (ns, origin) ∧
      origin.ObjectMeta.Labels = some labels ∧
      w1.secrets.find? (fun p => decide (p.1 = ns ∧ p.2.ObjectMeta.Name = s.IntegrationSecret name))
        = some (ns,
          { ObjectMeta :=
              { origin.ObjectMeta with
                Annotations :=
                  s.UpdateAnnotations secret.ObjectMeta.Annotations origin.ObjectMeta.Annotations
                Labels := some (mapSet labels s.LabelIntegrationType inp.Spec.IntegrationType) }
            Data := secret.Data }) := by
  unfold updateOnce at h
  rcases hget : secretsGet s w0 ns (s.IntegrationSecret name) with ⟨r, w2⟩
  rw [hget] at h
  cases r with
  | error e1 => cases h
  | ok origin =>
    obtain ⟨hw2, hname, hfind⟩ := secretsGet_ok s w0 ns _ origin w2 hget
    dsimp only at h
    cases hl : origin.ObjectMeta.Labels with
    | none => rw [hl] at h; cases h
    | some labels =>
      rw [hl] at h
      dsimp only at h
      split at h
      · cases h
      · rename_i u w3 hu
        injection h with _ h2
        have hs := secretsUpdate_ok s w2 ns _ u w3 hu
        refine ⟨origin, labels, hfind, hl, ?_⟩
        rw [← h2, hs, hw2]
        dsimp only [World.called]
        rw [hname]
        exact find_after_replace w0.secrets
          (fun p => p.1 = ns ∧ p.2.ObjectMeta.Name = s.IntegrationSecret name) _ _
          ⟨rfl, rfl⟩ hfind


theorem updateSecret_ok (s : ServerDeps) (w : World) (tenant name : String) (inp r : Integration)
    (w1 : World) (h : updateSecret s w tenant name inp = (.ok r, w1)) :
    r = afterBuildSecret s inp ∧
    ∃ origin labels stored,
      storedAt s w tenant name = some origin ∧ origin.ObjectMeta.Labels = some labels ∧
      storedAt s w1 tenant name = some stored ∧
      stored.ObjectMeta.Labels =
        some (mapSet labels s.LabelIntegrationType inp.Spec.IntegrationType) := by
  unfold updateSecret at h
  dsimp only at h
  cases hb : buildSecret s tenant inp with
  | error e => rw [hb] at h; cases h
  | ok secret =>
    rw [hb] at h
    dsimp only at h
    split at h
    · cases h
    · rename_i w2 hr
      injection h with h1 h2
      injection h1 with h1
      refine ⟨h1.symm, ?_⟩
      rcases retry_succeeds _ (updateOnce_fails s _ name secret _) _ _ _ _ hr with
        ⟨h0, _⟩ | ⟨w0, hw0, hfn⟩
      · cases h0
      · obtain ⟨origin, labels, hf0, hl, hf1⟩ := updateOnce_succeeds s _ name secret _ w0 w2 hfn
        have ha : storedAt s w tenant name = some origin := by
          unfold storedAt
          rw [← hw0, hf0]; rfl
        have hst := congrArg (Option.map (fun p => p.2)) hf1
        have hsp : (afterBuildSecret s inp).Spec = inp.Spec := by
          unfold afterBuildSecret
          cases inp.ObjectMeta.Labels <;> rfl
        rw [hsp, h2] at hst
        exact ⟨origin, labels, _, ha, hl, hst, rfl⟩

theorem updateSecret_error (s : ServerDeps) (w : World) (tenant name : String) (inp : Integration)
    (e : Failure) (w1 : World) (h : updateSecret s w tenant name inp = (.error e, w1)) :
    w1.secrets = w.secrets := by
  unfold updateSecret at h
  dsimp only at h
  cases hb : buildSecret s tenant inp with
  | error e1 =>
    rw [hb] at h
    injection h with _ h2
    rw [h2]
  | ok secret =>
    rw [hb] at h
    dsimp only at h
    split at h
    · rename_i e1 w2 hr
      injection h with _ h2
      rw [← h2]
      exact retry_fails _ (updateOnce_fails s _ name secret _) _ _ _ _ _ hr
    · cases h

theorem updateSecret_cluster (s : ServerDeps) (w : World) (tenant name : String)
    (inp : Integration) : SameCluster w (updateSecret s w tenant name inp).2 := by
  unfold updateSecret
  dsimp only
  cases buildSecret s tenant inp with
  | error e1 => exact ⟨rfl, rfl, rfl⟩
  | ok secret =>
    dsimp only
    have h := retry_cluster _ (updateOnce_cluster s (s.TenantNamespace tenant) name secret
      (afterBuildSecret s inp)) DefaultRetrySteps none w
    split <;> rename_i hr <;> rw [hr] at h <;> exact h


theorem UpdateIntegration_of_cluster (s : ServerDeps) (w : World) (tenant name : String)
    (inp : Integration) (cluster : ClusterSource) (oldIn : Integration)
    (oldCluster : ClusterSource) (htype : inp.Spec.IntegrationType = s.ClusterType)
    (hc : inp.Spec.Cluster = some cluster)
    (hold : (getIntegration s w tenant name).1 = .ok oldIn)
    (holdc : oldIn.Spec.Cluster = some oldCluster) :
    UpdateIntegration s w tenant name inp =
      match (if (!oldCluster.IsWorkerCluster && cluster.IsWorkerCluster) = true then
          OpenClusterForTenant s w.called cluster tenant
        else (.ok cluster, w.called)) with
      | (.error e, w2) => (.error e, w2)
      | (.ok cluster1, w2) =>
        match (if (oldCluster.IsWorkerCluster && !cluster1.IsWorkerCluster) = true then
            CloseClusterForTenant s w2 cluster1 tenant
          else (.ok (), w2)) with
        | (.error e, w3) => (.error e, w3)
        | (.ok _, w3) => updateSecret s w3 tenant name (inp.withCluster cluster1) := by
  have hg : getIntegration s w tenant name = (.ok oldIn, w.called) := by
    rw [← getIntegration_world s w tenant name, ← hold]
  unfold UpdateIntegration
  rw [if_pos htype, hc]
  dsimp only
  rw [hg]
  dsimp only
  rw [holdc]

theorem withCluster_same (inp : Integration) (cluster : ClusterSource)
    (hc : inp.Spec.Cluster = some cluster) : inp.withCluster cluster = inp := by
  unfold Integration.withCluster
  rw [← hc]

/-- `OpenClusterForTenant` changes only the namespace and the PVC of the cluster source. -/
theorem OpenClusterForTenant_flags (s : ServerDeps) (w : World) (cluster : ClusterSource)
    (tenant : String) (cluster1 : ClusterSource) (w1 : World)
    (h : OpenClusterForTenant s w cluster tenant = (.ok cluster1, w1)) :
    cluster1.IsWorkerCluster = cluster.IsWorkerCluster ∧
    cluster1.IsControlCluster = cluster.IsControlCluster ∧
    cluster1.Credential = cluster.Credential := by
  unfold OpenClusterForTenant at h
  cases hcl : s.NewClusterClient cluster.Credential cluster.IsControlCluster with
  | some e => rw [hcl] at h; cases h
  | none =>
    rw [hcl] at h
    dsimp only at h
    cases ht : s.getTenant tenant with
    | error e => rw [ht] at h; cases h
    | ok t =>
      rw [ht] at h
      dsimp only at h
      have hn : ∀ (c1 : ClusterSource) (w2 : World),
          (if cluster.Namespace ≠ "" then
            match namespacesGet s w cluster.Namespace with
            | (.error e, w1) => (Except.error (Failure.api e), w1)
            | (.ok _, w1) => (Except.ok cluster, w1)
          else
            match CreateNamespace s w (s.TenantNamespace t.Name) with
            | (r, w1) =>
              match exceptAlreadyExists r with
              | some e => (.error (.api e), w1)
              | none => (.ok { cluster with Namespace := s.TenantNamespace t.Name }, w1)) =
            (.ok c1, w2) →
          c1.IsWorkerCluster = cluster.IsWorkerCluster ∧
          c1.IsControlCluster = cluster.IsControlCluster ∧
          c1.Credential = cluster.Credential := by
        intro c1 w2 hr
        split at hr
        · split at hr
          · cases hr
          · injection hr with h1 _
            injection h1 with h1
            rw [← h1]
            exact ⟨rfl, rfl, rfl⟩
        · split at hr
          split at hr
          · cases hr
          · injection hr with h1 _
            injection h1 with h1
            rw [← h1]
            exact ⟨rfl, rfl, rfl⟩
      generalize hgen : (if cluster.Namespace ≠ "" then
            match namespacesGet s w cluster.Namespace with
            | (.error e, w1) => (Except.error (Failure.api e), w1)
            | (.ok _, w1) => (Except.ok cluster, w1)
          else
            match CreateNamespace s w (s.TenantNamespace t.Name) with
            | (r, w1) =>
              match exceptAlreadyExists r with
              | some e => (.error (.api e), w1)
              | none => (.ok { cluster with Namespace := s.TenantNamespace t.Name }, w1)) = named
        at h
      rcases named with ⟨_ | c1, w2⟩
      · cases h
      · have hc1 := hn c1 w2 hgen
        dsimp only at h
        rcases hcq : CreateResourceQuota s w2 t c1.Namespace with ⟨r, w3⟩
        rw [hcq] at h
        dsimp only at h
        cases hx : exceptAlreadyExists r with
        | some e => rw [hx] at h; cases h
        | none =>
          rw [hx] at h
          dsimp only at h
          split at h
          · split at h
            · cases h
            · injection h with h1 _
              injection h1 with h1
              rw [← h1]
              exact hc1
          · rcases hp : CreatePVC s w3 t.Name t.StorageClass
              (if t.Size = "" then s.DefaultPVCSize else t.Size) c1.Namespace with ⟨r3, w4⟩
            rw [hp] at h
            dsimp only at h
            cases hx3 : exceptAlreadyExists r3 with
            | some e => rw [hx3] at h; cases h
            | none =>
              rw [hx3] at h
              injection h with h1 _
              injection h1 with h1
              rw [← h1]
              exact hc1


theorem storedAt_congr (s : ServerDeps) (w w0 : World) (tenant name : String)
    (h : w0.secrets = w.secrets) : storedAt s w0 tenant name = storedAt s w tenant name := by
  unfold storedAt
  rw [h]

/-- A successful `UpdateIntegration` ends in the record write, made on a
world with the secrets it started from and for an integration of the same type. -/
theorem UpdateIntegration_writes (s : ServerDeps) (w : World) (tenant name : String)
    (inp r : Integration) (w1 : World)
    (h : UpdateIntegration s w tenant name inp = (.ok r, w1)) :
    ∃ w0 i, w0.secrets = w.secrets ∧ i.Spec.IntegrationType = inp.Spec.IntegrationType ∧
      updateSecret s w0 tenant name i = (.ok r, w1) := by
  by_cases htype : inp.Spec.IntegrationType = s.ClusterType
  · cases hc : inp.Spec.Cluster with
    | none =>
      unfold UpdateIntegration at h
      rw [if_pos htype, hc] at h
      exact ⟨w, inp, rfl, rfl, h⟩
    | some cluster =>
      rcases hg : (getIntegration s w tenant name).1 with e | oldIn
      · have hg1 : getIntegration s w tenant name = (.error e, w.called) := by
          rw [← getIntegration_world s w tenant name, ← hg]
        unfold UpdateIntegration at h
        rw [if_pos htype, hc] at h
        dsimp only at h
        rw [hg1] at h
        cases h
      · cases holdc : oldIn.Spec.Cluster with
        | none =>
          have hg1 : getIntegration s w tenant name = (.ok oldIn, w.called) := by
            rw [← getIntegration_world s w tenant name, ← hg]
          unfold UpdateIntegration at h
          rw [if_pos htype, hc] at h
          dsimp only at h
          rw [hg1] at h
          dsimp only at h
          rw [holdc] at h
          cases h
        | some oldCluster =>
          rw [UpdateIntegration_of_cluster s w tenant name inp cluster oldIn oldCluster htype hc hg
            holdc] at h
          have ho : (if (!oldCluster.IsWorkerCluster && cluster.IsWorkerCluster) = true then
              OpenClusterForTenant s w.called cluster tenant
            else (.ok cluster, w.called)).2.secrets = w.secrets := by
            split
            · exact OpenClusterForTenant_secrets s w.called cluster tenant
            · rfl
          generalize (if (!oldCluster.IsWorkerCluster && cluster.IsWorkerCluster) = true then
              OpenClusterForTenant s w.called cluster tenant
            else (.ok cluster, w.called)) = opened at h ho
          rcases opened with ⟨e | c1, w2⟩
          · cases h
          · dsimp only at h ho
            have hcl : (if (oldCluster.IsWorkerCluster && !c1.IsWorkerCluster) = true then
                CloseClusterForTenant s w2 c1 tenant
              else (.ok (), w2)).2.secrets = w.secrets := by
              split
              · exact (CloseClusterForTenant_secrets s w2 c1 tenant).trans ho
              · exact ho
            generalize (if (oldCluster.IsWorkerCluster && !c1.IsWorkerCluster) = true then
                CloseClusterForTenant s w2 c1 tenant
              else (.ok (), w2)) = closed at h hcl
            rcases closed with ⟨e | u, w3⟩
            · cases h
            · exact ⟨w3, inp.withCluster c1, hcl, rfl, h⟩
  · unfold UpdateIntegration at h
    rw [if_neg htype] at h
    exact ⟨w, inp, rfl, rfl, h⟩

/-- Claim C19. The labels of the stored secret after a successful
`UpdateIntegration`: the secret stored before had a label map, and the
secret stored afterwards carries that map with the integration type label
set to the type of the new integration. So the type label is the new type,
and the worker-cluster label `LabelClusterOn` is what it was before the
update, whatever the new integration says about being a worker cluster: the
update neither sets nor removes it. -/
theorem UpdateIntegration_stored_labels (s : ServerDeps) (w : World) (tenant name : String)
    (inp r : Integration) (w1 : World)
    (h : UpdateIntegration s w tenant name inp = (.ok r, w1)) :
    ∃ origin labels stored,
      storedAt s w tenant name = some origin ∧ origin.ObjectMeta.Labels = some labels ∧
      storedAt s w1 tenant name = some stored ∧
      stored.ObjectMeta.Labels =
        some (mapSet labels s.LabelIntegrationType inp.Spec.IntegrationType) ∧
      resourceGet stored.ObjectMeta.Labels s.LabelIntegrationType =
        some inp.Spec.IntegrationType ∧
      (s.LabelClusterOn ≠ s.LabelIntegrationType →
        resourceGet stored.ObjectMeta.Labels s.LabelClusterOn =
          resourceGet origin.ObjectMeta.Labels s.LabelClusterOn) := by
  obtain ⟨w0, i, hw0, hty, hu⟩ := UpdateIntegration_writes s w tenant name inp r w1 h
  obtain ⟨_, origin, labels, stored, ha, hl, hst, hlab⟩ :=
    updateSecret_ok s w0 tenant name i r w1 hu
  rw [storedAt_congr s w w0 tenant name hw0] at ha
  rw [hty] at hlab
  refine ⟨origin, labels, stored, ha, hl, hst, hlab, ?_, ?_⟩
  · rw [hlab]
    exact mapGet_mapSet_same _ _ _
  · intro hne
    rw [hlab, hl]
    exact mapGet_mapSet_ne _ _ _ _ hne

/-- The failing input of C19: tenant `devs` has the cluster integration `c1`
stored as not a worker cluster, and it is updated to a worker cluster. The
update succeeds and opens the cluster, the stored secret decodes to a worker
cluster, but it has no `cyclone.dev/cluster-on` label, and the listing of the
worker clusters of the tenant is empty. -/
theorem UpdateIntegration_stored_labels_witness :
    let s := clusterServer (fun _ => none)
    let r := UpdateIntegration s idleWorld "devs" "c1" (clusterRequest (clusterSpec true "" ""))
    r.1 = .ok (clusterRequest (clusterSpec true "cyclone--devs" "cyclone-pvc-devs")) ∧
    storedAt s r.2 "devs" "c1" =
      some (storedSecret "c1" [("cyclone.dev/integration-type", "Cluster")] "worker") ∧
    (SecretToIntegration s
      (storedSecret "c1" [("cyclone.dev/integration-type", "Cluster")] "worker")).1.Spec =
      clusterSpec true "cyclone--devs" "cyclone-pvc-devs" ∧
    (GetWokerClusters s r.2 "devs").1 = .ok [] ∧
    ∃ origin labels stored,
      storedAt s idleWorld "devs" "c1" = some origin ∧ origin.ObjectMeta.Labels = some labels ∧
      storedAt s r.2 "devs" "c1" = some stored ∧
      stored.ObjectMeta.Labels =
        some (mapSet labels s.LabelIntegrationType "Cluster") ∧
      resourceGet stored.ObjectMeta.Labels s.LabelIntegrationType = some "Cluster" ∧
      (s.LabelClusterOn ≠ s.LabelIntegrationType →
        resourceGet stored.ObjectMeta.Labels s.LabelClusterOn =
          resourceGet origin.ObjectMeta.Labels s.LabelClusterOn) :=
  ⟨rfl, rfl, rfl, rfl,
   UpdateIntegration_stored_labels (clusterServer (fun _ => none)) idleWorld "devs" "c1"
     (clusterRequest (clusterSpec true "" "")) _ _ rfl⟩


/-- Claim C20, for a new integration with a cluster source.
`UpdateIntegration` with a new integration of type Cluster that has
a cluster source, when the prior record is fetched and decodes to an
integration with a cluster source. With the prior record not a worker cluster
and the new one a worker cluster, `OpenClusterForTenant` runs first, on the
cluster source of the new integration: its error is the result, and otherwise
the record is written in the world it leaves, with the cluster source it
filled in. With the prior record a worker cluster and the new one not,
`CloseClusterForTenant` runs first in the same way. With equal flags the
result is the record write alone. Opening and closing leave the stored
secrets as they were, so after a failed open or close the stored record is
unchanged; the record write leaves the objects of the worker cluster as they
were, so it neither opens nor closes. And an integration without a cluster
source, whatever its type, is written without any comparison with the prior
record: the update is the record write alone. -/
theorem UpdateIntegration_opens_or_closes (s : ServerDeps) (w : World) (tenant name : String)
    (inp : Integration) (cluster : ClusterSource) (oldIn : Integration)
    (oldCluster : ClusterSource) (htype : inp.Spec.IntegrationType = s.ClusterType)
    (hc : inp.Spec.Cluster = some cluster)
    (hold : (getIntegration s w tenant name).1 = .ok oldIn)
    (holdc : oldIn.Spec.Cluster = some oldCluster) :
    (oldCluster.IsWorkerCluster = false → cluster.IsWorkerCluster = true →
      (∀ e w2, OpenClusterForTenant s w.called cluster tenant = (.error e, w2) →
        UpdateIntegration s w tenant name inp = (.error e, w2) ∧ w2.secrets = w.secrets) ∧
      (∀ cluster1 w2, OpenClusterForTenant s w.called cluster tenant = (.ok cluster1, w2) →
        UpdateIntegration s w tenant name inp =
          updateSecret s w2 tenant name (inp.withCluster cluster1) ∧
        w2.secrets = w.secrets)) ∧
    (oldCluster.IsWorkerCluster = true → cluster.IsWorkerCluster = false →
      (∀ e w2, CloseClusterForTenant s w.called cluster tenant = (.error e, w2) →
        UpdateIntegration s w tenant name inp = (.error e, w2) ∧ w2.secrets = w.secrets) ∧
      (∀ u w2, CloseClusterForTenant s w.called cluster tenant = (.ok u, w2) →
        UpdateIntegration s w tenant name inp = updateSecret s w2 tenant name inp ∧
        w2.secrets = w.secrets)) ∧
    (oldCluster.IsWorkerCluster = cluster.IsWorkerCluster →
      UpdateIntegration s w tenant name inp = updateSecret s w.called tenant name inp) ∧
    (∀ w0 i, SameCluster w0 (updateSecret s w0 tenant name i).2) ∧
    (∀ w0 i, i.Spec.Cluster = none →
      UpdateIntegration s w0 tenant name i = updateSecret s w0 tenant name i) := by
  have hn := UpdateIntegration_of_cluster s w tenant name inp cluster oldIn oldCluster htype hc
    hold holdc
  have hsame := withCluster_same inp cluster hc
  refine ⟨?_, ?_, ?_, fun w0 i => updateSecret_cluster s w0 tenant name i, ?_⟩
  · intro ho hnew
    rw [ho, hnew] at hn
    simp only [Bool.not_false, Bool.and_self, if_true] at hn
    constructor
    · intro e w2 hop
      rw [hop] at hn
      refine ⟨hn, ?_⟩
      have := OpenClusterForTenant_secrets s w.called cluster tenant
      rw [hop] at this
      exact this
    · intro c1 w2 hop
      have hflag := (OpenClusterForTenant_flags s w.called cluster tenant c1 w2 hop).1
      rw [hop] at hn
      simp only [hflag, hnew, Bool.not_true, Bool.and_false, Bool.false_eq_true, if_false] at hn
      refine ⟨hn, ?_⟩
      have := OpenClusterForTenant_secrets s w.called cluster tenant
      rw [hop] at this
      exact this
  · intro ho hnew
    rw [ho, hnew] at hn
    simp only [hnew, Bool.not_true, Bool.not_false, Bool.and_false, Bool.false_and,
      Bool.and_self, Bool.false_eq_true, if_false, if_true] at hn
    constructor
    · intro e w2 hcl
      rw [hcl] at hn
      refine ⟨hn, ?_⟩
      have := CloseClusterForTenant_secrets s w.called cluster tenant
      rw [hcl] at this
      exact this
    · intro u w2 hcl
      rw [hcl, hsame] at hn
      refine ⟨hn, ?_⟩
      have := CloseClusterForTenant_secrets s w.called cluster tenant
      rw [hcl] at this
      exact this
  · intro heq
    rw [heq] at hn
    cases hnew : cluster.IsWorkerCluster <;> rw [hnew] at hn <;>
      simp only [hnew, Bool.not_true, Bool.not_false, Bool.and_false, Bool.false_and,
        Bool.and_self, Bool.and_true, Bool.true_and, Bool.false_eq_true, if_false] at hn <;>
      rw [hsame] at hn <;> exact hn
  · intro w0 i hnone
    unfold UpdateIntegration
    by_cases ht : i.Spec.IntegrationType = s.ClusterType
    · rw [if_pos ht, hnone]
    · rw [if_neg ht]

/-- The scenario of turning a worker cluster on, for C20: tenant `devs`,
integration `c1` stored as not a worker cluster and updated to a worker
cluster. The cluster is opened first: the update is the record write in the
world with the tenant namespace, quota and PVC, of the integration with the
namespace and PVC filled in. When creating the namespace fails, the update
returns that error and the stored record is the one from before. -/
theorem UpdateIntegration_opens_or_closes_witness :
    let req := clusterRequest (clusterSpec true "" "")
    let opened : World :=
      { idleWorld with
        namespaces := ["cyclone--devs"], quotas := [("cyclone--devs", "devs")]
        pvcs := [("cyclone--devs", "cyclone-pvc-devs")], tick := 4 }
    let filled : ClusterSource :=
      { Credential := "kubeconfig", IsControlCluster := false, IsWorkerCluster := true
        Namespace := "cyclone--devs", PVC := "cyclone-pvc-devs" }
    let refused : Nat → Option ApiError := fun n => if n = 1 then some (.Other "forbidden") else none
    (UpdateIntegration (clusterServer (fun _ => none)) idleWorld "devs" "c1" req =
        updateSecret (clusterServer (fun _ => none)) opened "devs" "c1" (req.withCluster filled) ∧
      opened.secrets = idleWorld.secrets) ∧
    (UpdateIntegration (clusterServer refused) idleWorld "devs" "c1" req =
        (.error (.api (.Other "forbidden")), { idleWorld with tick := 2 }) ∧
      ({ idleWorld with tick := 2 } : World).secrets = idleWorld.secrets) :=
  ⟨((UpdateIntegration_opens_or_closes (clusterServer (fun _ => none)) idleWorld "devs" "c1"
      (clusterRequest (clusterSpec true "" "")) _ _ _ rfl rfl rfl rfl).1 rfl rfl).2 _ _ rfl,
   ((UpdateIntegration_opens_or_closes
      (clusterServer (fun n => if n = 1 then some (.Other "forbidden") else none)) idleWorld
      "devs" "c1" (clusterRequest (clusterSpec true "" "")) _ _ _ rfl rfl rfl rfl).1 rfl rfl).1
      _ _ rfl⟩

/-- Counterexample to C20 as stated: tenant `devs` has the cluster
integration `c1` stored as a worker cluster, opened; it is updated with an
integration of type Cluster that has no cluster source, so the new one is not
a worker cluster. The guard of line 270 skips the whole comparison: the
update is the record write alone and succeeds, and the namespace, the quota
and the PVC of the tenant are still there, whereas `CloseClusterForTenant`
deletes the namespace. -/
theorem UpdateIntegration_without_cluster_source_keeps_open :
    let s := clusterServer (fun _ => none)
    let req := clusterRequest bareClusterSpec
    let r := UpdateIntegration s workerWorld "devs" "c1" req
    req.Spec.IntegrationType = s.ClusterType ∧
    ((getIntegration s workerWorld "devs" "c1").1.toOption.bind
      (fun old => old.Spec.Cluster.map (fun c => c.IsWorkerCluster))) = some true ∧
    r = updateSecret s workerWorld "devs" "c1" req ∧
    r.1 = .ok req ∧
    r.2.namespaces = ["cyclone--devs"] ∧ r.2.quotas = [("cyclone--devs", "devs")] ∧
    r.2.pvcs = [("cyclone--devs", "cyclone-pvc-devs")] ∧
    (CloseClusterForTenant s workerWorld
      { Credential := "kubeconfig", IsControlCluster := false, IsWorkerCluster := false
        Namespace := "cyclone--devs", PVC := "cyclone-pvc-devs" } "devs").2.namespaces = [] :=
  ⟨rfl, rfl, rfl, rfl, rfl, rfl, rfl, rfl⟩


/-! ## The steps of opening a cluster -/

/-- `OpenClusterForTenant` is its steps, one after the other. -/
theorem OpenClusterForTenant_eq_steps (s : ServerDeps) (w : World) (cluster : ClusterSource)
    (tenantName : String) :
    OpenClusterForTenant s w cluster tenantName =
      match s.NewClusterClient cluster.Credential cluster.IsControlCluster with
      | some e => (.error (.library e), w)
      | none =>
        match s.getTenant tenantName with
        | .error e => (.error e, w)
        | .ok tenant => openNamespace s w tenant cluster := by
  unfold OpenClusterForTenant
  cases s.NewClusterClient cluster.Credential cluster.IsControlCluster with
  | some e => rfl
  | none =>
    dsimp only
    cases s.getTenant tenantName with
    | error e => rfl
    | ok t =>
      dsimp only
      unfold openNamespace
      by_cases hns : cluster.Namespace ≠ ""
      · rw [if_pos hns, if_pos hns]
        rcases namespacesGet s w cluster.Namespace with ⟨r | u, w1⟩
        · rfl
        · rfl
      · rw [if_neg hns, if_neg hns]
        rcases CreateNamespace s w (s.TenantNamespace t.Name) with ⟨r, w1⟩
        dsimp only
        cases exceptAlreadyExists r with
        | some e => rfl
        | none => rfl


theorem apiCall_cases {α : Type} (s : ServerDeps) (w : World) (run : Except ApiError α × World)
    (r : Except ApiError α) (w1 : World) (h : apiCall s w run = (r, w1)) :
    (∃ e, s.fault w.tick = some e ∧ r = .error e ∧ w1 = w.called) ∨
    (s.fault w.tick = none ∧ r = run.1 ∧ w1 = run.2.called) := by
  unfold apiCall at h
  cases hf : s.fault w.tick with
  | some e =>
    rw [hf] at h
    injection h with h1 h2
    exact Or.inl ⟨e, rfl, h1.symm, h2.symm⟩
  | none =>
    rw [hf] at h
    injection h with h1 h2
    exact Or.inr ⟨rfl, h1.symm, h2.symm⟩

theorem exceptAlreadyExists_none (r : Except ApiError Unit) (h : exceptAlreadyExists r = none) :
    r = .ok () ∨ r = .error .AlreadyExists := by
  cases r with
  | ok u => exact Or.inl rfl
  | error e =>
    by_cases he : e = .AlreadyExists
    · right; rw [he]
    · simp [exceptAlreadyExists, he] at h

/-- A tolerated outcome of `CreatePVC`: the PVC of the tenant is in the namespace. -/
theorem CreatePVC_tolerated (s : ServerDeps) (w : World) (tn sc sz ns : String)
    (r : Except ApiError Unit) (w1 : World) (h : CreatePVC s w tn sc sz ns = (r, w1))
    (hr : exceptAlreadyExists r = none) :
    w1.namespaces = w.namespaces ∧ w1.quotas = w.quotas ∧
    (FaultsAreNotAlreadyExists s → (ns, s.TenantPVC tn) ∈ w1.pvcs) := by
  unfold CreatePVC at h
  rcases apiCall_cases s w _ r w1 h with ⟨e, hf, hre, hw⟩ | ⟨hf, hre, hw⟩
  · rw [hw]
    refine ⟨rfl, rfl, fun hno => ?_⟩
    rw [hre] at hr
    rcases exceptAlreadyExists_none _ hr with h1 | h1
    · cases h1
    · injection h1 with h1
      rw [h1] at hf
      exact absurd hf (hno _)
  · rw [hw]
    by_cases hin : (ns, s.TenantPVC tn) ∈ w.pvcs
    · rw [if_pos hin]
      exact ⟨rfl, rfl, fun _ => hin⟩
    · rw [if_neg hin] at hre ⊢
      by_cases hn : ns ∈ w.namespaces
      · rw [if_pos hn]
        refine ⟨rfl, rfl, fun _ => ?_⟩
        show (ns, s.TenantPVC tn) ∈ w.pvcs ++ [(ns, s.TenantPVC tn)]
        simp
      · rw [if_neg hn] at hre
        rw [hre] at hr
        simp [exceptAlreadyExists] at hr

/-- A tolerated outcome of `CreateResourceQuota`: the quota of the tenant is in the namespace. -/
theorem CreateResourceQuota_tolerated (s : ServerDeps) (w : World) (t : Tenant) (ns : String)
    (r : Except ApiError Unit) (w1 : World) (h : CreateResourceQuota s w t ns = (r, w1))
    (hr : exceptAlreadyExists r = none) :
    w1.namespaces = w.namespaces ∧ w1.pvcs = w.pvcs ∧
    (FaultsAreNotAlreadyExists s → (ns, t.Name) ∈ w1.quotas) := by
  unfold CreateResourceQuota at h
  rcases apiCall_cases s w _ r w1 h with ⟨e, hf, hre, hw⟩ | ⟨hf, hre, hw⟩
  · rw [hw]
    refine ⟨rfl, rfl, fun hno => ?_⟩
    rw [hre] at hr
    rcases exceptAlreadyExists_none _ hr with h1 | h1
    · cases h1
    · injection h1 with h1
      rw [h1] at hf
      exact absurd hf (hno _)
  · rw [hw]
    by_cases hin : (ns, t.Name) ∈ w.quotas
    · rw [if_pos hin]
      exact ⟨rfl, rfl, fun _ => hin⟩
    · rw [if_neg hin] at hre ⊢
      by_cases hn : ns ∈ w.namespaces
      · rw [if_pos hn]
        refine ⟨rfl, rfl, fun _ => ?_⟩
        show (ns, t.Name) ∈ w.quotas ++ [(ns, t.Name)]
        simp
      · rw [if_neg hn] at hre
        rw [hre] at hr
        simp [exceptAlreadyExists] at hr

/-- A tolerated outcome of `CreateNamespace`: the namespace is there. -/
theorem CreateNamespace_tolerated (s : ServerDeps) (w : World) (ns : String)
    (r : Except ApiError Unit) (w1 : World) (h : CreateNamespace s w ns = (r, w1))
    (hr : exceptAlreadyExists r = none) :
    w1.quotas = w.quotas ∧ w1.pvcs = w.pvcs ∧
    (FaultsAreNotAlreadyExists s → ns ∈ w1.namespaces) := by
  unfold CreateNamespace at h
  rcases apiCall_cases s w _ r w1 h with ⟨e, hf, hre, hw⟩ | ⟨hf, hre, hw⟩
  · rw [hw]
    refine ⟨rfl, rfl, fun hno => ?_⟩
    rw [hre] at hr
    rcases exceptAlreadyExists_none _ hr with h1 | h1
    · cases h1
    · injection h1 with h1
      rw [h1] at hf
      exact absurd hf (hno _)
  · rw [hw]
    by_cases hin : ns ∈ w.namespaces
    · rw [if_pos hin]
      exact ⟨rfl, rfl, fun _ => hin⟩
    · rw [if_neg hin]
      refine ⟨rfl, rfl, fun _ => ?_⟩
      show ns ∈ w.namespaces ++ [ns]
      simp

/-- A successful `Namespaces().Get`: the namespace is there, and nothing changed. -/
theorem namespacesGet_ok (s : ServerDeps) (w : World) (ns : String) (u : Unit) (w1 : World)
    (h : namespacesGet s w ns = (.ok u, w1)) :
    w1 = w.called ∧ ns ∈ w.namespaces := by
  unfold namespacesGet at h
  rcases apiCall_cases s w _ _ w1 h with ⟨e, hf, hre, hw⟩ | ⟨hf, hre, hw⟩
  · cases hre
  · by_cases hin : ns ∈ w.namespaces
    · rw [if_pos hin] at hw
      exact ⟨hw, hin⟩
    · rw [if_neg hin] at hre
      cases hre

/-- A successful `PersistentVolumeClaims(ns).Get`: the PVC is there, and nothing changed. -/
theorem pvcGet_ok (s : ServerDeps) (w : World) (ns name : String) (u : Unit) (w1 : World)
    (h : pvcGet s w ns name = (.ok u, w1)) :
    w1 = w.called ∧ (ns, name) ∈ w.pvcs := by
  unfold pvcGet at h
  rcases apiCall_cases s w _ _ w1 h with ⟨e, hf, hre, hw⟩ | ⟨hf, hre, hw⟩
  · cases hre
  · by_cases hin : (ns, name) ∈ w.pvcs
    · rw [if_pos hin] at hw
      exact ⟨hw, hin⟩
    · rw [if_neg hin] at hre
      cases hre


theorem openPVC_ok (s : ServerDeps) (w : World) (t : Tenant) (c c1 : ClusterSource) (w1 : World)
    (h : openPVC s w t c = (.ok c1, w1)) :
    c1.Namespace = c.Namespace ∧
    (c.PVC ≠ "" → c1.PVC = c.PVC) ∧ (c.PVC = "" → c1.PVC = s.TenantPVC t.Name) ∧
    w1.namespaces = w.namespaces ∧ w1.quotas = w.quotas ∧
    (FaultsAreNotAlreadyExists s → (c1.Namespace, c1.PVC) ∈ w1.pvcs) := by
  unfold openPVC at h
  by_cases hp : c.PVC ≠ ""
  · rw [if_pos hp] at h
    rcases hg : pvcGet s w c.Namespace c.PVC with ⟨r | u, w2⟩
    · rw [hg] at h; cases h
    · rw [hg] at h
      injection h with h1 h2
      injection h1 with h1
      obtain ⟨hw, hin⟩ := pvcGet_ok s w _ _ u w2 hg
      rw [← h1, ← h2, hw]
      exact ⟨rfl, fun _ => rfl, fun h0 => absurd h0 hp, rfl, rfl, fun _ => hin⟩
  · rw [if_neg hp] at h
    dsimp only at h
    rcases hc : CreatePVC s w t.Name t.StorageClass
      (if t.Size = "" then s.DefaultPVCSize else t.Size) c.Namespace with ⟨r, w2⟩
    rw [hc] at h
    dsimp only at h
    cases hx : exceptAlreadyExists r with
    | some e => rw [hx] at h; cases h
    | none =>
      rw [hx] at h
      injection h with h1 h2
      injection h1 with h1
      obtain ⟨hn, hq, hin⟩ := CreatePVC_tolerated s w _ _ _ _ r w2 hc hx
      rw [← h1, ← h2]
      exact ⟨rfl, fun h0 => absurd h0 hp, fun _ => rfl, hn, hq, hin⟩

theorem openQuota_ok (s : ServerDeps) (w : World) (t : Tenant) (c c1 : ClusterSource)
    (w1 : World) (h : openQuota s w t c = (.ok c1, w1)) :
    c1.Namespace = c.Namespace ∧
    (c.PVC ≠ "" → c1.PVC = c.PVC) ∧ (c.PVC = "" → c1.PVC = s.TenantPVC t.Name) ∧
    w1.namespaces = w.namespaces ∧
    (FaultsAreNotAlreadyExists s →
      (c1.Namespace, t.Name) ∈ w1.quotas ∧ (c1.Namespace, c1.PVC) ∈ w1.pvcs) := by
  unfold openQuota at h
  rcases hc : CreateResourceQuota s w t c.Namespace with ⟨r, w2⟩
  rw [hc] at h
  dsimp only at h
  cases hx : exceptAlreadyExists r with
  | some e => rw [hx] at h; cases h
  | none =>
    rw [hx] at h
    dsimp only at h
    obtain ⟨hn, _, hin⟩ := CreateResourceQuota_tolerated s w t _ r w2 hc hx
    obtain ⟨h1, h2, h3, h4, h5, h6⟩ := openPVC_ok s w2 t c c1 w1 h
    refine ⟨h1, h2, h3, h4.trans hn, fun hno => ⟨?_, h6 hno⟩⟩
    rw [h5, h1]
    exact hin hno

theorem openNamespace_ok (s : ServerDeps) (w : World) (t : Tenant) (c c1 : ClusterSource)
    (w1 : World) (h : openNamespace s w t c = (.ok c1, w1)) :
    (c.Namespace ≠ "" → c1.Namespace = c.Namespace) ∧
    (c.Namespace = "" → c1.Namespace = s.TenantNamespace t.Name) ∧
    (c.PVC ≠ "" → c1.PVC = c.PVC) ∧ (c.PVC = "" → c1.PVC = s.TenantPVC t.Name) ∧
    (FaultsAreNotAlreadyExists s →
      c1.Namespace ∈ w1.namespaces ∧ (c1.Namespace, t.Name) ∈ w1.quotas ∧
      (c1.Namespace, c1.PVC) ∈ w1.pvcs) := by
  unfold openNamespace at h
  by_cases hns : c.Namespace ≠ ""
  · rw [if_pos hns] at h
    rcases hg : namespacesGet s w c.Namespace with ⟨r | u, w2⟩
    · rw [hg] at h; cases h
    · rw [hg] at h
      dsimp only at h
      obtain ⟨hw, hin⟩ := namespacesGet_ok s w _ u w2 hg
      obtain ⟨h1, h2, h3, h4, h5⟩ := openQuota_ok s w2 t c c1 w1 h
      refine ⟨fun _ => h1, fun h0 => absurd h0 hns, h2, h3, fun hno => ⟨?_, h5 hno⟩⟩
      rw [h4, hw, h1]
      exact hin
  · rw [if_neg hns] at h
    rcases hc : CreateNamespace s w (s.TenantNamespace t.Name) with ⟨r, w2⟩
    rw [hc] at h
    dsimp only at h
    cases hx : exceptAlreadyExists r with
    | some e => rw [hx] at h; cases h
    | none =>
      rw [hx] at h
      dsimp only at h
      obtain ⟨_, _, hin⟩ := CreateNamespace_tolerated s w _ r w2 hc hx
      obtain ⟨h1, h2, h3, h4, h5⟩ := openQuota_ok s w2 t _ c1 w1 h
      refine ⟨fun h0 => absurd h0 hns, fun _ => h1, h2, h3, fun hno => ⟨?_, h5 hno⟩⟩
      rw [h4, h1]
      exact hin hno

/-- Claim C22. After `OpenClusterForTenant` succeeds, for the tenant that
`getTenant` returned: a namespace given in the cluster source is unchanged
and one not given is `TenantNamespace` of the tenant; a PVC given is unchanged
and one not given is `TenantPVC` of the tenant; so both fields are non-empty
(the two name helpers returning non-empty names); and, `AlreadyExists` being
an answer of the object store only, the resulting namespace exists and holds
the resource quota of the tenant and the resulting PVC. -/
theorem OpenClusterForTenant_fills_source (s : ServerDeps) (w : World) (cluster : ClusterSource)
    (tenantName : String) (cluster1 : ClusterSource) (w1 : World)
    (h : OpenClusterForTenant s w cluster tenantName = (.ok cluster1, w1)) :
    ∃ tenant, s.getTenant tenantName = .ok tenant ∧
      (cluster.Namespace ≠ "" → cluster1.Namespace = cluster.Namespace) ∧
      (cluster.Namespace = "" → cluster1.Namespace = s.TenantNamespace tenant.Name) ∧
      (cluster.PVC ≠ "" → cluster1.PVC = cluster.PVC) ∧
      (cluster.PVC = "" → cluster1.PVC = s.TenantPVC tenant.Name) ∧
      ((∀ t, s.TenantNamespace t ≠ "") → (∀ t, s.TenantPVC t ≠ "") →
        cluster1.Namespace ≠ "" ∧ cluster1.PVC ≠ "") ∧
      (FaultsAreNotAlreadyExists s →
        cluster1.Namespace ∈ w1.namespaces ∧ (cluster1.Namespace, tenant.Name) ∈ w1.quotas ∧
        (cluster1.Namespace, cluster1.PVC) ∈ w1.pvcs) := by
  rw [OpenClusterForTenant_eq_steps] at h
  cases hcl : s.NewClusterClient cluster.Credential cluster.IsControlCluster with
  | some e => rw [hcl] at h; cases h
  | none =>
    rw [hcl] at h
    dsimp only at h
    cases ht : s.getTenant tenantName with
    | error e => rw [ht] at h; cases h
    | ok t =>
      rw [ht] at h
      dsimp only at h
      obtain ⟨h1, h2, h3, h4, h5⟩ := openNamespace_ok s w t cluster cluster1 w1 h
      refine ⟨t, rfl, h1, h2, h3, h4, ?_, h5⟩
      intro hn hp
      constructor
      · by_cases h0 : cluster.Namespace = ""
        · rw [h2 h0]; exact hn _
        · rw [h1 h0]; exact h0
      · by_cases h0 : cluster.PVC = ""
        · rw [h4 h0]; exact hp _
        · rw [h3 h0]; exact h0

/-- Claim C22 at tenant `devs` and a cluster source without namespace and
PVC: both are filled in with the names derived from the tenant, and the
namespace, the quota and the PVC exist afterwards. -/
theorem OpenClusterForTenant_fills_source_witness :
    ∃ tenant, (clusterServer (fun _ => none)).getTenant "devs" = .ok tenant ∧
      (askedSource.Namespace ≠ "" → filledSource.Namespace = askedSource.Namespace) ∧
      (askedSource.Namespace = "" →
        filledSource.Namespace = (clusterServer (fun _ => none)).TenantNamespace tenant.Name) ∧
      (askedSource.PVC ≠ "" → filledSource.PVC = askedSource.PVC) ∧
      (askedSource.PVC = "" →
        filledSource.PVC = (clusterServer (fun _ => none)).TenantPVC tenant.Name) ∧
      ((∀ t, (clusterServer (fun _ => none)).TenantNamespace t ≠ "") →
        (∀ t, (clusterServer (fun _ => none)).TenantPVC t ≠ "") →
        filledSource.Namespace ≠ "" ∧ filledSource.PVC ≠ "") ∧
      (FaultsAreNotAlreadyExists (clusterServer (fun _ => none)) →
        filledSource.Namespace ∈ (openedWorld 3).namespaces ∧
        (filledSource.Namespace, tenant.Name) ∈ (openedWorld 3).quotas ∧
        (filledSource.Namespace, filledSource.PVC) ∈ (openedWorld 3).pvcs) :=
  OpenClusterForTenant_fills_source (clusterServer (fun _ => none)) idleWorld askedSource "devs"
    filledSource (openedWorld 3) rfl


theorem apiCall_pvcs {α : Type} (s : ServerDeps) (w : World) (run : Except ApiError α × World)
    (h : run.2.pvcs = w.pvcs) : (apiCall s w run).2.pvcs = w.pvcs := by
  unfold apiCall
  cases s.fault w.tick with
  | none => exact h
  | some e => rfl

theorem apiCall_namespaces {α : Type} (s : ServerDeps) (w : World)
    (run : Except ApiError α × World) (h : run.2.namespaces = w.namespaces) :
    (apiCall s w run).2.namespaces = w.namespaces := by
  unfold apiCall
  cases s.fault w.tick with
  | none => exact h
  | some e => rfl

theorem namespacesGet_frame (s : ServerDeps) (w : World) (name : String) :
    (namespacesGet s w name).2.pvcs = w.pvcs ∧
    (namespacesGet s w name).2.namespaces = w.namespaces := by
  unfold namespacesGet
  exact ⟨apiCall_pvcs s w _ (by split <;> rfl), apiCall_namespaces s w _ (by split <;> rfl)⟩

theorem CreateNamespace_pvcs (s : ServerDeps) (w : World) (name : String) :
    (CreateNamespace s w name).2.pvcs = w.pvcs := by
  unfold CreateNamespace
  exact apiCall_pvcs s w _ (by split <;> rfl)

theorem CreateResourceQuota_frame (s : ServerDeps) (w : World) (t : Tenant) (ns : String) :
    (CreateResourceQuota s w t ns).2.pvcs = w.pvcs ∧
    (CreateResourceQuota s w t ns).2.namespaces = w.namespaces := by
  unfold CreateResourceQuota
  refine ⟨apiCall_pvcs s w _ ?_, apiCall_namespaces s w _ ?_⟩
  · split
    · rfl
    · split <;> rfl
  · split
    · rfl
    · split <;> rfl

theorem pvcGet_frame (s : ServerDeps) (w : World) (ns name : String) :
    (pvcGet s w ns name).2.pvcs = w.pvcs ∧ (pvcGet s w ns name).2.namespaces = w.namespaces := by
  unfold pvcGet
  exact ⟨apiCall_pvcs s w _ (by split <;> rfl), apiCall_namespaces s w _ (by split <;> rfl)⟩

theorem CreatePVC_namespaces (s : ServerDeps) (w : World) (tn sc sz ns : String) :
    (CreatePVC s w tn sc sz ns).2.namespaces = w.namespaces := by
  unfold CreatePVC
  refine apiCall_namespaces s w _ ?_
  split
  · rfl
  · split <;> rfl

/-- A failed `Namespaces().Get` or one for a namespace that is not there: an error. -/
theorem namespacesGet_absent (s : ServerDeps) (w : World) (ns : String)
    (h : ns ∉ w.namespaces) : ∃ e, namespacesGet s w ns = (.error e, w.called) := by
  unfold namespacesGet apiCall
  cases s.fault w.tick with
  | some e => exact ⟨e, rfl⟩
  | none => rw [if_neg h]; exact ⟨.NotFound, rfl⟩

/-- A `PersistentVolumeClaims(ns).Get` for a PVC that is not there: an error. -/
theorem pvcGet_absent (s : ServerDeps) (w : World) (ns name : String)
    (h : (ns, name) ∉ w.pvcs) : ∃ e, pvcGet s w ns name = (.error e, w.called) := by
  unfold pvcGet apiCall
  cases s.fault w.tick with
  | some e => exact ⟨e, rfl⟩
  | none => rw [if_neg h]; exact ⟨.NotFound, rfl⟩

theorem openPVC_frame (s : ServerDeps) (w : World) (t : Tenant) (c : ClusterSource) :
    (openPVC s w t c).2.namespaces = w.namespaces ∧
    (c.PVC ≠ "" → (openPVC s w t c).2.pvcs = w.pvcs) := by
  unfold openPVC
  by_cases hp : c.PVC ≠ ""
  · rw [if_pos hp]
    have hf := pvcGet_frame s w c.Namespace c.PVC
    rcases hg : pvcGet s w c.Namespace c.PVC with ⟨r | u, w2⟩
    · rw [hg] at hf; exact ⟨hf.2, fun _ => hf.1⟩
    · rw [hg] at hf; exact ⟨hf.2, fun _ => hf.1⟩
  · rw [if_neg hp]
    dsimp only
    have hf := CreatePVC_namespaces s w t.Name t.StorageClass
      (if t.Size = "" then s.DefaultPVCSize else t.Size) c.Namespace
    rcases hc : CreatePVC s w t.Name t.StorageClass
      (if t.Size = "" then s.DefaultPVCSize else t.Size) c.Namespace with ⟨r, w2⟩
    rw [hc] at hf
    dsimp only
    cases exceptAlreadyExists r with
    | some e => exact ⟨hf, fun h0 => absurd h0 hp⟩
    | none => exact ⟨hf, fun h0 => absurd h0 hp⟩

theorem openQuota_frame (s : ServerDeps) (w : World) (t : Tenant) (c : ClusterSource) :
    (openQuota s w t c).2.namespaces = w.namespaces ∧
    (c.PVC ≠ "" → (openQuota s w t c).2.pvcs = w.pvcs) := by
  unfold openQuota
  have hf := CreateResourceQuota_frame s w t c.Namespace
  rcases hc : CreateResourceQuota s w t c.Namespace with ⟨r, w2⟩
  rw [hc] at hf
  dsimp only
  cases exceptAlreadyExists r with
  | some e => exact ⟨hf.2, fun _ => hf.1⟩
  | none =>
    dsimp only
    have hp := openPVC_frame s w2 t c
    exact ⟨hp.1.trans hf.2, fun h0 => (hp.2 h0).trans hf.1⟩

theorem openNamespace_frame (s : ServerDeps) (w : World) (t : Tenant) (c : ClusterSource) :
    (c.Namespace ≠ "" → (openNamespace s w t c).2.namespaces = w.namespaces) ∧
    (c.PVC ≠ "" → (openNamespace s w t c).2.pvcs = w.pvcs) := by
  unfold openNamespace
  by_cases hns : c.Namespace ≠ ""
  · rw [if_pos hns]
    have hf := namespacesGet_frame s w c.Namespace
    rcases hg : namespacesGet s w c.Namespace with ⟨r | u, w2⟩
    · rw [hg] at hf; exact ⟨fun _ => hf.2, fun _ => hf.1⟩
    · rw [hg] at hf
      dsimp only
      have hq := openQuota_frame s w2 t c
      exact ⟨fun _ => hq.1.trans hf.2, fun h0 => (hq.2 h0).trans hf.1⟩
  · rw [if_neg hns]
    have hf := CreateNamespace_pvcs s w (s.TenantNamespace t.Name)
    rcases hc : CreateNamespace s w (s.TenantNamespace t.Name) with ⟨r, w2⟩
    rw [hc] at hf
    dsimp only
    cases exceptAlreadyExists r with
    | some e => exact ⟨fun h0 => absurd h0 hns, fun _ => hf⟩
    | none =>
      dsimp only
      have hq := openQuota_frame s w2 t { c with Namespace := s.TenantNamespace t.Name }
      exact ⟨fun h0 => absurd h0 hns, fun h0 => (hq.2 h0).trans hf⟩

/-- With a PVC given that is in no namespace, the last step fails and creates none. -/
theorem openPVC_absent (s : ServerDeps) (w : World) (t : Tenant) (c : ClusterSource)
    (hp : c.PVC ≠ "") (h : (c.Namespace, c.PVC) ∉ w.pvcs) :
    ∃ e, openPVC s w t c = (.error (.api e), w.called) := by
  unfold openPVC
  rw [if_pos hp]
  obtain ⟨e, he⟩ := pvcGet_absent s w _ _ h
  rw [he]
  exact ⟨e, rfl⟩

theorem openQuota_absent (s : ServerDeps) (w : World) (t : Tenant) (c : ClusterSource)
    (hp : c.PVC ≠ "") (h : ∀ ns, (ns, c.PVC) ∉ w.pvcs) :
    ∃ e, (openQuota s w t c).1 = .error e := by
  unfold openQuota
  have hf := CreateResourceQuota_frame s w t c.Namespace
  rcases hc : CreateResourceQuota s w t c.Namespace with ⟨r, w2⟩
  rw [hc] at hf
  dsimp only
  cases exceptAlreadyExists r with
  | some e => exact ⟨_, rfl⟩
  | none =>
    dsimp only
    obtain ⟨e, he⟩ := openPVC_absent s w2 t c hp (by rw [hf.1]; exact h _)
    rw [he]
    exact ⟨_, rfl⟩

theorem openNamespace_absent (s : ServerDeps) (w : World) (t : Tenant) (c : ClusterSource) :
    (c.Namespace ≠ "" → c.Namespace ∉ w.namespaces →
      ∃ e, openNamespace s w t c = (.error (.api e), w.called)) ∧
    (c.PVC ≠ "" → (∀ ns, (ns, c.PVC) ∉ w.pvcs) → ∃ e, (openNamespace s w t c).1 = .error e) := by
  constructor
  · intro hns h
    unfold openNamespace
    rw [if_pos hns]
    obtain ⟨e, he⟩ := namespacesGet_absent s w _ h
    rw [he]
    exact ⟨e, rfl⟩
  · intro hp h
    unfold openNamespace
    by_cases hns : c.Namespace ≠ ""
    · rw [if_pos hns]
      have hf := namespacesGet_frame s w c.Namespace
      rcases hg : namespacesGet s w c.Namespace with ⟨r | u, w2⟩
      · exact ⟨_, rfl⟩
      · rw [hg] at hf
        dsimp only
        exact openQuota_absent s w2 t c hp (by rw [hf.1]; exact h)
    · rw [if_neg hns]
      have hf := CreateNamespace_pvcs s w (s.TenantNamespace t.Name)
      rcases hc : CreateNamespace s w (s.TenantNamespace t.Name) with ⟨r, w2⟩
      rw [hc] at hf
      dsimp only
      cases exceptAlreadyExists r with
      | some e => exact ⟨_, rfl⟩
      | none =>
        dsimp only
        exact openQuota_absent s w2 t { c with Namespace := s.TenantNamespace t.Name } hp
          (by rw [hf]; exact h)


/-- Claim C23. `OpenClusterForTenant` runs, once the cluster client and the
tenant are there, the namespace step, the quota step and the PVC step. In
each of the three creations an outcome `AlreadyExists` counts like success:
the next step runs in the world the creation left (after the PVC creation,
the function returns the filled source); every other error of a creation is
returned to the caller. A namespace given in the cluster source that does not
exist makes the function fail at once, and a PVC given that does not exist
makes it fail; a given namespace is never created and, with a given PVC, no
PVC is ever created. -/
theorem OpenClusterForTenant_tolerates_already_exists (s : ServerDeps) :
    (∀ w cluster tenantName tenant,
      s.NewClusterClient cluster.Credential cluster.IsControlCluster = none →
      s.getTenant tenantName = .ok tenant →
      OpenClusterForTenant s w cluster tenantName = openNamespace s w tenant cluster) ∧
    (∀ w t c r w1, c.Namespace = "" → CreateNamespace s w (s.TenantNamespace t.Name) = (r, w1) →
      (r = .ok () ∨ r = .error .AlreadyExists →
        openNamespace s w t c =
          openQuota s w1 t { c with Namespace := s.TenantNamespace t.Name }) ∧
      (∀ e, r = .error e → e ≠ .AlreadyExists →
        openNamespace s w t c = (.error (.api e), w1))) ∧
    (∀ w t c r w1, CreateResourceQuota s w t c.Namespace = (r, w1) →
      (r = .ok () ∨ r = .error .AlreadyExists → openQuota s w t c = openPVC s w1 t c) ∧
      (∀ e, r = .error e → e ≠ .AlreadyExists → openQuota s w t c = (.error (.api e), w1))) ∧
    (∀ w t c r w1, c.PVC = "" →
      CreatePVC s w t.Name t.StorageClass (if t.Size = "" then s.DefaultPVCSize else t.Size)
        c.Namespace = (r, w1) →
      (r = .ok () ∨ r = .error .AlreadyExists →
        openPVC s w t c = (.ok { c with PVC := s.TenantPVC t.Name }, w1)) ∧
      (∀ e, r = .error e → e ≠ .AlreadyExists → openPVC s w t c = (.error (.api e), w1))) ∧
    (∀ w t c, c.Namespace ≠ "" → c.Namespace ∉ w.namespaces →
      ∃ e, openNamespace s w t c = (.error (.api e), w.called)) ∧
    (∀ w t c, c.PVC ≠ "" → (c.Namespace, c.PVC) ∉ w.pvcs →
      ∃ e, openPVC s w t c = (.error (.api e), w.called)) ∧
    (∀ w cluster tenantName, cluster.Namespace ≠ "" →
      (OpenClusterForTenant s w cluster tenantName).2.namespaces = w.namespaces ∧
      (cluster.Namespace ∉ w.namespaces →
        ∃ e, (OpenClusterForTenant s w cluster tenantName).1 = .error e)) ∧
    (∀ w cluster tenantName, cluster.PVC ≠ "" →
      (OpenClusterForTenant s w cluster tenantName).2.pvcs = w.pvcs ∧
      ((∀ ns, (ns, cluster.PVC) ∉ w.pvcs) →
        ∃ e, (OpenClusterForTenant s w cluster tenantName).1 = .error e)) := by
  have hex : ∀ r : Except ApiError Unit, r = .ok () ∨ r = .error .AlreadyExists →
      exceptAlreadyExists r = none := by
    intro r hr
    rcases hr with hr | hr <;> rw [hr] <;> simp [exceptAlreadyExists]
  have hne : ∀ e : ApiError, e ≠ .AlreadyExists →
      exceptAlreadyExists (.error e) = some e := by
    intro e he
    simp [exceptAlreadyExists, he]
  refine ⟨?_, ?_, ?_, ?_, ?_, ?_, ?_, ?_⟩
  · intro w cluster tenantName tenant hcl ht
    rw [OpenClusterForTenant_eq_steps, hcl]
    dsimp only
    rw [ht]
  · intro w t c r w1 hns hc
    have hn : ¬ c.Namespace ≠ "" := fun h => h hns
    constructor
    · intro hr
      unfold openNamespace
      rw [if_neg hn, hc]
      dsimp only
      rw [hex r hr]
    · intro e hr he
      unfold openNamespace
      rw [if_neg hn, hc]
      dsimp only
      rw [hr, hne e he]
  · intro w t c r w1 hc
    constructor
    · intro hr
      unfold openQuota
      rw [hc]
      dsimp only
      rw [hex r hr]
    · intro e hr he
      unfold openQuota
      rw [hc]
      dsimp only
      rw [hr, hne e he]
  · intro w t c r w1 hp hc
    have hn : ¬ c.PVC ≠ "" := fun h => h hp
    constructor
    · intro hr
      unfold openPVC
      rw [if_neg hn]
      dsimp only
      rw [hc]
      dsimp only
      rw [hex r hr]
    · intro e hr he
      unfold openPVC
      rw [if_neg hn]
      dsimp only
      rw [hc]
      dsimp only
      rw [hr, hne e he]
  · intro w t c hns h
    exact (openNamespace_absent s w t c).1 hns h
  · intro w t c hp h
    exact openPVC_absent s w t c hp h
  · intro w cluster tenantName hns
    rw [OpenClusterForTenant_eq_steps]
    cases s.NewClusterClient cluster.Credential cluster.IsControlCluster with
    | some e => exact ⟨rfl, fun _ => ⟨_, rfl⟩⟩
    | none =>
      dsimp only
      cases s.getTenant tenantName with
      | error e => exact ⟨rfl, fun _ => ⟨_, rfl⟩⟩
      | ok t =>
        dsimp only
        refine ⟨(openNamespace_frame s w t cluster).1 hns, fun h => ?_⟩
        obtain ⟨e, he⟩ := (openNamespace_absent s w t cluster).1 hns h
        rw [he]
        exact ⟨_, rfl⟩
  · intro w cluster tenantName hp
    rw [OpenClusterForTenant_eq_steps]
    cases s.NewClusterClient cluster.Credential cluster.IsControlCluster with
    | some e => exact ⟨rfl, fun _ => ⟨_, rfl⟩⟩
    | none =>
      dsimp only
      cases s.getTenant tenantName with
      | error e => exact ⟨rfl, fun _ => ⟨_, rfl⟩⟩
      | ok t =>
        dsimp only
        exact ⟨(openNamespace_frame s w t cluster).2 hp,
          fun h => (openNamespace_absent s w t cluster).2 hp h⟩


/-! ## Closing a cluster -/

/-- Claim C24, amended. `CloseClusterForTenant` hands every error of its
deletions to the caller, `NotFound` like any other: the error of the
namespace deletion, and the error of the PVC deletion where that runs (a
namespace not derived from the tenant, a PVC derived from it). In particular
with the namespace already gone and no fault the result is `NotFound`. It
succeeds when the namespace deletion succeeds, for a namespace derived from
the tenant or a PVC not derived from it. -/
theorem CloseClusterForTenant_returns_deletion_errors (s : ServerDeps) (w : World)
    (cluster : ClusterSource) (tenant : String)
    (hcl : s.NewClusterClient cluster.Credential cluster.IsControlCluster = none) :
    (∀ e w1, namespacesDelete s w cluster.Namespace = (.error e, w1) →
      CloseClusterForTenant s w cluster tenant = (.error (.api e), w1)) ∧
    (∀ u w1 e w2, namespacesDelete s w cluster.Namespace = (.ok u, w1) →
      cluster.Namespace ≠ s.TenantNamespace tenant → cluster.PVC = s.TenantPVC tenant →
      pvcDelete s w1 cluster.Namespace cluster.PVC = (.error e, w2) →
      CloseClusterForTenant s w cluster tenant = (.error (.api e), w2)) ∧
    (cluster.Namespace ∉ w.namespaces → s.fault w.tick = none →
      CloseClusterForTenant s w cluster tenant = (.error (.api .NotFound), w.called)) ∧
    (∀ u w1, namespacesDelete s w cluster.Namespace = (.ok u, w1) →
      cluster.Namespace = s.TenantNamespace tenant ∨ cluster.PVC ≠ s.TenantPVC tenant →
      CloseClusterForTenant s w cluster tenant = (.ok (), w1)) := by
  refine ⟨?_, ?_, ?_, ?_⟩
  · intro e w1 hd
    unfold CloseClusterForTenant
    rw [hcl]
    dsimp only
    split <;> rw [hd]
  · intro u w1 e w2 hd hns hp hpd
    unfold CloseClusterForTenant
    rw [hcl]
    dsimp only
    rw [if_neg hns, hd]
    dsimp only
    rw [if_pos hp, hpd]
  · intro hns hf
    have hd : namespacesDelete s w cluster.Namespace = (.error .NotFound, w.called) := by
      unfold namespacesDelete apiCall
      rw [hf, if_neg hns]
    unfold CloseClusterForTenant
    rw [hcl]
    dsimp only
    split <;> rw [hd]
  · intro u w1 hd hor
    unfold CloseClusterForTenant
    rw [hcl]
    dsimp only
    by_cases hns : cluster.Namespace = s.TenantNamespace tenant
    · rw [if_pos hns, hd]
    · rw [if_neg hns, hd]
      dsimp only
      rcases hor with h | h
      · exact absurd h hns
      · rw [if_neg h]

/-- Claim C24, amended, at tenant `devs` with the worker cluster of
`workerWorld` closed once: the namespace is gone, and closing again is the
`NotFound` of the namespace deletion. -/
theorem CloseClusterForTenant_returns_deletion_errors_witness :
    CloseClusterForTenant (clusterServer (fun _ => none)) (closedWorld 1) filledSource "devs" =
      (.error (.api .NotFound), (closedWorld 1).called) :=
  (CloseClusterForTenant_returns_deletion_errors (clusterServer (fun _ => none)) (closedWorld 1)
    filledSource "devs" rfl).2.2.1 (by decide) rfl

/-- Counterexample to C24 as stated: tenant `devs` with the worker cluster of
`workerWorld`. The first `CloseClusterForTenant` succeeds and deletes the
namespace; the second, on the world the first left, finds the namespace
absent, the deletion reports `NotFound`, and `CloseClusterForTenant` returns
that error instead of success. -/
theorem CloseClusterForTenant_twice_not_found :
    CloseClusterForTenant (clusterServer (fun _ => none)) workerWorld filledSource "devs" =
      (.ok (), closedWorld 1) ∧
    namespacesDelete (clusterServer (fun _ => none)) (closedWorld 1) filledSource.Namespace =
      (.error .NotFound, closedWorld 2) ∧
    CloseClusterForTenant (clusterServer (fun _ => none)) (closedWorld 1) filledSource "devs" =
      (.error (.api .NotFound), closedWorld 2) :=
  ⟨rfl, rfl, rfl⟩

/-! ## The round trip through a secret -/

/-- Claim C21. For an integration whose spec `json.Marshal` encodes to a text
that `json.Unmarshal` decodes back to the same spec, `buildSecret` succeeds,
and `SecretToIntegration` applied to its secret succeeds and returns an
integration with that spec, under the name `SecretIntegration` makes of the
secret name. -/
theorem SecretToIntegration_buildSecret (s : ServerDeps) (tenant : String) (x : Integration)
    (text : String) (hm : s.jsonMarshalSpec x.Spec = .ok text)
    (hu : s.jsonUnmarshalSpec text = (x.Spec, none)) :
    ∃ secret, buildSecret s tenant x = .ok secret ∧
      (SecretToIntegration s secret).2 = none ∧
      (SecretToIntegration s secret).1.Spec = x.Spec ∧
      (SecretToIntegration s secret).1.ObjectMeta.Name =
        s.SecretIntegration (s.IntegrationSecret x.ObjectMeta.Name) ∧
      mapGet secret.Data s.SecretKeyIntegration = some text := by
  have hb : buildSecret s tenant x = .ok
      { ObjectMeta :=
          { x.ObjectMeta with
            Name := s.IntegrationSecret x.ObjectMeta.Name
            Labels := some (secretLabels s x) }
        Data := mapSet [] s.SecretKeyIntegration text } := by
    unfold buildSecret
    rw [hm]
  have hk : mapGet (mapSet [] s.SecretKeyIntegration text) s.SecretKeyIntegration = some text :=
    mapGet_mapSet_same _ _ _
  refine ⟨_, hb, ?_, ?_, rfl, hk⟩
  · unfold SecretToIntegration
    dsimp only
    rw [hk, Option.getD_some, hu]
  · unfold SecretToIntegration
    dsimp only
    rw [hk, Option.getD_some, hu]

/-- Claim C21 at the worker cluster integration `c1` of tenant `devs`. -/
theorem SecretToIntegration_buildSecret_witness :
    ∃ secret,
      buildSecret (clusterServer (fun _ => none)) "devs"
        (clusterRequest (clusterSpec true "cyclone--devs" "cyclone-pvc-devs")) = .ok secret ∧
      (SecretToIntegration (clusterServer (fun _ => none)) secret).2 = none ∧
      (SecretToIntegration (clusterServer (fun _ => none)) secret).1.Spec =
        clusterSpec true "cyclone--devs" "cyclone-pvc-devs" ∧
      (SecretToIntegration (clusterServer (fun _ => none)) secret).1.ObjectMeta.Name = "c1" ∧
      mapGet secret.Data "integration" = some "worker" :=
  SecretToIntegration_buildSecret (clusterServer (fun _ => none)) "devs"
    (clusterRequest (clusterSpec true "cyclone--devs" "cyclone-pvc-devs")) "worker" rfl rfl

/-! ## The prior record of an update -/

/-- Claim C28. `UpdateIntegration` with a new integration of type Cluster
that has a cluster source, when the prior record is fetched and decodes to an
integration without a cluster source: reading the worker flag of the prior
record (line 278) dereferences the missing cluster source, a run-time fault;
neither a result nor an error is returned, and nothing is written. -/
theorem UpdateIntegration_prior_without_cluster_source (s : ServerDeps) (w : World)
    (tenant name : String) (inp : Integration) (cluster : ClusterSource) (oldIn : Integration)
    (htype : inp.Spec.IntegrationType = s.ClusterType)
    (hc : inp.Spec.Cluster = some cluster)
    (hold : (getIntegration s w tenant name).1 = .ok oldIn)
    (holdc : oldIn.Spec.Cluster = none) :
    UpdateIntegration s w tenant name inp =
      (.error (.crash "nil pointer dereference"), w.called) ∧
    w.called.secrets = w.secrets ∧ SameCluster w w.called := by
  have hg : getIntegration s w tenant name = (.ok oldIn, w.called) := by
    rw [← getIntegration_world s w tenant name, ← hold]
  refine ⟨?_, rfl, rfl, rfl, rfl⟩
  unfold UpdateIntegration
  rw [if_pos htype, hc]
  dsimp only
  rw [hg]
  dsimp only
  rw [holdc]

/-- The failing input of C28: tenant `devs` has the integration `c1` stored
as an SCM integration, which decodes without error and has no cluster source;
`c1` is updated with a worker cluster integration. The same happens with a
prior record of type Cluster that has no cluster source. -/
theorem UpdateIntegration_prior_without_cluster_source_witness :
    (getIntegration mixedServer scmWorld "devs" "c1").1 =
      .ok { ObjectMeta :=
              { Name := "c1", Labels := some [("cyclone.dev/integration-type", "SCM")]
                Annotations := none, Rest := "" }
            Spec := scmSpec } ∧
    (UpdateIntegration mixedServer scmWorld "devs" "c1" (clusterRequest (clusterSpec true "" "")) =
        (.error (.crash "nil pointer dereference"), scmWorld.called) ∧
      scmWorld.called.secrets = scmWorld.secrets ∧ SameCluster scmWorld scmWorld.called) ∧
    (UpdateIntegration (clusterServer (fun _ => none))
        (worldOf [storedSecret "c1" [("cyclone.dev/integration-type", "Cluster")] "bare"])
        "devs" "c1" (clusterRequest (clusterSpec true "" ""))).1 =
      .error (.crash "nil pointer dereference") :=
  ⟨rfl,
   UpdateIntegration_prior_without_cluster_source mixedServer scmWorld "devs" "c1"
     (clusterRequest (clusterSpec true "" "")) _ _ rfl rfl rfl rfl,
   rfl⟩


/-! ## The decoding error in `ResolveArguments` -/

/-- Claim C25. When `json.Unmarshal` fails on the templated pod spec text
(after the parameters were collected, the template encoded and rendered),
`ResolveArguments` still succeeds: the error is dropped, and the pod spec of
the builder becomes whatever `json.Unmarshal` left in the spec it was
filling, with the restart policy `Never`. -/
theorem ResolveArguments_drops_decoding_error (d : Deps) (m : PodBuilder) (stg : Stage)
    (sp : StagePod) (parameters : StrMap) (raw rendered : String) (left : PodSpec) (e : String)
    (hstg : m.stg = some stg) (hpod : stg.Pod = some sp)
    (hp : collectParameters m stg sp = .ok parameters)
    (hraw : d.jsonMarshalPodSpec sp.Spec = .ok raw)
    (hr : d.mustacheRender raw parameters = .ok rendered)
    (hu : d.jsonUnmarshalPodSpec rendered = (left, some e)) :
    ResolveArguments d m = .ok (m.withSpec { left with RestartPolicy := "Never" }) := by
  rw [ResolveArguments_eq d m stg sp hstg hpod, hp]
  dsimp only
  rw [hraw]
  dsimp only
  rw [hr]
  dsimp only
  rw [hu]

/-- The failing input of C25: the stage `build` with the container `main`
and the argument `DIR`, run with `DIR` set to `C:\path`. Decoding the rendered
text fails; `ResolveArguments` succeeds with the empty pod spec, and `Build`
goes on and returns a pod whose only container is the coordinator. -/
theorem ResolveArguments_drops_decoding_error_witness :
    (ResolveArguments escapeDeps { escapeBuilder with stg := some escapeStage } =
      .ok (({ escapeBuilder with stg := some escapeStage } : PodBuilder).withSpec
        { PodSpec.zero with RestartPolicy := "Never" })) ∧
    (Build escapeDeps escapeBuilder).toOption.map
      (fun pod => pod.Spec.Containers.map (fun c => c.Name)) = some ["coordinator"] :=
  ⟨ResolveArguments_drops_decoding_error escapeDeps { escapeBuilder with stg := some escapeStage }
      escapeStage _ [("DIR", "C:\\path")] "spec" "spec" PodSpec.zero
      "invalid character 'p' in string escape code" rfl rfl rfl rfl rfl rfl,
   rfl⟩

/-! ## An artifact source without separator -/

theorem splitSlash_without_separator (source : String) (h : '/' ∉ source.toList) :
    splitSlash source = [source] := by
  unfold splitSlash List.splitOn
  rw [List.splitOnP_eq_single]
  · rfl
  · intro x hx hxe
    have : x = '/' := by simpa using hxe
    rw [this] at hx
    exact h hx

/-- Claim C27. `ResolveInputArtifacts` on a builder with a common PVC, whose
stage is found in the workflow and whose pod has a container: when the source
bound to the first input artifact is not empty and has no `/`, splitting it
gives one part, and reading `parts[1]` (line 466) is out of range, a run-time
fault; the pass returns neither success nor an error. -/
theorem ResolveInputArtifacts_source_without_separator (d : Deps) (m : PodBuilder) (stg : Stage)
    (sp : StagePod) (wfStage : StageItem) (artifact : PathItem) (rest : List PathItem)
    (c : Container) (cs : List Container)
    (hstg : m.stg = some stg) (hpod : stg.Pod = some sp) (hpvc : m.executionContext.PVC ≠ "")
    (hwf : m.wf.Stages.find? (fun s => s.Name = stg.Name) = some wfStage)
    (harts : sp.Inputs.Artifacts = artifact :: rest)
    (hne : artifactSource wfStage.Artifacts artifact.Name ≠ "")
    (hno : '/' ∉ (artifactSource wfStage.Artifacts artifact.Name).toList)
    (hcs : m.pod.Spec.Containers = c :: cs) :
    splitSlash (artifactSource wfStage.Artifacts artifact.Name) =
      [artifactSource wfStage.Artifacts artifact.Name] ∧
    ResolveInputArtifacts d m = .error (.crash "index out of range") := by
  have hsplit := splitSlash_without_separator _ hno
  refine ⟨hsplit, ?_⟩
  unfold ResolveInputArtifacts
  rw [hstg]
  dsimp only
  rw [if_neg (fun h => hpvc h.1), if_neg (fun h => hpvc h.1), hwf]
  dsimp only
  rw [hpod]
  dsimp only
  rw [harts]
  unfold resolveInputArtifactsLoop
  dsimp only
  rw [if_neg hne, hsplit, hcs]
  rfl

/-- The failing input of C27: the stage `test` with the container `main` and
the input artifact `a1`, which the workflow binds to the source `build`; the
common PVC is `pvc-t1`. The pass faults, and so does `Build`. -/
theorem ResolveInputArtifacts_source_without_separator_witness :
    (splitSlash "build" = ["build"] ∧
      ResolveInputArtifacts unsplitDeps unsplitPrepared = .error (.crash "index out of range")) ∧
    Build unsplitDeps unsplitBuilder = .error (.crash "index out of range") :=
  ⟨ResolveInputArtifacts_source_without_separator unsplitDeps unsplitPrepared artifactStage _
      { Name := "test", Artifacts := [⟨"a1", "build"⟩] } ⟨"a1", "/in/out.tar"⟩ []
      (plainContainer "main") [] rfl rfl (by decide) rfl rfl (by decide) (by decide) rfl,
   rfl⟩


/-! ## Mounts and volumes -/

theorem Grows_same (m : PodBuilder) : Grows m m := ⟨fun _ h => h, rfl⟩

theorem Grows_then {m m1 m2 : PodBuilder} (h : Grows m m1) (h1 : Grows m1 m2) : Grows m m2 :=
  ⟨fun _ hx => h1.1 (h.1 hx), h1.2.trans h.2⟩

theorem BaseVolumes_of_grows {d : Deps} {m m1 : PodBuilder} (hb : BaseVolumes d m)
    (hg : Grows m m1) : BaseVolumes d m1 := by
  obtain ⟨h1, h2, h3, h4⟩ := hb
  refine ⟨hg.1 h1, hg.1 h2, fun hp => hg.1 (h3 ?_), fun hs => hg.1 (h4 hs)⟩
  rw [← hg.2]; exact hp

theorem MountsIn_of_subset {names names1 : List String} {c : Container}
    (h : MountsIn names c) (hs : names ⊆ names1) : MountsIn names1 c :=
  fun vm hvm => hs (h vm hvm)

/-- More volumes, the same containers and mapping: the mounts stay backed. -/
theorem MountsBacked_of_grows {m m1 : PodBuilder} (hm : MountsBacked m) (hg : Grows m m1)
    (hc : m1.pod.Spec.Containers = m.pod.Spec.Containers)
    (hi : m1.pod.Spec.InitContainers = m.pod.Spec.InitContainers)
    (hp : m1.pvcVolumes = m.pvcVolumes) : MountsBacked m1 := by
  obtain ⟨h1, h2, h3⟩ := hm
  refine ⟨?_, ?_, ?_⟩
  · intro c hcm
    rw [hc] at hcm
    exact MountsIn_of_subset (h1 c hcm) hg.1
  · intro c hcm
    rw [hi] at hcm
    exact MountsIn_of_subset (h2 c hcm) hg.1
  · intro p n hpn
    rw [hp] at hpn
    exact hg.1 (h3 p n hpn)

theorem volumeNames_appendVolume (m : PodBuilder) (v : Volume) :
    volumeNames (m.appendVolume v) = volumeNames m ++ [v.Name] := by
  simp [volumeNames, PodBuilder.appendVolume, PodBuilder.withSpec]

theorem appendVolume_grows (m : PodBuilder) (v : Volume) : Grows m (m.appendVolume v) := by
  refine ⟨?_, rfl⟩
  rw [volumeNames_appendVolume]
  exact List.subset_append_left _ _

theorem appendVolume_backed (m : PodBuilder) (v : Volume) (hm : MountsBacked m) :
    MountsBacked (m.appendVolume v) ∧ v.Name ∈ volumeNames (m.appendVolume v) := by
  refine ⟨MountsBacked_of_grows hm (appendVolume_grows m v) rfl rfl rfl, ?_⟩
  rw [volumeNames_appendVolume]
  simp

/-- `CreatePVCVolume` returns the name of a volume of the pod and keeps the mounts backed. -/
theorem CreatePVCVolume_backed (m : PodBuilder) (name pvc : String) (hm : MountsBacked m) :
    MountsBacked (CreatePVCVolume m name pvc).2 ∧
    (CreatePVCVolume m name pvc).1 ∈ volumeNames (CreatePVCVolume m name pvc).2 ∧
    Grows m (CreatePVCVolume m name pvc).2 ∧
    (CreatePVCVolume m name pvc).2.pod.Spec.Containers = m.pod.Spec.Containers ∧
    (CreatePVCVolume m name pvc).2.pod.Spec.InitContainers = m.pod.Spec.InitContainers := by
  unfold CreatePVCVolume
  cases hg : mapGet m.pvcVolumes pvc with
  | some volume => exact ⟨hm, hm.2.2 pvc volume hg, Grows_same m, rfl, rfl⟩
  | none =>
    dsimp only
    have ha := appendVolume_backed m { Name := name, VolumeSource := .PersistentVolumeClaim pvc } hm
    have hn : volumeNames
        { m.appendVolume { Name := name, VolumeSource := .PersistentVolumeClaim pvc } with
          pvcVolumes := mapSet m.pvcVolumes pvc name } =
        volumeNames (m.appendVolume { Name := name, VolumeSource := .PersistentVolumeClaim pvc }) :=
      rfl
    refine ⟨⟨?_, ?_, ?_⟩, ?_, ⟨?_, rfl⟩, rfl, rfl⟩
    · intro c hc
      rw [hn]
      exact ha.1.1 c hc
    · intro c hc
      rw [hn]
      exact ha.1.2.1 c hc
    · intro p n hpn
      rw [hn]
      have hpn1 : mapGet (mapSet m.pvcVolumes pvc name) p = some n := hpn
      rw [mapGet_mapSet] at hpn1
      by_cases hp : p = pvc
      · rw [if_pos hp] at hpn1
        injection hpn1 with hpn1
        rw [← hpn1]
        exact ha.2
      · rw [if_neg hp] at hpn1
        exact (appendVolume_grows m _).1 (hm.2.2 p n hpn1)
    · rw [hn]
      exact ha.2
    · rw [hn]
      exact (appendVolume_grows m _).1


/-- After `CreateVolumes` the mounts are still backed and the base volumes are there. -/
theorem CreateVolumes_backed (d : Deps) (m m1 : PodBuilder) (h : CreateVolumes d m = .ok m1)
    (hm : MountsBacked m) : MountsBacked m1 ∧ BaseVolumes d m1 := by
  unfold CreateVolumes at h
  simp only [bind_eq_ok, bind, Except.bind, pure, Except.pure] at h
  have k0 := appendVolume_backed m
    { Name := d.CoordinatorSidecarVolumeName, VolumeSource := .EmptyDir } hm
  have e0 : (m.appendVolume
      { Name := d.CoordinatorSidecarVolumeName, VolumeSource := .EmptyDir }).executionContext =
      m.executionContext := rfl
  generalize m.appendVolume
    { Name := d.CoordinatorSidecarVolumeName, VolumeSource := .EmptyDir } = m0 at h k0 e0
  have step : ∀ ma : PodBuilder, MountsBacked ma →
      d.CoordinatorSidecarVolumeName ∈ volumeNames ma →
      (ma.executionContext.PVC ≠ "" → d.DefaultPvVolumeName ∈ volumeNames ma) →
      (if d.ConfigSecret ≠ "" then
          (ma.appendVolume
              { Name := d.DockerSockVolume
                VolumeSource := .HostPath d.DockerSockPath "Socket" }).appendVolume
            { Name := d.DockerConfigJSONVolume
              VolumeSource :=
                .Secret d.ConfigSecret [(d.DockerConfigJSONFile, d.DockerConfigJSONFile)] }
        else
          ma.appendVolume
            { Name := d.DockerSockVolume, VolumeSource := .HostPath d.DockerSockPath "Socket" })
        = m1 → MountsBacked m1 ∧ BaseVolumes d m1 := by
    intro ma ka hco hpv hb
    have k1 := appendVolume_backed ma
      { Name := d.DockerSockVolume, VolumeSource := .HostPath d.DockerSockPath "Socket" } ka
    have g1 := appendVolume_grows ma
      { Name := d.DockerSockVolume, VolumeSource := .HostPath d.DockerSockPath "Socket" }
    by_cases hs : d.ConfigSecret = ""
    · simp only [hs, ne_eq, not_true_eq_false, if_false] at hb
      subst hb
      exact ⟨k1.1, g1.1 hco, k1.2, fun hp => g1.1 (hpv hp), fun h0 => absurd hs h0⟩
    · simp only [hs, ne_eq, not_false_eq_true, if_true] at hb
      subst hb
      have k2 := appendVolume_backed _
        { Name := d.DockerConfigJSONVolume
          VolumeSource :=
            .Secret d.ConfigSecret [(d.DockerConfigJSONFile, d.DockerConfigJSONFile)] } k1.1
      have g2 := appendVolume_grows
        (ma.appendVolume
          { Name := d.DockerSockVolume, VolumeSource := .HostPath d.DockerSockPath "Socket" })
        { Name := d.DockerConfigJSONVolume
          VolumeSource :=
            .Secret d.ConfigSecret [(d.DockerConfigJSONFile, d.DockerConfigJSONFile)] }
      exact ⟨k2.1, g2.1 (g1.1 hco), g2.1 k1.2, fun hp => g2.1 (g1.1 (hpv hp)), fun _ => k2.2⟩
  by_cases hp : m0.executionContext.PVC = ""
  · simp only [hp, ne_eq, not_true_eq_false, if_false, Except.ok.injEq] at h
    exact step m0 k0.1 k0.2 (fun h0 => absurd hp h0) h
  · simp only [hp, ne_eq, not_false_eq_true, if_true] at h
    have cc := CreatePVCVolume_backed m0 d.DefaultPvVolumeName m0.executionContext.PVC k0.1
    generalize CreatePVCVolume m0 d.DefaultPvVolumeName m0.executionContext.PVC = res at h cc
    obtain ⟨n, mc⟩ := res
    simp only at h cc
    by_cases hn : n = d.DefaultPvVolumeName
    · simp only [hn, not_true_eq_false, if_false, Except.ok.injEq] at h
      obtain ⟨c1, c2, c3, _, _⟩ := cc
      rw [hn] at c2
      exact step mc c1 (c3.1 k0.2) (fun _ => c2) h
    · simp [hn] at h


theorem inputResourceVolume_backed (d : Deps) (m : PodBuilder) (r : PathItem)
    (resource : Resource) (hm : MountsBacked m) (hb : BaseVolumes d m) :
    MountsBacked (inputResourceVolume d m r resource).2.2 ∧
    (inputResourceVolume d m r resource).1 ∈ volumeNames (inputResourceVolume d m r resource).2.2 ∧
    Grows m (inputResourceVolume d m r resource).2.2 ∧
    (inputResourceVolume d m r resource).2.2.pod.Spec.Containers = m.pod.Spec.Containers ∧
    (inputResourceVolume d m r resource).2.2.pod.Spec.InitContainers =
      m.pod.Spec.InitContainers := by
  unfold inputResourceVolume
  cases resource.Persistent with
  | some persistent => exact CreatePVCVolume_backed m _ _ hm
  | none =>
    dsimp only
    by_cases hp : m.executionContext.PVC = ""
    · rw [if_pos hp]
      have ha := appendVolume_backed m
        { Name := d.GetResourceVolumeName resource.Name, VolumeSource := .EmptyDir } hm
      exact ⟨ha.1, ha.2, appendVolume_grows m _, rfl, rfl⟩
    · rw [if_neg hp]
      exact ⟨hm, hb.2.2.1 hp, Grows_same m, rfl, rfl⟩

theorem mountInputResource_mounts (d : Deps) (names : List String) (volumeName subPath : String)
    (r : PathItem) (c : Container) (hc : MountsIn names c) (hv : volumeName ∈ names) :
    MountsIn names (mountInputResource d volumeName subPath r c) := by
  unfold mountInputResource
  dsimp only
  split
  · intro vm hvm
    rcases List.mem_append.mp hvm with h | h
    · exact hc vm h
    · rw [List.mem_singleton] at h
      rw [h]
      exact hv
  · exact hc

theorem resolveInputResource_backed (d : Deps) (m : PodBuilder) (index : Nat) (r : PathItem)
    (m1 : PodBuilder) (h : resolveInputResource d m index r = .ok m1)
    (hm : MountsBacked m) (hb : BaseVolumes d m) : MountsBacked m1 ∧ BaseVolumes d m1 := by
  unfold resolveInputResource at h
  cases hg : d.getResource m.wfr.Namespace r.Name with
  | error e => simp [hg] at h
  | ok resource =>
    rw [hg] at h
    simp only at h
    cases he : resolveEnvs d
        (resourceEnvsMap m r.Name resource [(d.EnvWorkflowrunName, m.wfr.Name)]) with
    | error e => simp [he] at h
    | ok envs =>
      rw [he] at h
      simp only [Except.ok.injEq] at h
      have k := inputResourceVolume_backed d m r resource hm hb
      generalize inputResourceVolume d m r resource = res at h k
      obtain ⟨volumeName, subPath, m0⟩ := res
      simp only at h k
      obtain ⟨k1, k2, k3, _, _⟩ := k
      subst h
      refine ⟨⟨?_, ?_, k1.2.2⟩, BaseVolumes_of_grows hb k3⟩
      · intro c hc
        have hc1 : c ∈ m0.pod.Spec.Containers.map (mountInputResource d volumeName subPath r) := hc
        obtain ⟨c0, hc0, hce⟩ := List.mem_map.mp hc1
        rw [← hce]
        exact mountInputResource_mounts d _ _ _ _ _ (k1.1 c0 hc0) k2
      · intro c hc
        have hc1 : c ∈ m0.pod.Spec.InitContainers ++
            [inputContainer d index (resolverImage d resource) envs volumeName subPath] := hc
        rcases List.mem_append.mp hc1 with h0 | h0
        · exact k1.2.1 c h0
        · rw [List.mem_singleton] at h0
          rw [h0]
          intro vm hvm
          simp only [inputContainer, List.mem_singleton] at hvm
          rw [hvm]
          exact k2

theorem resolveInputResourcesFrom_backed (d : Deps) (index : Nat) (rs : List PathItem)
    (m m1 : PodBuilder) (h : resolveInputResourcesFrom d index rs m = .ok m1)
    (hm : MountsBacked m) (hb : BaseVolumes d m) : MountsBacked m1 ∧ BaseVolumes d m1 := by
  induction rs generalizing index m with
  | nil =>
    simp only [resolveInputResourcesFrom, Except.ok.injEq] at h
    subst h
    exact ⟨hm, hb⟩
  | cons r rest ih =>
    unfold resolveInputResourcesFrom at h
    cases hs : resolveInputResource d m index r with
    | error e => simp [hs] at h
    | ok ma =>
      rw [hs] at h
      obtain ⟨ka, kb⟩ := resolveInputResource_backed d m index r ma hs hm hb
      exact ih (index + 1) ma h ka kb

theorem ResolveInputResources_backed (d : Deps) (m m1 : PodBuilder)
    (h : ResolveInputResources d m = .ok m1) (hm : MountsBacked m) (hb : BaseVolumes d m) :
    MountsBacked m1 ∧ BaseVolumes d m1 := by
  unfold ResolveInputResources at h
  cases hs : stagePod m with
  | error e => simp [hs] at h
  | ok p =>
    rw [hs] at h
    exact resolveInputResourcesFrom_backed d 0 _ m m1 h hm hb


theorem outputMounts_backed (d : Deps) (m : PodBuilder) (r : PathItem) (resource : Resource)
    (hm : MountsBacked m) (hb : BaseVolumes d m) :
    MountsBacked (outputMounts d m r resource).2 ∧
    (∀ vm ∈ (outputMounts d m r resource).1, vm.Name ∈ volumeNames (outputMounts d m r resource).2) ∧
    Grows m (outputMounts d m r resource).2 ∧
    (outputMounts d m r resource).2.pod.Spec.Containers = m.pod.Spec.Containers ∧
    (outputMounts d m r resource).2.pod.Spec.InitContainers = m.pod.Spec.InitContainers := by
  have himg : ∀ names : List String, d.DockerSockVolume ∈ names →
      (d.ConfigSecret ≠ "" → d.DockerConfigJSONVolume ∈ names) →
      ∀ vm ∈ (if resource.ResourceType = d.ImageResourceType then
          [({ Name := d.DockerSockVolume, MountPath := d.DockerSockPath, SubPath := "" } :
            VolumeMount)] ++
            (if d.ConfigSecret ≠ "" then
              [{ Name := d.DockerConfigJSONVolume, MountPath := d.DockerConfigPath, SubPath := "" }]
            else [])
        else []), vm.Name ∈ names := by
    intro names hs hc vm hvm
    split at hvm
    · rcases List.mem_append.mp hvm with h | h
      · rw [List.mem_singleton] at h
        rw [h]; exact hs
      · split at h
        · rename_i hsec
          rw [List.mem_singleton] at h
          rw [h]; exact hc hsec
        · cases h
    · cases hvm
  cases hc : resource.Persistent with
  | some persistent =>
    have cc := CreatePVCVolume_backed m (d.OutputResourceVolumeName r.Name) persistent.PVC hm
    have e : outputMounts d m r resource =
        ([({ Name := d.CoordinatorSidecarVolumeName, MountPath := d.ResolverNotifyDirPath,
             SubPath := d.ResolverNotifyDir } : VolumeMount)] ++
          [({ Name := (CreatePVCVolume m (d.OutputResourceVolumeName r.Name) persistent.PVC).1
              MountPath :=
                d.filepathJoin d.ResolverDefaultDataPath (d.filepathBase persistent.Path)
              SubPath := persistent.Path } : VolumeMount)] ++
          (if resource.ResourceType = d.ImageResourceType then
            [({ Name := d.DockerSockVolume, MountPath := d.DockerSockPath, SubPath := "" } :
              VolumeMount)] ++
              (if d.ConfigSecret ≠ "" then
                [{ Name := d.DockerConfigJSONVolume, MountPath := d.DockerConfigPath,
                   SubPath := "" }]
              else [])
          else []),
         (CreatePVCVolume m (d.OutputResourceVolumeName r.Name) persistent.PVC).2) := by
      simp only [outputMounts, hc]
    rw [e]
    obtain ⟨c1, c2, c3, c4, c5⟩ := cc
    have hb1 := BaseVolumes_of_grows hb c3
    refine ⟨c1, ?_, c3, c4, c5⟩
    intro vm hvm
    dsimp only at hvm ⊢
    rcases List.mem_append.mp hvm with h | h
    · rcases List.mem_append.mp h with h0 | h0
      · rw [List.mem_singleton] at h0
        rw [h0]; exact hb1.1
      · rw [List.mem_singleton] at h0
        rw [h0]; exact c2
    · exact himg _ hb1.2.1 hb1.2.2.2 vm h
  | none =>
    have e : outputMounts d m r resource =
        ([({ Name := d.CoordinatorSidecarVolumeName, MountPath := d.ResolverNotifyDirPath,
             SubPath := d.ResolverNotifyDir } : VolumeMount)] ++
          [({ Name := d.CoordinatorSidecarVolumeName, MountPath := d.ResolverDefaultDataPath,
              SubPath := "resources/" ++ resource.Name } : VolumeMount)] ++
          (if resource.ResourceType = d.ImageResourceType then
            [({ Name := d.DockerSockVolume, MountPath := d.DockerSockPath, SubPath := "" } :
              VolumeMount)] ++
              (if d.ConfigSecret ≠ "" then
                [{ Name := d.DockerConfigJSONVolume, MountPath := d.DockerConfigPath,
                   SubPath := "" }]
              else [])
          else []),
         m) := by
      simp only [outputMounts, hc]
    rw [e]
    refine ⟨hm, ?_, Grows_same m, rfl, rfl⟩
    intro vm hvm
    dsimp only at hvm ⊢
    rcases List.mem_append.mp hvm with h | h
    · rcases List.mem_append.mp h with h0 | h0
      · rw [List.mem_singleton] at h0
        rw [h0]; exact hb.1
      · rw [List.mem_singleton] at h0
        rw [h0]; exact hb.1
    · exact himg _ hb.2.1 hb.2.2.2 vm h


theorem resolveOutputResource_backed (d : Deps) (m : PodBuilder) (index : Nat) (r : PathItem)
    (m1 : PodBuilder) (h : resolveOutputResource d m index r = .ok m1)
    (hm : MountsBacked m) (hb : BaseVolumes d m) : MountsBacked m1 ∧ BaseVolumes d m1 := by
  unfold resolveOutputResource at h
  cases hg : d.getResource m.wfr.Namespace r.Name with
  | error e => simp [hg] at h
  | ok resource =>
    rw [hg] at h
    simp only at h
    cases he : resolveEnvs d (resourceEnvsMap m r.Name resource []) with
    | error e => simp [he] at h
    | ok envs =>
      rw [he] at h
      simp only [Except.ok.injEq] at h
      have hm0 : MountsBacked { m with outputResources := m.outputResources ++ [resource] } := hm
      have hb0 : BaseVolumes d { m with outputResources := m.outputResources ++ [resource] } := hb
      have k := outputMounts_backed d { m with outputResources := m.outputResources ++ [resource] }
        r resource hm0 hb0
      generalize outputMounts d { m with outputResources := m.outputResources ++ [resource] } r
        resource = res at h k
      obtain ⟨mounts, mb⟩ := res
      simp only at h k
      obtain ⟨k1, k2, k3, _, _⟩ := k
      subst h
      refine ⟨⟨?_, k1.2.1, k1.2.2⟩, BaseVolumes_of_grows hb0 k3⟩
      intro c hc
      have hc1 : c ∈ mb.pod.Spec.Containers ++
          [({ Name := d.OutputContainerName (index + 1), Image := resolverImage d resource,
              Args := [d.ResourcePushCommand], Env := envs, VolumeMounts := mounts,
              ImagePullPolicy := d.ImagePullPolicy, Resources := ResourceRequirements.zero,
              Rest := "" } : Container)] := hc
      rcases List.mem_append.mp hc1 with h0 | h0
      · exact k1.1 c h0
      · rw [List.mem_singleton] at h0
        rw [h0]
        exact k2

theorem resolveOutputResourcesFrom_backed (d : Deps) (index : Nat) (rs : List PathItem)
    (m m1 : PodBuilder) (h : resolveOutputResourcesFrom d index rs m = .ok m1)
    (hm : MountsBacked m) (hb : BaseVolumes d m) : MountsBacked m1 ∧ BaseVolumes d m1 := by
  induction rs generalizing index m with
  | nil =>
    simp only [resolveOutputResourcesFrom, Except.ok.injEq] at h
    subst h
    exact ⟨hm, hb⟩
  | cons r rest ih =>
    unfold resolveOutputResourcesFrom at h
    cases hs : resolveOutputResource d m index r with
    | error e => simp [hs] at h
    | ok ma =>
      rw [hs] at h
      obtain ⟨ka, kb⟩ := resolveOutputResource_backed d m index r ma hs hm hb
      exact ih (index + 1) ma h ka kb

theorem ResolveOutputResources_backed (d : Deps) (m m1 : PodBuilder)
    (h : ResolveOutputResources d m = .ok m1) (hm : MountsBacked m) (hb : BaseVolumes d m) :
    MountsBacked m1 ∧ BaseVolumes d m1 := by
  unfold ResolveOutputResources at h
  cases hs : stagePod m with
  | error e => simp [hs] at h
  | ok p =>
    rw [hs] at h
    exact resolveOutputResourcesFrom_backed d 0 _ m m1 h hm hb

theorem mountArtifact_mounts (d : Deps) (m : PodBuilder) (artifact : PathItem)
    (parts : List String) (names : List String) (hv : d.DefaultPvVolumeName ∈ names)
    (cs cs1 : List Container) (h : mountArtifact d m artifact parts cs = .ok cs1)
    (hcs : ∀ c ∈ cs, MountsIn names c) : ∀ c ∈ cs1, MountsIn names c := by
  induction cs generalizing cs1 with
  | nil =>
    simp only [mountArtifact, Except.ok.injEq] at h
    subst h
    intro c hc
    cases hc
  | cons c0 rest ih =>
    unfold mountArtifact at h
    split at h
    · rename_i p0 p1 tail
      cases hf : ArtifactFileName d m p0 p1 with
      | error e => simp [hf] at h
      | ok fileName =>
        rw [hf] at h
        simp only at h
        cases hr : mountArtifact d m artifact (p0 :: p1 :: tail) rest with
        | error e => simp [hr] at h
        | ok cs2 =>
          rw [hr] at h
          simp only [Except.ok.injEq] at h
          subst h
          intro c hc
          rcases List.mem_cons.mp hc with h0 | h0
          · rw [h0]
            split
            · intro vm hvm
              rcases List.mem_append.mp hvm with h1 | h1
              · exact hcs c0 (List.mem_cons_self _ _) vm h1
              · rw [List.mem_singleton] at h1
                rw [h1]
                exact hv
            · exact hcs c0 (List.mem_cons_self _ _)
          · exact ih cs2 hr (fun c1 hc1 => hcs c1 (List.mem_cons_of_mem _ hc1)) c h0
    · exact Except.noConfusion h

theorem resolveInputArtifactsLoop_backed (d : Deps) (stg : Stage) (wfStage : StageItem)
    (artifacts : List PathItem) (m m1 : PodBuilder)
    (h : resolveInputArtifactsLoop d stg wfStage artifacts m = .ok m1)
    (hv : d.DefaultPvVolumeName ∈ volumeNames m)
    (hm : MountsBacked m) (hb : BaseVolumes d m) : MountsBacked m1 ∧ BaseVolumes d m1 := by
  induction artifacts generalizing m with
  | nil =>
    simp only [resolveInputArtifactsLoop, Except.ok.injEq] at h
    subst h
    exact ⟨hm, hb⟩
  | cons artifact rest ih =>
    unfold resolveInputArtifactsLoop at h
    simp only at h
    split at h
    · exact Except.noConfusion h
    · cases hma : mountArtifact d m artifact
          (splitSlash (artifactSource wfStage.Artifacts artifact.Name)) m.pod.Spec.Containers with
      | error e => simp [hma] at h
      | ok containers =>
        rw [hma] at h
        simp only at h
        have hc := mountArtifact_mounts d m artifact _ (volumeNames m) hv _ _ hma hm.1
        exact ih _ h hv ⟨hc, hm.2.1, hm.2.2⟩ hb

theorem ResolveInputArtifacts_backed (d : Deps) (m m1 : PodBuilder)
    (h : ResolveInputArtifacts d m = .ok m1) (hm : MountsBacked m) (hb : BaseVolumes d m) :
    MountsBacked m1 ∧ BaseVolumes d m1 := by
  unfold ResolveInputArtifacts at h
  cases hstg : m.stg with
  | none => simp [hstg] at h
  | some stg =>
    rw [hstg] at h
    simp only at h
    split at h
    · exact Except.noConfusion h
    · split at h
      · exact Except.noConfusion h
      · rename_i hnone hcount
        cases hw : m.wf.Stages.find? (fun s => s.Name = stg.Name) with
        | none => simp [hw] at h
        | some wfStage =>
          rw [hw] at h
          simp only at h
          cases hp : stg.Pod with
          | none => simp [hp] at h
          | some sp =>
            rw [hp] at h
            simp only at h
            by_cases hpvc : m.executionContext.PVC = ""
            · have hnil : sp.Inputs.Artifacts = [] := by
                by_contra hne
                apply hcount
                refine ⟨hpvc, ?_⟩
                rw [hp]
                simp only [Option.map_some', Option.getD_some]
                exact List.length_pos.mpr hne
              rw [hnil] at h
              simp only [resolveInputArtifactsLoop, Except.ok.injEq] at h
              subst h
              exact ⟨hm, hb⟩
            · exact resolveInputArtifactsLoop_backed d stg wfStage _ m m1 h (hb.2.2.1 hpvc) hm hb


/-- A pass that rewrites the containers one by one without touching their
mounts, the volumes or the mapping keeps the mounts backed. -/
theorem MountsBacked_of_map (m : PodBuilder) (spec : PodSpec) (f g : Container → Container)
    (hf : ∀ c, (f c).VolumeMounts = c.VolumeMounts) (hg : ∀ c, (g c).VolumeMounts = c.VolumeMounts)
    (hv : spec.Volumes = m.pod.Spec.Volumes)
    (hc : spec.Containers = m.pod.Spec.Containers.map f)
    (hi : spec.InitContainers = m.pod.Spec.InitContainers.map g)
    (hm : MountsBacked m) : MountsBacked (m.withSpec spec) := by
  have hn : volumeNames (m.withSpec spec) = volumeNames m := by
    unfold volumeNames PodBuilder.withSpec
    dsimp only
    rw [hv]
  refine ⟨?_, ?_, ?_⟩
  · intro c hcm
    have hcm1 : c ∈ spec.Containers := hcm
    rw [hc] at hcm1
    obtain ⟨c0, hc0, hce⟩ := List.mem_map.mp hcm1
    rw [hn, ← hce]
    intro vm hvm
    rw [hf] at hvm
    exact hm.1 c0 hc0 vm hvm
  · intro c hcm
    have hcm1 : c ∈ spec.InitContainers := hcm
    rw [hi] at hcm1
    obtain ⟨c0, hc0, hce⟩ := List.mem_map.mp hcm1
    rw [hn, ← hce]
    intro vm hvm
    rw [hg] at hvm
    exact hm.2.1 c0 hc0 vm hvm
  · intro p n hpn
    rw [hn]
    exact hm.2.2 p n hpn

theorem BaseVolumes_withSpec (d : Deps) (m : PodBuilder) (spec : PodSpec)
    (hv : spec.Volumes = m.pod.Spec.Volumes) (hb : BaseVolumes d m) :
    BaseVolumes d (m.withSpec spec) := by
  refine BaseVolumes_of_grows hb ⟨?_, rfl⟩
  unfold volumeNames PodBuilder.withSpec
  dsimp only
  rw [hv]
  exact fun _ h => h

theorem AddVolumeMounts_backed (d : Deps) (m m1 : PodBuilder)
    (h : AddVolumeMounts d m = .ok m1) (hm : MountsBacked m) (hb : BaseVolumes d m) :
    MountsBacked m1 ∧ BaseVolumes d m1 := by
  by_cases hp : m.executionContext.PVC = ""
  · have e : AddVolumeMounts d m = .ok m := by simp [AddVolumeMounts, hp]
    rw [e] at h
    injection h with h
    subst h
    exact ⟨hm, hb⟩
  · cases hstg : m.stg with
    | none =>
      cases hcs : m.pod.Spec.Containers with
      | nil =>
        have e : AddVolumeMounts d m = .ok (m.withSpec { m.pod.Spec with Containers := [] }) := by
          simp [AddVolumeMounts, hp, hcs]
        rw [e] at h
        injection h with h
        subst h
        refine ⟨⟨?_, hm.2.1, hm.2.2⟩, BaseVolumes_withSpec d m _ rfl hb⟩
        intro c hc
        cases hc
      | cons c0 rest =>
        have e : AddVolumeMounts d m = .error (.crash "nil stage") := by
          simp [AddVolumeMounts, hp, hcs, hstg]
        rw [e] at h
        cases h
    | some stg =>
      rw [AddVolumeMounts_eq d m stg hstg, if_neg hp] at h
      injection h with h
      subst h
      refine ⟨⟨?_, hm.2.1, hm.2.2⟩, BaseVolumes_withSpec d m _ rfl hb⟩
      intro c hc
      have hc1 : c ∈ m.pod.Spec.Containers.map (addStageMount d m.wfr.Name stg.Name) := hc
      obtain ⟨c0, hc0, hce⟩ := List.mem_map.mp hc1
      rw [← hce]
      intro vm hvm
      rcases List.mem_append.mp hvm with h1 | h1
      · exact hm.1 c0 hc0 vm h1
      · rw [List.mem_singleton] at h1
        rw [h1]
        exact hb.2.2.1 hp

theorem AddCoordinator_backed (d : Deps) (m m1 : PodBuilder)
    (h : AddCoordinator d m = .ok m1) (hm : MountsBacked m) (hb : BaseVolumes d m) :
    MountsBacked m1 ∧ BaseVolumes d m1 := by
  unfold AddCoordinator at h
  simp only [bind_eq_ok, pure, Except.pure, Except.ok.injEq] at h
  obtain ⟨_, _, _, _, _, _, _, _, h⟩ := h
  subst h
  refine ⟨⟨?_, hm.2.1, hm.2.2⟩, BaseVolumes_withSpec d m _ rfl hb⟩
  intro c hc
  rcases List.mem_append.mp hc with h0 | h0
  · exact hm.1 c h0
  · rw [List.mem_singleton] at h0
    rw [h0]
    intro vm hvm
    simp only [coordinatorContainer] at hvm
    rcases List.mem_append.mp hvm with h1 | h1
    · simp only [List.mem_cons, List.mem_singleton, List.not_mem_nil, or_false] at h1
      rcases h1 with h1 | h1
      · rw [h1]; exact hb.2.1
      · rw [h1]; exact hb.1
    · split at h1
      · rename_i hp
        rw [List.mem_singleton] at h1
        rw [h1]
        exact hb.2.2.1 hp
      · cases h1

theorem InjectEnvs_backed (d : Deps) (m m1 : PodBuilder)
    (h : InjectEnvs d m = .ok m1) (hm : MountsBacked m) (hb : BaseVolumes d m) :
    MountsBacked m1 ∧ BaseVolumes d m1 := by
  simp only [InjectEnvs, Except.ok.injEq] at h
  subst h
  refine ⟨MountsBacked_of_map m _ (fun c => { c with Env := c.Env ++ injectedEnvs d m }) id
    (fun _ => rfl) (fun _ => rfl) rfl rfl ?_ hm, BaseVolumes_withSpec d m _ rfl hb⟩
  simp

theorem ApplyResourceRequirements_backed (d : Deps) (m m1 : PodBuilder)
    (h : ApplyResourceRequirements d m = .ok m1) (hm : MountsBacked m) (hb : BaseVolumes d m) :
    MountsBacked m1 ∧ BaseVolumes d m1 := by
  rw [ApplyResourceRequirements_eq] at h
  injection h with h
  subst h
  refine ⟨MountsBacked_of_map m _ (bothRounds d m)
      (applyToContainer d.ConfigResourceRequirements AllContainers) ?_ ?_ rfl rfl rfl hm,
    BaseVolumes_withSpec d m _ rfl hb⟩
  · intro c
    have e := (bothRounds_get d m c).1
    rw [e]
  · intro c
    have e := (applyToContainer_get d.ConfigResourceRequirements AllContainers c).2.1
    rw [e]

theorem ApplyServiceAccount_backed (d : Deps) (m m1 : PodBuilder)
    (h : ApplyServiceAccount d m = .ok m1) (hm : MountsBacked m) (hb : BaseVolumes d m) :
    MountsBacked m1 ∧ BaseVolumes d m1 := by
  simp only [ApplyServiceAccount, Except.ok.injEq] at h
  subst h
  refine ⟨MountsBacked_of_map m _ id id (fun _ => rfl) (fun _ => rfl) rfl ?_ ?_ hm,
    BaseVolumes_withSpec d m _ rfl hb⟩
  · simp
  · simp


/-- Claim C26. Take a pod returned by `Build` on a freshly constructed
builder whose pod spec after templating (the pod template of the stage once
`ResolveArguments` has rendered and decoded it) has no volume mount in any
container or init container. Then every volume mount of every container and
init container of the pod names a volume of the pod's volume list, whatever
the common PVC, the resources and the registry secret are. -/
theorem Build_mounts_name_volumes (d : Deps) (wf : Workflow) (wfr : WorkflowRun)
    (stage : String) (m1 m2 : PodBuilder) (pod : Pod)
    (h1 : Prepare d (NewPodBuilder d wf wfr stage) = .ok m1)
    (h2 : ResolveArguments d m1 = .ok m2)
    (hplain : ∀ c ∈ m2.pod.Spec.Containers ++ m2.pod.Spec.InitContainers, c.VolumeMounts = [])
    (hb : Build d (NewPodBuilder d wf wfr stage) = .ok pod) :
    ∀ c ∈ pod.Spec.Containers ++ pod.Spec.InitContainers, ∀ vm ∈ c.VolumeMounts,
      ∃ v ∈ pod.Spec.Volumes, v.Name = vm.Name := by
  obtain ⟨n1, n2, m3, m4, m5, m6, m7, m8, m9, m10, m11, g1, g2, g3, g4, g5, g6, g7, g8, g9, g10,
    g11, hpod⟩ := Build_ok d _ pod hb
  rw [h1] at g1
  injection g1 with g1
  subst g1
  rw [h2] at g2
  injection g2 with g2
  subst g2
  have hpv : m2.pvcVolumes = [] := by
    rw [(ResolveArguments_ok d m1 m2 h2).2.2.1, (Prepare_ok d _ m1 h1).2.2.1]
    rfl
  have k2 : MountsBacked m2 := by
    refine ⟨?_, ?_, ?_⟩
    · intro c hc vm hvm
      rw [hplain c (List.mem_append_left _ hc)] at hvm
      cases hvm
    · intro c hc vm hvm
      rw [hplain c (List.mem_append_right _ hc)] at hvm
      cases hvm
    · intro p n hpn
      rw [hpv] at hpn
      simp [mapGet] at hpn
  obtain ⟨k3, b3⟩ := CreateVolumes_backed d m2 m3 g3 k2
  obtain ⟨k4, b4⟩ := ResolveInputResources_backed d m3 m4 g4 k3 b3
  obtain ⟨k5, b5⟩ := ResolveOutputResources_backed d m4 m5 g5 k4 b4
  obtain ⟨k6, b6⟩ := ResolveInputArtifacts_backed d m5 m6 g6 k5 b5
  obtain ⟨k7, b7⟩ := AddVolumeMounts_backed d m6 m7 g7 k6 b6
  obtain ⟨k8, b8⟩ := AddCoordinator_backed d m7 m8 g8 k7 b7
  obtain ⟨k9, b9⟩ := InjectEnvs_backed d m8 m9 g9 k8 b8
  obtain ⟨k10, b10⟩ := ApplyResourceRequirements_backed d m9 m10 g10 k9 b9
  obtain ⟨k11, _⟩ := ApplyServiceAccount_backed d m10 m11 g11 k10 b10
  rw [hpod]
  intro c hc vm hvm
  have hin : vm.Name ∈ volumeNames m11 := by
    rcases List.mem_append.mp hc with h0 | h0
    · exact k11.1 c h0 vm hvm
    · exact k11.2.1 c h0 vm hvm
  obtain ⟨v, hv, hve⟩ := List.mem_map.mp hin
  exact ⟨v, hv, hve⟩

/-- Claim C26 at the stage `build` of the worked examples, with the common
PVC `pvc-t1`: the pod is built, and each mount of its containers and of its
init container names one of its volumes. -/
theorem Build_mounts_name_volumes_witness :
    ∃ pod, Build (buildDeps "pvc-t1" []) (buildBuilder "pvc-t1" []) = .ok pod ∧
      pod.Spec.Volumes.map (fun v => v.Name) = ["coordinatorShared", "commonPV", "docker-sock"] ∧
      (pod.Spec.Containers ++ pod.Spec.InitContainers).map
          (fun c => (c.Name, c.VolumeMounts.map (fun vm => vm.Name))) =
        [("main", ["commonPV", "commonPV"]), ("sc-db", ["commonPV"]),
         ("coordinator", ["docker-sock", "coordinatorShared", "commonPV"]),
         ("input-1", ["commonPV"])] ∧
      ∀ c ∈ pod.Spec.Containers ++ pod.Spec.InitContainers, ∀ vm ∈ c.VolumeMounts,
        ∃ v ∈ pod.Spec.Volumes, v.Name = vm.Name :=
  ⟨_, rfl, rfl, rfl,
   Build_mounts_name_volumes (buildDeps "pvc-t1" [])
     { Name := "wf", Stages := [{ Name := "build", Artifacts := [] }], Resources := none }
     { Name := "run", Namespace := "ns", Stages := [], Resources := [] } "build" _ _ _ rfl rfl
     (by decide) rfl⟩

end Cyclone
